import Mathlib

/-!
# numpy multiarray core: ownership of `base`, text comparison, record comparison,
stride checks, construction and scalar assignment

A shallow embedding of parts of `numpy/core/src/multiarray/arrayobject.cpp`.

* Objects live in a heap, a list of objects addressed by their index; a C
  pointer is an index, `NULL` is `none`.  Reference counts are not modelled.
* The array `flags` word is a natural number, tested with `PyArray_CHKFLAGS`.
* A `while` loop whose termination depends on the heap takes a fuel argument
  that bounds the number of iterations; `none` means the bound was reached.
* Text elements are lists of code units (natural numbers): bytes for
  `_mystrncmp`, UCS4 code points for `_myunincmp`.
* Values of type `int` and `npy_intp` are exact integers.
* A function defined outside this source file is a field of a structure of
  collaborators, passed to the function that calls it.
-/

namespace NumpyCore

/-! ## Errors -/

/-- Errors raised by the functions embedded here.  The first three are the
`ValueError`s of `PyArray_SetBaseObject`, named as in the specification:
`InvalidBase` is "Cannot set the NumPy array 'base' dependency to NULL after
initialization", `AlreadyBound` is "... dependency more than once",
`CircularBase` is "Cannot create a circular NumPy array 'base' dependency".
`UnsupportedComparison` is the `ValueError` "Void-arrays can only be compared
for equality.", `NoFieldsFound` is the `ValueError` "No fields found.",
`BadOperator` is the `RuntimeError` "bad comparison operator", `NoMemory` is
`PyErr_NoMemory()`, `TypeMismatch` is the `TypeError` "invalid string
data-types in comparison", and `External n` is a failure reported by a
collaborator outside this file. -/
inductive PyErr where
  | InvalidBase
  | AlreadyBound
  | CircularBase
  | UnsupportedComparison
  | NoFieldsFound
  | BadOperator
  | NoMemory
  | TypeMismatch
  | External (code : Nat)
  deriving DecidableEq, Repr

/-! ## Heap of objects -/

/-- The fields of `PyArrayObject_fields` read or written by the code below:
the `flags` word and the `base` pointer. -/
structure PyArrayObject_fields where
  flags : Nat
  base : Option Nat
  deriving DecidableEq, Repr

/-- A heap object: an array (`PyArray_Check` holds) or any other object. -/
inductive PyObject where
  | ndarray (fields : PyArrayObject_fields)
  | object
  deriving DecidableEq, Repr

/-- The heap: object number `i` is stored at index `i`.  An address outside
the list denotes an object that is not an array. -/
abbrev Heap := List PyObject

/-- Modelled from the spec: the constant `NPY_ARRAY_OWNDATA` is declared in
`ndarraytypes.h`, which is not part of the sources at hand.  The
specification lists OWN_DATA as one bit of the `flags` bit set; the bit used
here is `0x0004`; the general theorems do not depend on the value. -/
def NPY_ARRAY_OWNDATA : Nat := 0x0004

/-- Modelled from the spec: the constant `NPY_ARRAY_OWNMASKNA` is declared in
`ndarraytypes.h`, which is not part of the sources at hand.  The
specification lists OWN_MASK as one bit of the `flags` bit set; the bit used
here is `0x4000`; the general theorems do not depend on the value. -/
def NPY_ARRAY_OWNMASKNA : Nat := 0x4000

/-- Modelled from the spec: the macro `PyArray_CHKFLAGS(arr, FLAGS)` is
declared in `ndarraytypes.h`, which is not part of the sources at hand.  The
specification speaks of a flag being set in the bit set `flags`: all bits of
`FLAGS` are set in the flags word, `(flags & FLAGS) == FLAGS`. -/
def PyArray_CHKFLAGS (flags FLAGS : Nat) : Bool :=
  Nat.land flags FLAGS == FLAGS

/-- The array fields stored at address `p`, if `p` is an array. -/
def arrayAt (h : Heap) (p : Nat) : Option PyArrayObject_fields :=
  match h[p]? with
  | some (PyObject.ndarray f) => some f
  | _ => none

/-- Macro `PyArray_Check(obj)`: the object at `p` is an array. -/
def PyArray_Check (h : Heap) (p : Nat) : Bool :=
  (arrayAt h p).isSome

/-- The flags word of the array at `p` (0 when `p` is not an array). -/
def PyArray_FLAGS (h : Heap) (p : Nat) : Nat :=
  match arrayAt h p with
  | some f => f.flags
  | none => 0

/-- Macro `PyArray_BASE(arr)`: the `base` pointer of the array at `p`. -/
def PyArray_BASE (h : Heap) (p : Nat) : Option Nat :=
  match arrayAt h p with
  | some f => f.base
  | none => none

/-- The assignment `((PyArrayObject_fields *)arr)->base = obj`. -/
def setBaseField (h : Heap) (arr : Nat) (obj : Option Nat) : Heap :=
  match arrayAt h arr with
  | some f => h.set arr (PyObject.ndarray { f with base := obj })
  | none => h

/-! ## `PyArray_SetBaseObject` -/

/-- The `while` loop of `PyArray_SetBaseObject` (lines 104-129), started at
`obj`; the result is the value of `obj` when the loop is left.  Each
iteration uses one unit of fuel. -/
def collapseLoop (h : Heap) (arr : Nat) : Nat → Nat → Option Nat
  | 0, _ => none
  | fuel + 1, obj =>
    if PyArray_Check h obj && arr != obj then
      -- If this array owns its own data, stop collapsing
      if PyArray_CHKFLAGS (PyArray_FLAGS h obj) NPY_ARRAY_OWNDATA then some obj
      -- If 'arr' doesn't own its NA mask, then if 'obj' owns the mask, stop
      else if !PyArray_CHKFLAGS (PyArray_FLAGS h arr) NPY_ARRAY_OWNMASKNA &&
          PyArray_CHKFLAGS (PyArray_FLAGS h obj) NPY_ARRAY_OWNMASKNA then some obj
      else
        -- If there's no base, stop collapsing
        match PyArray_BASE h obj with
        | none => some obj
        | some tmp => collapseLoop h arr fuel tmp
    else some obj

/-- What a call of `PyArray_SetBaseObject` leaves behind: the returned `int`,
the heap, and the error set (if any). -/
structure SetBaseResult where
  ret : Int
  heap : Heap
  err : Option PyErr
  deriving DecidableEq, Repr

/-- The function `PyArray_SetBaseObject(arr, obj)`; `obj = none` is `NULL`.
`none` is returned when the collapsing loop did not finish within `fuel`
iterations. -/
def PyArray_SetBaseObject (fuel : Nat) (h : Heap) (arr : Nat) (obj : Option Nat) :
    Option SetBaseResult :=
  match obj with
  | none => some ⟨-1, h, some PyErr.InvalidBase⟩
  | some obj =>
    if (PyArray_BASE h arr).isSome then some ⟨-1, h, some PyErr.AlreadyBound⟩
    else
      match collapseLoop h arr fuel obj with
      | none => none
      | some obj =>
        -- Disallow circular references
        if arr = obj then some ⟨-1, h, some PyErr.CircularBase⟩
        else some ⟨0, setBaseField h arr (some obj), none⟩

/-! ### Chains of views (the vocabulary of the claims) -/

/-- A view in the sense of the claims: an array that owns neither its data
nor its mask. -/
def isView (h : Heap) (p : Nat) : Bool :=
  PyArray_Check h p && !PyArray_CHKFLAGS (PyArray_FLAGS h p) NPY_ARRAY_OWNDATA &&
    !PyArray_CHKFLAGS (PyArray_FLAGS h p) NPY_ARRAY_OWNMASKNA

/-- The chain `v1 -> v2 -> ... -> vk -> last`: every `vi` is a view whose
base is the next element, and the base of `vk` is `last`. -/
def isViewChain (h : Heap) : List Nat → Nat → Bool
  | [], _ => true
  | v :: rest, last =>
    isView h v && (PyArray_BASE h v == some (rest.headD last)) && isViewChain h rest last

/-- The sequence `candidate, candidate.base, candidate.base.base, ...`. -/
def baseSeq (h : Heap) (cand : Nat) : Nat → Option Nat
  | 0 => some cand
  | n + 1 =>
    match baseSeq h cand n with
    | some o => PyArray_BASE h o
    | none => none

/-- The stop conditions of the collapsing walk as the specification lists
them: `o` is not an array or is `arr`; `o` owns its data; `arr` does not own
its mask while `o` does; `o` has no base. -/
def stopsAt (h : Heap) (arr o : Nat) : Bool :=
  (!PyArray_Check h o || o == arr) ||
  PyArray_CHKFLAGS (PyArray_FLAGS h o) NPY_ARRAY_OWNDATA ||
  (!PyArray_CHKFLAGS (PyArray_FLAGS h arr) NPY_ARRAY_OWNMASKNA &&
    PyArray_CHKFLAGS (PyArray_FLAGS h o) NPY_ARRAY_OWNMASKNA) ||
  (PyArray_BASE h o).isNone

/-! ## Fixed-width text comparison

A `char *` or `PyArray_UCS4 *` is the list of units from the pointer onwards:
`*s` is the head (0 past the end of the list), `s + n` drops `n` units. -/

/-- The C library `memcmp(s1, s2, n)`: bytes are compared as `unsigned char`;
the value is the difference of the first pair of differing bytes (only its
sign is fixed by the C standard). -/
def memcmp : List Nat → List Nat → Nat → Int
  | _, _, 0 => 0
  | s1, s2, n + 1 =>
    if s1.headD 0 ≠ s2.headD 0 then (s1.headD 0 : Int) - (s2.headD 0 : Int)
    else memcmp s1.tail s2.tail n

/-- The function `PyArray_CompareUCS4(s1, s2, len)`. -/
def PyArray_CompareUCS4 : List Nat → List Nat → Nat → Int
  | _, _, 0 => 0
  | s1, s2, len + 1 =>
    let c1 := s1.headD 0
    let c2 := s2.headD 0
    if c1 ≠ c2 then (if c1 < c2 then -1 else 1)
    else PyArray_CompareUCS4 s1.tail s2.tail len

/-- The loop `while (diff--) { if (*sptr != 0) return val; sptr++; }` followed
by `return 0`, shared by `_mystrncmp` and `_myunincmp`. -/
def nulTailLoop (val : Int) : List Nat → Nat → Int
  | _, 0 => 0
  | sptr, diff + 1 =>
    if sptr.headD 0 ≠ 0 then val else nulTailLoop val sptr.tail diff

/-- The function `_mystrncmp(s1, s2, len1, len2)`. -/
def _mystrncmp (s1 s2 : List Nat) (len1 len2 : Nat) : Int :=
  let val := memcmp s1 s2 (min len1 len2)
  if val ≠ 0 ∨ len1 = len2 then val
  else if len2 > len1 then nulTailLoop (-1) (s2.drop len1) (len2 - len1)
  else nulTailLoop 1 (s1.drop len2) (len1 - len2)

/-- The function `_myunincmp(s1, s2, len1, len2)`.  The copies made for
mis-aligned pointers hold the same units as the originals and are not
modelled. -/
def _myunincmp (s1 s2 : List Nat) (len1 len2 : Nat) : Int :=
  let val := PyArray_CompareUCS4 s1 s2 (min len1 len2)
  if val ≠ 0 ∨ len1 = len2 then val
  else if len2 > len1 then nulTailLoop (-1) (s2.drop len1) (len2 - len1)
  else nulTailLoop 1 (s1.drop len2) (len1 - len2)

/-- Macro `isspace(c)` as defined at line 810: space, tab, newline, carriage
return, vertical tab, form feed (the set of the C library function in the C
locale). -/
def isspace (c : Nat) : Bool :=
  c == 32 || c == 9 || c == 10 || c == 13 || c == 11 || c == 12

/-- The `for (i = n - 1; i >= 1; i--)` loop of `_rstripw` and `_unistripw`,
entered with loop variable `i`. -/
def stripLoop : List Nat → Nat → List Nat
  | s, 0 => s
  | s, i + 1 =>
    let c := s.getD (i + 1) 0
    if c == 0 || isspace c then stripLoop (s.set (i + 1) 0) i
    else s

/-- The function `_rstripw(s, n)`; the result is the buffer afterwards. -/
def _rstripw (s : List Nat) (n : Nat) : List Nat :=
  stripLoop s (n - 1)

/-- The function `_unistripw(s, n)`; the result is the buffer afterwards. -/
def _unistripw (s : List Nat) (n : Nat) : List Nat :=
  stripLoop s (n - 1)

/-- Constant `SMALL_STRING`. -/
def SMALL_STRING : Nat := 2048

/-- The function `_char_copy_n_strip(original, temp, nc)`: `malloc sz` tells
whether an allocation of `sz` bytes succeeds; `none` is the `NULL` returned
after `PyErr_NoMemory()`. -/
def _char_copy_n_strip (malloc : Nat → Bool) (original : List Nat) (nc : Nat) :
    Option (List Nat) :=
  if nc > SMALL_STRING && !malloc nc then none
  else some (_rstripw (original.take nc) nc)

/-- The function `_uni_copy_n_strip(original, temp, nc)`, with
`sizeof(PyArray_UCS4) = 4`. -/
def _uni_copy_n_strip (malloc : Nat → Bool) (original : List Nat) (nc : Nat) :
    Option (List Nat) :=
  if nc * 4 > SMALL_STRING && !malloc (nc * 4) then none
  else some (_unistripw (original.take nc) nc)

/-- The two comparison functions that `_strings_richcompare` passes to
`_compare_strings` as `func`. -/
inductive CompFunc where
  | mystrncmp
  | myunincmp
  deriving DecidableEq, Repr

/-- Calling the function pointer `compfunc`. -/
def CompFunc.call : CompFunc → List Nat → List Nat → Nat → Nat → Int
  | CompFunc.mystrncmp => _mystrncmp
  | CompFunc.myunincmp => _myunincmp

/-- The `stripfunc` chosen by `_compare_strings` for `compfunc`. -/
def CompFunc.stripfunc : CompFunc → (Nat → Bool) → List Nat → Nat → Option (List Nat)
  | CompFunc.mystrncmp => _char_copy_n_strip
  | CompFunc.myunincmp => _uni_copy_n_strip

/-- Comparison operator `Py_LT`.  The six operator codes are those of the
Python header `object.h`; the specification names them LT, LE, EQ, NE, GT,
GE. -/
def Py_LT : Nat := 0

/-- Comparison operator `Py_LE`. -/
def Py_LE : Nat := 1

/-- Comparison operator `Py_EQ`. -/
def Py_EQ : Nat := 2

/-- Comparison operator `Py_NE`. -/
def Py_NE : Nat := 3

/-- Comparison operator `Py_GT`. -/
def Py_GT : Nat := 4

/-- Comparison operator `Py_GE`. -/
def Py_GE : Nat := 5

/-- What `_compare_strings` leaves behind: the returned `int`, the data of
the `result` array, and the error set (if any). -/
structure CompareResult where
  ret : Int
  data : List Bool
  err : Option PyErr
  deriving DecidableEq, Repr

/-- Macro `_reg_loop(CMP)`: `size` iterations left, `i` elements already
visited; `iself i` and `iother i` are the elements under the two iterators
and `dptr` points at `data[i]`. -/
def _reg_loop (CMP : Int → Bool) (compfunc : CompFunc) (N1 N2 : Nat)
    (iself iother : Nat → List Nat) : Nat → Nat → List Bool → CompareResult
  | 0, _, data => ⟨0, data, none⟩
  | size + 1, i, data =>
    let val := compfunc.call (iself i) (iother i) N1 N2
    _reg_loop CMP compfunc N1 N2 iself iother size (i + 1) (data.set i (CMP val))

/-- Macro `_rstrip_loop(CMP)`, same conventions as `_reg_loop`. -/
def _rstrip_loop (CMP : Int → Bool) (compfunc : CompFunc) (malloc : Nat → Bool) (N1 N2 : Nat)
    (iself iother : Nat → List Nat) : Nat → Nat → List Bool → CompareResult
  | 0, _, data => ⟨0, data, none⟩
  | size + 1, i, data =>
    match compfunc.stripfunc malloc (iself i) N1 with
    | none => ⟨-1, data, some PyErr.NoMemory⟩
    | some aptr =>
      match compfunc.stripfunc malloc (iother i) N2 with
      | none => ⟨-1, data, some PyErr.NoMemory⟩
      | some bptr =>
        let val := compfunc.call aptr bptr N1 N2
        _rstrip_loop CMP compfunc malloc N1 N2 iself iother size (i + 1) (data.set i (CMP val))

/-- The function `_compare_strings(result, multi, cmp_op, func, rstrip)`.
`data` is the data of `result` on entry, `size` is `multi->size`, `iself` and
`iother` give the element under each iterator at every step, and `elsize1`,
`elsize2` are the element sizes in bytes of the two arrays (a unit of
`_myunincmp` is 4 bytes, hence `N >>= 2`). -/
def _compare_strings (malloc : Nat → Bool) (data : List Bool) (size : Nat)
    (iself iother : Nat → List Nat) (elsize1 elsize2 : Nat) (cmp_op : Nat)
    (func : CompFunc) (rstrip : Bool) : CompareResult :=
  let N1 := if func = CompFunc.myunincmp then elsize1 >>> 2 else elsize1
  let N2 := if func = CompFunc.myunincmp then elsize2 >>> 2 else elsize2
  let loop := fun (CMP : Int → Bool) =>
    if rstrip then _rstrip_loop CMP func malloc N1 N2 iself iother size 0 data
    else _reg_loop CMP func N1 N2 iself iother size 0 data
  if cmp_op = Py_EQ then loop (fun val => val == 0)
  else if cmp_op = Py_NE then loop (fun val => val != 0)
  else if cmp_op = Py_LT then loop (fun val => decide (val < 0))
  else if cmp_op = Py_LE then loop (fun val => decide (val ≤ 0))
  else if cmp_op = Py_GT then loop (fun val => decide (val > 0))
  else if cmp_op = Py_GE then loop (fun val => decide (val ≥ 0))
  else ⟨-1, data, some PyErr.BadOperator⟩

/-- The units of the longer of two elements beyond the length of the shorter
one (empty when the lengths agree). -/
def longerTail (s1 s2 : List Nat) : List Nat :=
  if s1.length < s2.length then s2.drop s1.length else s1.drop s2.length

/-- The control flow shared by `_mystrncmp` and `_myunincmp`, with the
comparison of the common prefix left open; used to prove facts about both. -/
def cmpWith (pc : List Nat → List Nat → Nat → Int) (s1 s2 : List Nat) (len1 len2 : Nat) : Int :=
  let val := pc s1 s2 (min len1 len2)
  if val ≠ 0 ∨ len1 = len2 then val
  else if len2 > len1 then nulTailLoop (-1) (s2.drop len1) (len2 - len1)
  else nulTailLoop 1 (s1.drop len2) (len1 - len2)

/-- The number of bytes of one unit of the elements compared by `func`: 1
for `_mystrncmp`, `sizeof(PyArray_UCS4) = 4` for `_myunincmp`. -/
def CompFunc.unitBytes : CompFunc → Nat
  | CompFunc.mystrncmp => 1
  | CompFunc.myunincmp => 4

/-- The sign facts a prefix comparison must satisfy. -/
def PrefixCmp (pc : List Nat → List Nat → Nat → Int) : Prop :=
  (∀ n s1 s2, (∀ j, j < n → s1.getD j 0 = s2.getD j 0) → pc s1 s2 n = 0) ∧
  (∀ n s1 s2 i, i < n → (∀ j, j < i → s1.getD j 0 = s2.getD j 0) →
    s1.getD i 0 < s2.getD i 0 → pc s1 s2 n < 0) ∧
  (∀ n s1 s2 i, i < n → (∀ j, j < i → s1.getD j 0 = s2.getD j 0) →
    s2.getD i 0 < s1.getD i 0 → 0 < pc s1 s2 n)

/-! ## Structured (record) comparison: `_void_compare`

`_void_compare` orchestrates calls to collaborators that live outside
`arrayobject.cpp` (field extraction, the generic comparison of the field
sub-arrays, reshaping, reduction, the `logical_and`/`logical_or` ufuncs).
They are the fields of `Collaborators`; a failing call (`NULL` with an error
set) is `Except.error`. -/

/-- Objects handled while comparing records: an array of booleans with its
shape and its data in row-major order, or any other object
(`Py_NotImplemented`, a scalar, ...). -/
inductive CmpObj where
  | ndarray (shape : List Nat) (data : List Bool)
  | object (tag : Nat)
  deriving DecidableEq, Repr

/-- Macro `PyArray_Check` on a comparison result. -/
def CmpObj.PyArray_Check : CmpObj → Bool
  | CmpObj.ndarray _ _ => true
  | CmpObj.object _ => false

/-- Macro `PyArray_NDIM` on a comparison result. -/
def CmpObj.PyArray_NDIM : CmpObj → Nat
  | CmpObj.ndarray shape _ => shape.length
  | CmpObj.object _ => 0

/-- Macro `PyArray_DIMS` on a comparison result. -/
def CmpObj.PyArray_DIMS : CmpObj → List Nat
  | CmpObj.ndarray shape _ => shape
  | CmpObj.object _ => []

/-- The two ufuncs `n_ops.logical_and` and `n_ops.logical_or`. -/
inductive NumOp where
  | logical_and
  | logical_or
  deriving DecidableEq, Repr

/-- The value stored under a key of the `fields` dictionary of a dtype: the
tuple `(dtype, offset)` or `(dtype, offset, title)`.  Only the title is read
by `_void_compare`; keys and titles are object identities. -/
structure FieldValue where
  title : Option Nat
  deriving DecidableEq, Repr

/-- Modelled from the spec: the macro `NPY_TITLE_KEY(key, value)` is declared
in `ndarraytypes.h`, which is not part of the sources at hand.  The
specification says that titles/aliases are skipped so that only the canonical
field name is compared once: a dictionary entry is a title entry when its
value carries a title and that title is the key of the entry. -/
def NPY_TITLE_KEY (key : Nat) (value : FieldValue) : Bool :=
  value.title == some key

/-- The collaborators of `_void_compare`, for operands of type `Arr`.
`fields` lists the entries of `PyArray_DESCR(self)->fields` in the order in
which `PyDict_Next` yields them.  `array_subscript` stands for both
`PyArray_EnsureAnyArray(array_subscript(self, key))` and
`array_subscript(other, key)`; `array_richcompare` is the recursive call on the
two field sub-arrays. -/
structure Collaborators (Arr : Type) where
  PyArray_NDIM : Arr → Nat
  PyArray_HASFIELDS : Arr → Bool
  fields : Arr → List (Nat × FieldValue)
  array_subscript : Arr → Nat → Except PyErr Arr
  array_richcompare : Arr → Arr → Nat → Except PyErr CmpObj
  PyArray_Newshape : CmpObj → List Int → Except PyErr CmpObj
  PyArray_GenericReduceFunction : CmpObj → NumOp → Nat → Except PyErr CmpObj
  PyObject_CallFunction : NumOp → CmpObj → CmpObj → Except PyErr CmpObj
  strings_richcompare : Arr → Arr → Nat → Bool → Except PyErr CmpObj

/-- Lines 1131-1148: extract field `key` from both operands and compare the
two sub-arrays with `cmp_op`. -/
def fieldCompare {Arr : Type} (env : Collaborators Arr) (self other : Arr) (cmp_op key : Nat) :
    Except PyErr CmpObj :=
  match env.array_subscript self key with
  | Except.error e => Except.error e
  | Except.ok a =>
    match env.array_subscript other key with
    | Except.error e => Except.error e
    | Except.ok b => env.array_richcompare a b cmp_op

/-- Lines 1155-1189: if `temp` is an array with more than `result_ndim`
dimensions, collapse the additional dimensions to one (unless there is
exactly one) and reduce it with `op`. -/
def collapseExtraDims {Arr : Type} (env : Collaborators Arr) (op : NumOp) (result_ndim : Nat)
    (temp : CmpObj) : Except PyErr CmpObj :=
  if temp.PyArray_Check && temp.PyArray_NDIM > result_ndim then
    if temp.PyArray_NDIM ≠ result_ndim + 1 then
      match env.PyArray_Newshape temp
          ((temp.PyArray_DIMS.take result_ndim).map Int.ofNat ++ [-1]) with
      | Except.error e => Except.error e
      | Except.ok temp2 => env.PyArray_GenericReduceFunction temp2 op result_ndim
    else env.PyArray_GenericReduceFunction temp op result_ndim
  else Except.ok temp

/-- The `while (PyDict_Next(...))` loop of `_void_compare` over the remaining
dictionary entries, with the accumulator `res` (`none` is `NULL`). -/
def voidFieldLoop {Arr : Type} (env : Collaborators Arr) (self other : Arr) (cmp_op : Nat)
    (op : NumOp) (result_ndim : Nat) :
    List (Nat × FieldValue) → Option CmpObj → Except PyErr (Option CmpObj)
  | [], res => Except.ok res
  | (key, value) :: entries, res =>
    if NPY_TITLE_KEY key value then
      voidFieldLoop env self other cmp_op op result_ndim entries res
    else
      match fieldCompare env self other cmp_op key with
      | Except.error e => Except.error e
      | Except.ok temp =>
        match collapseExtraDims env op result_ndim temp with
        | Except.error e => Except.error e
        | Except.ok temp =>
          match res with
          | none => voidFieldLoop env self other cmp_op op result_ndim entries (some temp)
          | some res =>
            match env.PyObject_CallFunction op res temp with
            | Except.error e => Except.error e
            | Except.ok temp2 =>
              voidFieldLoop env self other cmp_op op result_ndim entries (some temp2)

/-- The variable `result_ndim` of `_void_compare`. -/
def result_ndim {Arr : Type} (env : Collaborators Arr) (self other : Arr) : Nat :=
  if env.PyArray_NDIM self > env.PyArray_NDIM other then env.PyArray_NDIM self
  else env.PyArray_NDIM other

/-- The variable `op` of `_void_compare`:
`cmp_op == Py_EQ ? n_ops.logical_and : n_ops.logical_or`. -/
def reduceOp (cmp_op : Nat) : NumOp :=
  if cmp_op = Py_EQ then NumOp.logical_and else NumOp.logical_or

/-- The function `_void_compare(self, other, cmp_op)`.  No error is pending on
entry, so after the loop `res == NULL && !PyErr_Occurred()` holds exactly when
no field was compared. -/
def _void_compare {Arr : Type} (env : Collaborators Arr) (self other : Arr) (cmp_op : Nat) :
    Except PyErr CmpObj :=
  if !(cmp_op == Py_EQ || cmp_op == Py_NE) then Except.error PyErr.UnsupportedComparison
  else if env.PyArray_HASFIELDS self then
    match voidFieldLoop env self other cmp_op (reduceOp cmp_op) (result_ndim env self other)
        (env.fields self) none with
    | Except.error e => Except.error e
    | Except.ok none => Except.error PyErr.NoFieldsFound
    | Except.ok (some res) => Except.ok res
  else env.strings_richcompare self other cmp_op false

/-- The entries of a `fields` dictionary that are not title entries: every
field occurs once. -/
def canonicalFields (entries : List (Nat × FieldValue)) : List (Nat × FieldValue) :=
  entries.filter (fun kv => !NPY_TITLE_KEY kv.1 kv.2)

/-- The left fold `((c1 op c2) op c3) ...` of the results `c` of the fields
`rest` onto the accumulator `acc`, by calls of the ufunc `op`. -/
def foldFields {Arr : Type} (env : Collaborators Arr) (op : NumOp) (c : Nat → CmpObj) :
    List (Nat × FieldValue) → CmpObj → Except PyErr CmpObj
  | [], acc => Except.ok acc
  | kv :: rest, acc =>
    match env.PyObject_CallFunction op acc (c kv.1) with
    | Except.error e => Except.error e
    | Except.ok acc2 => foldFields env op c rest acc2

/-! ### A model of the collaborators on boolean arrays -/

/-- The boolean function computed elementwise by a ufunc. -/
def NumOp.apply : NumOp → Bool → Bool → Bool
  | NumOp.logical_and, a, b => a && b
  | NumOp.logical_or, a, b => a || b

/-- The reduction of a run of booleans by a ufunc, starting from its
identity. -/
def NumOp.reduce : NumOp → List Bool → Bool
  | NumOp.logical_and, l => l.all id
  | NumOp.logical_or, l => l.any id

/-- Modelled from the spec: `PyArray_Newshape` (shape.cpp) is not part of the
sources at hand.  `_void_compare` calls it with the leading dimensions
followed by `-1`, and the specification says the extra trailing dimensions
are collapsed: the new shape is the leading dimensions followed by the
product of the remaining ones, the data (row-major) is unchanged. -/
def boolNewshape (temp : CmpObj) (newdims : List Int) : Except PyErr CmpObj :=
  match temp with
  | CmpObj.ndarray shape data =>
    Except.ok (CmpObj.ndarray
      (newdims.dropLast.map Int.toNat ++ [(shape.drop newdims.dropLast.length).prod]) data)
  | CmpObj.object _ => Except.error (PyErr.External 0)

/-- Modelled from the spec: `PyArray_GenericReduceFunction` (number.cpp) is
not part of the sources at hand.  The specification says the extra dimension
is collapsed by reducing with the AND/OR operator: for an array whose last
axis is `axis`, entry `p` of the result is the reduction of the `p`-th run of
`w` consecutive elements, `w` being the extent of the last axis. -/
def boolReduce (temp : CmpObj) (op : NumOp) (axis : Nat) : Except PyErr CmpObj :=
  match temp with
  | CmpObj.ndarray shape data =>
    if shape.length = axis + 1 then
      Except.ok (CmpObj.ndarray (shape.take axis)
        ((List.range (shape.take axis).prod).map
          (fun p => op.reduce ((data.drop (p * (shape.drop axis).prod)).take
            (shape.drop axis).prod))))
    else Except.error (PyErr.External 0)
  | CmpObj.object _ => Except.error (PyErr.External 0)

/-- Modelled from the spec: the ufuncs `logical_and` and `logical_or`
(umath) are not part of the sources at hand.  The specification says the
per-field results are accumulated via logical AND / OR: on two boolean arrays
of the same shape the result is the elementwise combination.  Operands of
other kinds or of different shapes are outside this model and are reported
as a failure. -/
def boolCallFunction (op : NumOp) (a b : CmpObj) : Except PyErr CmpObj :=
  match a, b with
  | CmpObj.ndarray s1 d1, CmpObj.ndarray s2 d2 =>
    if s1 = s2 then Except.ok (CmpObj.ndarray s1 (List.zipWith op.apply d1 d2))
    else Except.error (PyErr.External 0)
  | _, _ => Except.error (PyErr.External 0)

/-- The operands that occur in a comparison of two records: the two arrays
and their field sub-arrays. -/
inductive RecOperand where
  | self
  | other
  | selfField (key : Nat)
  | otherField (key : Nat)
  deriving DecidableEq, Repr

/-- Collaborators for two record arrays `self` and `other` of `ndimSelf` and
`ndimOther` dimensions whose dtype has the dictionary `entries`, where
comparing field `key` of both with `cmp_op` yields `cmp key cmp_op`. -/
def boolCollaborators (ndimSelf ndimOther : Nat) (entries : List (Nat × FieldValue))
    (cmp : Nat → Nat → CmpObj) : Collaborators RecOperand where
  PyArray_NDIM := fun a =>
    match a with
    | RecOperand.self => ndimSelf
    | RecOperand.other => ndimOther
    | _ => 0
  PyArray_HASFIELDS := fun a =>
    match a with
    | RecOperand.self => true
    | RecOperand.other => true
    | _ => false
  fields := fun _ => entries
  array_subscript := fun a key =>
    match a with
    | RecOperand.self => Except.ok (RecOperand.selfField key)
    | RecOperand.other => Except.ok (RecOperand.otherField key)
    | _ => Except.error (PyErr.External 1)
  array_richcompare := fun a b cmp_op =>
    match a, b with
    | RecOperand.selfField k1, RecOperand.otherField k2 =>
      if k1 = k2 then Except.ok (cmp k1 cmp_op) else Except.error (PyErr.External 2)
    | _, _ => Except.error (PyErr.External 2)
  PyArray_Newshape := boolNewshape
  PyArray_GenericReduceFunction := boolReduce
  PyObject_CallFunction := boolCallFunction
  strings_richcompare := fun _ _ _ _ => Except.error (PyErr.External 3)

/-- The `p`-th run of `w` consecutive elements of `data`: the results that
belong to position `p` when every position has `w` of them. -/
def chunk (data : List Bool) (w p : Nat) : List Bool :=
  (data.drop (p * w)).take w

/-- Whether a field differs at position `p`: some element of its per-field
`Py_EQ` result `eq` that belongs to position `p` is false. -/
def fieldDiffers (eq : List Bool) (w p : Nat) : Bool :=
  (chunk eq w p).any (fun b => !b)

/-- Structured equality in the words of the specification: at each of the
`n` positions, false exactly when at least one field differs. -/
def recordEq (n : Nat) (fields : List (Nat × FieldValue)) (e : Nat → List Bool)
    (extra : Nat → List Nat) : List Bool :=
  (List.range n).map
    (fun p => !(fields.any (fun x => fieldDiffers (e x.1) (extra x.1).prod p)))

/-! ## `PyArray_CheckStrides`

Values of type `int` and `npy_intp` are exact integers: signed overflow is
undefined in C, and the embedding describes the executions without it. -/

/-- Modelled from the spec: `PyArray_MultiplyList` is defined outside the
sources at hand.  The comment of `PyArray_CheckStrides` says that a
`numbytes` of 0 "will be calculated using the dimensions and element-size",
and the specification speaks of the product of the extents: the product of
the first `n` entries of the list. -/
def PyArray_MultiplyList (l1 : List Int) (n : Nat) : Int :=
  (l1.take n).prod

/-- The `for (i = 0; i < nd; i++)` loop of `PyArray_CheckStrides`, entered at
axis `i` with `k` axes left; `end_` is the variable `end`. -/
def checkStridesLoop (begin end_ : Int) (dims newstrides : List Int) : Nat → Nat → Bool
  | 0, _ => true
  | k + 1, i =>
    let byte_begin := newstrides.getD i 0 * (dims.getD i 0 - 1)
    if byte_begin < begin ∨ byte_begin > end_ then false
    else checkStridesLoop begin end_ dims newstrides k (i + 1)

/-- The function `PyArray_CheckStrides(elsize, nd, numbytes, offset, dims,
newstrides)`. -/
def PyArray_CheckStrides (elsize : Int) (nd : Nat) (numbytes offset : Int)
    (dims newstrides : List Int) : Bool :=
  let numbytes := if numbytes = 0 then PyArray_MultiplyList dims nd * elsize else numbytes
  let begin := -offset
  let end_ := numbytes - offset - elsize
  checkStridesLoop begin end_ dims newstrides nd 0

/-- The element with index `k` along axis `i` lies inside the memory that
runs from `-offset` to `numbytes - offset`. -/
def axisElementInside (elsize numbytes offset : Int) (newstrides : List Int) (i : Nat)
    (k : Int) : Prop :=
  -offset ≤ k * newstrides.getD i 0 ∧ k * newstrides.getD i 0 + elsize ≤ numbytes - offset

/-! ### Invariants of the heap -/

/-- The invariant "every array with OWN_DATA set has an empty base". -/
def ownersHaveNoBase (h : Heap) : Bool :=
  h.all (fun ob =>
    match ob with
    | PyObject.ndarray f => !PyArray_CHKFLAGS f.flags NPY_ARRAY_OWNDATA || f.base.isNone
    | PyObject.object => true)

/-- The base reference graph has no cycle: no object reaches itself by
following one or more base links. -/
def baseAcyclic (h : Heap) : Prop :=
  ∀ (p n : Nat), 0 < n → baseSeq h p n ≠ some p

/-! ## `array_dealloc`

The teardown is recorded as the list of the calls it makes, in order.  Of the
heap only the flags of the base change; reference counts and the contents of
buffers are not modelled, and the slot of `self` is dead after `tp_free`. -/

/-- Modelled from the spec: the constant `NPY_ARRAY_WRITEABLE` is declared in
`ndarraytypes.h`, which is not part of the sources at hand.  The
specification lists WRITEABLE as one bit of the `flags` bit set; the bit used
here is `0x0400`; the general theorems do not depend on the value. -/
def NPY_ARRAY_WRITEABLE : Nat := 0x0400

/-- Modelled from the spec: the constant `NPY_ARRAY_UPDATEIFCOPY` is declared
in `ndarraytypes.h`, which is not part of the sources at hand.  The
specification lists DEFERRED_WRITEBACK as one bit of the `flags` bit set; the
bit used here is `0x1000`; the general theorems do not depend on the
value. -/
def NPY_ARRAY_UPDATEIFCOPY : Nat := 0x1000

/-- Modelled from the spec: the constant `NPY_ARRAY_MASKNA` is declared in
`ndarraytypes.h`, which is not part of the sources at hand.  The
specification lists HAS_MASK as one bit of the `flags` bit set; the bit used
here is `0x2000`; the general theorems do not depend on the value. -/
def NPY_ARRAY_MASKNA : Nat := 0x2000

/-- The test `fa->flags & FLAG` used as a condition. -/
def flagsAnd (flags FLAG : Nat) : Bool :=
  Nat.land flags FLAG != 0

/-- Modelled from the spec: `PyArray_ENABLEFLAGS(arr, flags)` is declared in
`ndarraytypes.h`, which is not part of the sources at hand.  The comment in
`array_dealloc` says the base is unlocked and the specification says its
WRITEABLE bit is restored: the bits are set in the flags word of the array at
`p`, `flags |= FLAGS`. -/
def PyArray_ENABLEFLAGS (h : Heap) (p : Nat) (FLAGS : Nat) : Heap :=
  match arrayAt h p with
  | some f => h.set p (PyObject.ndarray { f with flags := Nat.lor f.flags FLAGS })
  | none => h

/-- What `array_dealloc` reads of `self` besides `flags` and `base`: whether
`fa->weakreflist` and `fa->data` are non-NULL, and whether the dtype has
`NPY_ITEM_REFCOUNT`. -/
structure DeallocInfo where
  weakreflist : Bool
  data : Bool
  item_refcount : Bool
  deriving DecidableEq, Repr

/-- The calls made by `array_dealloc`. -/
inductive DeallocStep where
  | array_dealloc_buffer_info
  | PyObject_ClearWeakRefs
  | ENABLEFLAGS_WRITEABLE (base : Nat)
  | PyArray_CopyAnyInto (dst src : Nat)
  | PyErr_Print
  | PyErr_Clear
  | Py_DECREF_base (base : Nat)
  | PyArray_XDECREF
  | PyDataMem_FREE_data
  | Py_XDECREF_maskna_dtype
  | PyDataMem_FREE_maskna_data
  | PyDimMem_FREE_dimensions
  | Py_DECREF_descr
  | tp_free
  deriving DecidableEq, Repr

/-- What `array_dealloc` leaves behind: the heap, the calls made, and the
error indicator. -/
structure DeallocResult where
  heap : Heap
  steps : List DeallocStep
  err : Option PyErr
  deriving DecidableEq, Repr

/-- Lines 358-362 of `array_dealloc`. -/
def deallocHead (info : DeallocInfo) : List DeallocStep :=
  DeallocStep.array_dealloc_buffer_info ::
    (if info.weakreflist then [DeallocStep.PyObject_ClearWeakRefs] else [])

/-- Lines 392-415 of `array_dealloc`, for the flags word `flags` of `self`. -/
def deallocTail (flags : Nat) (info : DeallocInfo) : List DeallocStep :=
  (if flagsAnd flags NPY_ARRAY_OWNDATA && info.data then
    (if info.item_refcount then [DeallocStep.PyArray_XDECREF] else []) ++
      [DeallocStep.PyDataMem_FREE_data]
   else []) ++
  (if flagsAnd flags NPY_ARRAY_MASKNA then
    DeallocStep.Py_XDECREF_maskna_dtype ::
      (if flagsAnd flags NPY_ARRAY_OWNMASKNA then [DeallocStep.PyDataMem_FREE_maskna_data]
       else [])
   else []) ++
  [DeallocStep.PyDimMem_FREE_dimensions, DeallocStep.Py_DECREF_descr, DeallocStep.tp_free]

/-- The call `PyErr_Clear()`: the error indicator is empty afterwards. -/
def PyErr_Clear (_err : Option PyErr) : Option PyErr :=
  none

/-- The function `array_dealloc(self)`.  `CopyAnyInto h dst src` is the
collaborator `PyArray_CopyAnyInto` called in heap `h`: `none` when it returns
0, `some e` when it fails with the error `e` set. -/
def array_dealloc (CopyAnyInto : Heap → Nat → Nat → Option PyErr) (h : Heap) (self : Nat)
    (info : DeallocInfo) : DeallocResult :=
  match PyArray_BASE h self with
  | some base =>
    if flagsAnd (PyArray_FLAGS h self) NPY_ARRAY_UPDATEIFCOPY then
      let h1 := PyArray_ENABLEFLAGS h base NPY_ARRAY_WRITEABLE
      match CopyAnyInto h1 base self with
      | some e =>
        -- the error set by the copy is printed and cleared
        ⟨h1, deallocHead info ++
          [DeallocStep.ENABLEFLAGS_WRITEABLE base, DeallocStep.PyArray_CopyAnyInto base self,
            DeallocStep.PyErr_Print, DeallocStep.PyErr_Clear, DeallocStep.Py_DECREF_base base] ++
          deallocTail (PyArray_FLAGS h1 self) info, PyErr_Clear (some e)⟩
      | none =>
        ⟨h1, deallocHead info ++
          [DeallocStep.ENABLEFLAGS_WRITEABLE base, DeallocStep.PyArray_CopyAnyInto base self,
            DeallocStep.Py_DECREF_base base] ++
          deallocTail (PyArray_FLAGS h1 self) info, none⟩
    else
      ⟨h, deallocHead info ++ [DeallocStep.Py_DECREF_base base] ++
        deallocTail (PyArray_FLAGS h self) info, none⟩
  | none => ⟨h, deallocHead info ++ deallocTail (PyArray_FLAGS h self) info, none⟩

/-- The steps that release something owned by `self` other than the base:
the references held by the elements, the data buffer, the mask dtype and
memory, the dimensions, the descr and the object itself. -/
def DeallocStep.isFree : DeallocStep → Bool
  | DeallocStep.PyArray_XDECREF => true
  | DeallocStep.PyDataMem_FREE_data => true
  | DeallocStep.Py_XDECREF_maskna_dtype => true
  | DeallocStep.PyDataMem_FREE_maskna_data => true
  | DeallocStep.PyDimMem_FREE_dimensions => true
  | DeallocStep.Py_DECREF_descr => true
  | DeallocStep.tp_free => true
  | _ => false

/-! ## `_strings_richcompare`

The conversion of an operand, the broadcasting multi-iterator and the
allocation of the result are collaborators defined outside
`arrayobject.cpp`; they are the fields of `StringCollaborators`. -/

/-- The singleton `Py_NotImplemented`. -/
def Py_NotImplemented : CmpObj := CmpObj.object 0

/-- The singleton `Py_False`. -/
def Py_False : CmpObj := CmpObj.object 1

/-- The singleton `Py_True`. -/
def Py_True : CmpObj := CmpObj.object 2

/-- Modelled from the spec: the type numbers are declared in
`ndarraytypes.h`, which is not part of the sources at hand.  The
specification distinguishes the kinds generic-reference, byte-string,
fixed-width code-point and structured-record; `NPY_OBJECT` is the number of
the first of them. -/
def NPY_OBJECT : Nat := 17

/-- Modelled from the spec: type number of the byte-string kind (see
`NPY_OBJECT`); `PyArray_STRING` in the older spelling. -/
def NPY_STRING : Nat := 18

/-- Modelled from the spec: type number of the fixed-width code-point kind
(see `NPY_OBJECT`); `PyArray_UNICODE` in the older spelling. -/
def NPY_UNICODE : Nat := 19

/-- Modelled from the spec: type number of the structured-record kind (see
`NPY_OBJECT`). -/
def NPY_VOID : Nat := 20

/-- What `PyArray_MultiIterNew(2, self, other)` provides to
`_strings_richcompare` and `_compare_strings`: the broadcast shape
(`mit->nd`, `mit->dimensions`), `mit->size`, and the element under each of
the two iterators at every step. -/
structure MultiIter where
  dimensions : List Nat
  size : Nat
  iself : Nat → List Nat
  iother : Nat → List Nat

/-- The collaborators of `_strings_richcompare`, for arrays of type `Arr`.
`NPY_PY3K` tells whether the build defines that macro.  `PyArray_FromAny a n`
is the conversion of `a` to the unicode dtype of element size `n`;
`PyArray_NewFromDescr dims` allocates the boolean result of shape `dims` and
yields its (arbitrary) initial data; `malloc sz` tells whether an allocation
of `sz` bytes succeeds. -/
structure StringCollaborators (Arr : Type) where
  NPY_PY3K : Bool
  PyArray_TYPE : Arr → Nat
  elsize : Arr → Nat
  PyArray_FromAny : Arr → Nat → Except PyErr Arr
  PyArray_MultiIterNew : Arr → Arr → Except PyErr MultiIter
  PyArray_NewFromDescr : List Nat → Except PyErr (List Bool)
  malloc : Nat → Bool

/-- Lines 1065-1097 of `_strings_richcompare`: broadcast, allocate the
result, run `_compare_strings`.  When `_compare_strings` returns -1 the
error it has set is propagated. -/
def stringsCompareLoop {Arr : Type} (env : StringCollaborators Arr) (self other : Arr)
    (cmp_op : Nat) (rstrip : Bool) : Except PyErr CmpObj :=
  match env.PyArray_MultiIterNew self other with
  | Except.error e => Except.error e
  | Except.ok mit =>
    match env.PyArray_NewFromDescr mit.dimensions with
    | Except.error e => Except.error e
    | Except.ok data =>
      let val := _compare_strings env.malloc data mit.size mit.iself mit.iother
        (env.elsize self) (env.elsize other) cmp_op
        (if env.PyArray_TYPE self = NPY_UNICODE then CompFunc.myunincmp else CompFunc.mystrncmp)
        rstrip
      if val.ret < 0 then Except.error (val.err.getD (PyErr.External 0))
      else Except.ok (CmpObj.ndarray mit.dimensions val.data)

/-- The function `_strings_richcompare(self, other, cmp_op, rstrip)`. -/
def _strings_richcompare {Arr : Type} (env : StringCollaborators Arr) (self other : Arr)
    (cmp_op : Nat) (rstrip : Bool) : Except PyErr CmpObj :=
  -- Cast arrays to a common type
  if env.PyArray_TYPE self ≠ env.PyArray_TYPE other then
    if env.NPY_PY3K then Except.ok Py_NotImplemented
    else if env.PyArray_TYPE self = NPY_STRING ∧ env.PyArray_TYPE other = NPY_UNICODE then
      match env.PyArray_FromAny self (env.elsize self <<< 2) with
      | Except.error e => Except.error e
      | Except.ok newObj => stringsCompareLoop env newObj other cmp_op rstrip
    else if env.PyArray_TYPE self = NPY_UNICODE ∧ env.PyArray_TYPE other = NPY_STRING then
      match env.PyArray_FromAny other (env.elsize other <<< 2) with
      | Except.error e => Except.error e
      | Except.ok newObj => stringsCompareLoop env self newObj cmp_op rstrip
    else Except.error PyErr.TypeMismatch
  else stringsCompareLoop env self other cmp_op rstrip

/-- A one-dimensional text array: type number, element size in bytes, and
its elements as lists of units. -/
structure TextArray where
  type_num : Nat
  elsize : Nat
  elems : List (List Nat)
  deriving DecidableEq, Repr

/-- Modelled from the spec: collaborators of `_strings_richcompare` on
one-dimensional text arrays; `PyArray_FromAny`, `PyArray_MultiIterNew` and
`PyArray_NewFromDescr` are defined outside the sources at hand.  Following
the specification, the conversion re-encodes the byte-string side to the
wider kind (same units), the multi-iterator takes per axis the maximum extent
provided every non-1 extent agrees and does not advance along a stretched
axis, and the result is a freshly allocated boolean array of the broadcast
shape (here initialised with false). -/
def textCollaborators (py3k : Bool) : StringCollaborators TextArray where
  NPY_PY3K := py3k
  PyArray_TYPE := fun a => a.type_num
  elsize := fun a => a.elsize
  PyArray_FromAny := fun a n => Except.ok ⟨NPY_UNICODE, n, a.elems⟩
  PyArray_MultiIterNew := fun a b =>
    if a.elems.length = b.elems.length ∨ a.elems.length = 1 ∨ b.elems.length = 1 then
      Except.ok
        { dimensions := [max a.elems.length b.elems.length]
          size := max a.elems.length b.elems.length
          iself := fun i => a.elems.getD (if a.elems.length = 1 then 0 else i) []
          iother := fun i => b.elems.getD (if b.elems.length = 1 then 0 else i) [] }
    else Except.error (PyErr.External 4)
  PyArray_NewFromDescr := fun dims => Except.ok (List.replicate dims.prod false)
  malloc := fun _ => true

/-! ## `array_richcompare`

The comparison entry point.  Besides its value it records the calls it
makes to its collaborators and to `_void_compare` and
`_strings_richcompare`. -/

/-- The ufuncs `n_ops.less`, ..., `n_ops.greater_equal` handed to the generic
dispatcher. -/
inductive CmpUfunc where
  | less
  | less_equal
  | equal
  | not_equal
  | greater
  | greater_equal
  deriving DecidableEq, Repr

/-- The calls `array_richcompare` can make. -/
inductive RichCall where
  | PyArray_GenericBinaryFunction (ufunc : CmpUfunc)
  | PyArray_FromAny
  | PyObject_RichCompareBool
  | void_compare
  | PyArray_FromObject
  | strings_richcompare
  deriving DecidableEq, Repr

/-- The outcome of `array_richcompare`: the returned object (`Except.ok`), or
`NULL` with an error set (`Except.error`), or `none` when the code passes a
`NULL` pointer to `PyArray_ISSTRING` or `Py_DECREF` (after a failed
`PyArray_FromObject`), which is undefined; and the calls made, in order. -/
structure RichResult where
  value : Option (Except PyErr CmpObj)
  calls : List RichCall

/-- The collaborators of `array_richcompare`, for arrays `Arr` and arbitrary
objects `Obj`.  `is_Py_None` is the test `other == Py_None`; `toObject` is the
cast `(PyObject *)array_other`; the flag given to `PyArray_FromAny` tells
whether the dtype of `self` is passed (object arrays) or `NULL`;
`PyObject_RichCompareBool a b` compares the dtypes of `a` and `b` for
equality; `void` and `strings` are the collaborators of `_void_compare` and
`_strings_richcompare`. -/
structure RichCollaborators (Arr Obj : Type) where
  is_Py_None : Obj → Bool
  PyArray_TYPE : Arr → Nat
  PyArray_GenericBinaryFunction : Arr → Obj → CmpUfunc → Except PyErr CmpObj
  toObject : Arr → Obj
  PyArray_FromAny : Obj → Bool → Except PyErr Arr
  PyObject_RichCompareBool : Arr → Arr → Except PyErr Bool
  PyArray_FromObject : Obj → Except PyErr Arr
  void : Collaborators Arr
  strings : StringCollaborators Arr

/-- Modelled from the spec: the macro `PyArray_ISSTRING` is declared in
`ndarraytypes.h`, which is not part of the sources at hand.  The
specification speaks of the fixed-width text dtypes, byte-string or
fixed-width code-point: the type number is one of these two. -/
def PyTypeNum_ISSTRING (type_num : Nat) : Bool :=
  type_num == NPY_STRING || type_num == NPY_UNICODE

/-- Lines 1355-1369 of `array_richcompare`, entered with `result` and the
calls made so far: the attempt to handle string comparisons when `result` is
`Py_NotImplemented`. -/
def richcompareTail {Arr Obj : Type} (env : RichCollaborators Arr Obj) (self : Arr) (other : Obj)
    (cmp_op : Nat) (result : Except PyErr CmpObj) (calls : List RichCall) : RichResult :=
  match result with
  | Except.error e => ⟨some (Except.error e), calls⟩
  | Except.ok v =>
    if v = Py_NotImplemented then
      -- Try to handle string comparisons
      if env.PyArray_TYPE self = NPY_OBJECT then ⟨some (Except.ok v), calls⟩
      else
        match env.PyArray_FromObject other with
        | Except.error _ => ⟨none, calls ++ [RichCall.PyArray_FromObject]⟩
        | Except.ok array_other =>
          if PyTypeNum_ISSTRING (env.PyArray_TYPE self) &&
              PyTypeNum_ISSTRING (env.PyArray_TYPE array_other) then
            ⟨some (_strings_richcompare env.strings self array_other cmp_op false),
              calls ++ [RichCall.PyArray_FromObject, RichCall.strings_richcompare]⟩
          else ⟨some (Except.ok v), calls ++ [RichCall.PyArray_FromObject]⟩
    else ⟨some (Except.ok v), calls⟩

/-- The cases `Py_EQ` and `Py_NE` of `array_richcompare` (lines 1234-1342),
which differ in the scalar returned for `None` and in the ufunc. -/
def richcompareEqNe {Arr Obj : Type} (env : RichCollaborators Arr Obj) (self : Arr) (other : Obj)
    (cmp_op : Nat) (scalar : CmpObj) (ufunc : CmpUfunc) : RichResult :=
  if env.is_Py_None other then ⟨some (Except.ok scalar), []⟩
  else
    -- Make sure 'other' is an array
    match env.PyArray_FromAny other (env.PyArray_TYPE self == NPY_OBJECT) with
    | Except.error _ => ⟨some (Except.ok Py_NotImplemented), [RichCall.PyArray_FromAny]⟩
    | Except.ok array_other =>
      match env.PyArray_GenericBinaryFunction self (env.toObject array_other) ufunc with
      | Except.error _ =>
        ⟨some (Except.ok Py_NotImplemented),
          [RichCall.PyArray_FromAny, RichCall.PyArray_GenericBinaryFunction ufunc]⟩
      | Except.ok result =>
        if result = Py_NotImplemented ∧ env.PyArray_TYPE self = NPY_VOID then
          match env.PyObject_RichCompareBool self array_other with
          | Except.error e =>
            ⟨some (Except.error e),
              [RichCall.PyArray_FromAny, RichCall.PyArray_GenericBinaryFunction ufunc,
                RichCall.PyObject_RichCompareBool]⟩
          | Except.ok _res =>
            if _res then
              ⟨some (_void_compare env.void self array_other cmp_op),
                [RichCall.PyArray_FromAny, RichCall.PyArray_GenericBinaryFunction ufunc,
                  RichCall.PyObject_RichCompareBool, RichCall.void_compare]⟩
            else
              ⟨some (Except.ok result),
                [RichCall.PyArray_FromAny, RichCall.PyArray_GenericBinaryFunction ufunc,
                  RichCall.PyObject_RichCompareBool]⟩
        else
          richcompareTail env self other cmp_op (Except.ok result)
            [RichCall.PyArray_FromAny, RichCall.PyArray_GenericBinaryFunction ufunc]

/-- An ordering case of `array_richcompare`: the generic dispatcher is
called with the ufunc of the op, then the common tail is run. -/
def richcompareOrder {Arr Obj : Type} (env : RichCollaborators Arr Obj) (self : Arr)
    (other : Obj) (cmp_op : Nat) (ufunc : CmpUfunc) : RichResult :=
  richcompareTail env self other cmp_op (env.PyArray_GenericBinaryFunction self other ufunc)
    [RichCall.PyArray_GenericBinaryFunction ufunc]

/-- The function `array_richcompare(self, other, cmp_op)`. -/
def array_richcompare {Arr Obj : Type} (env : RichCollaborators Arr Obj) (self : Arr)
    (other : Obj) (cmp_op : Nat) : RichResult :=
  if cmp_op = Py_LT then richcompareOrder env self other cmp_op CmpUfunc.less
  else if cmp_op = Py_LE then richcompareOrder env self other cmp_op CmpUfunc.less_equal
  else if cmp_op = Py_EQ then richcompareEqNe env self other cmp_op Py_False CmpUfunc.equal
  else if cmp_op = Py_NE then richcompareEqNe env self other cmp_op Py_True CmpUfunc.not_equal
  else if cmp_op = Py_GT then richcompareOrder env self other cmp_op CmpUfunc.greater
  else if cmp_op = Py_GE then richcompareOrder env self other cmp_op CmpUfunc.greater_equal
  else richcompareTail env self other cmp_op (Except.ok Py_NotImplemented) []

/-- The ufunc handed to the generic dispatcher for an ordering op. -/
def orderUfunc (cmp_op : Nat) : CmpUfunc :=
  if cmp_op = Py_LT then CmpUfunc.less
  else if cmp_op = Py_LE then CmpUfunc.less_equal
  else if cmp_op = Py_GT then CmpUfunc.greater
  else CmpUfunc.greater_equal

/-- Collaborators of `_void_compare` that are never reached: every call
fails. -/
def unreachedVoid : Collaborators Nat where
  PyArray_NDIM := fun _ => 0
  PyArray_HASFIELDS := fun _ => false
  fields := fun _ => []
  array_subscript := fun _ _ => Except.error (PyErr.External 5)
  array_richcompare := fun _ _ _ => Except.error (PyErr.External 5)
  PyArray_Newshape := fun _ _ => Except.error (PyErr.External 5)
  PyArray_GenericReduceFunction := fun _ _ _ => Except.error (PyErr.External 5)
  PyObject_CallFunction := fun _ _ _ => Except.error (PyErr.External 5)
  strings_richcompare := fun _ _ _ _ => Except.error (PyErr.External 5)

/-- Collaborators of `_strings_richcompare` that are never reached: every
call fails. -/
def unreachedStrings : StringCollaborators Nat where
  NPY_PY3K := false
  PyArray_TYPE := fun a => a
  elsize := fun _ => 0
  PyArray_FromAny := fun _ _ => Except.error (PyErr.External 6)
  PyArray_MultiIterNew := fun _ _ => Except.error (PyErr.External 6)
  PyArray_NewFromDescr := fun _ => Except.error (PyErr.External 6)
  malloc := fun _ => false

/-- Collaborators of `array_richcompare` for a scenario in which an array is
named by its type number, an object is a number with 0 standing for `None`,
every conversion succeeds, and the generic dispatcher answers `generic`. -/
def scenarioCollaborators (generic : Except PyErr CmpObj) : RichCollaborators Nat Nat where
  is_Py_None := fun o => o == 0
  PyArray_TYPE := fun a => a
  PyArray_GenericBinaryFunction := fun _ _ _ => generic
  toObject := fun a => a
  PyArray_FromAny := fun o _ => Except.ok o
  PyObject_RichCompareBool := fun a b => Except.ok (a == b)
  PyArray_FromObject := fun o => Except.ok o
  void := unreachedVoid
  strings := unreachedStrings

/-! ### The comparison loop with a record of the comparator calls -/

/-- Macro `_reg_loop(CMP)` once more, with the same conventions as
`_reg_loop`, where in addition every call of `compfunc` is appended to `log`
with its two element arguments. -/
def _reg_loop_traced (CMP : Int → Bool) (compfunc : CompFunc) (N1 N2 : Nat)
    (iself iother : Nat → List Nat) :
    Nat → Nat → List Bool → List (List Nat × List Nat) →
      CompareResult × List (List Nat × List Nat)
  | 0, _, data, log => (⟨0, data, none⟩, log)
  | size + 1, i, data, log =>
    let val := compfunc.call (iself i) (iother i) N1 N2
    _reg_loop_traced CMP compfunc N1 N2 iself iother size (i + 1) (data.set i (CMP val))
      (log ++ [(iself i, iother i)])

/-- The C expression `val CMP 0` for the operator `CMP` of `cmp_op`. -/
def opHolds (cmp_op : Nat) (val : Int) : Bool :=
  if cmp_op = Py_EQ then val == 0
  else if cmp_op = Py_NE then val != 0
  else if cmp_op = Py_LT then decide (val < 0)
  else if cmp_op = Py_LE then decide (val ≤ 0)
  else if cmp_op = Py_GT then decide (val > 0)
  else decide (val ≥ 0)

/-! ### Lexicographic comparison of NUL-padded elements -/

/-- The element `s` right-padded with NUL units to length `n`. -/
def padTo (n : Nat) (s : List Nat) : List Nat :=
  s ++ List.replicate (n - s.length) 0

/-- Plain lexicographic comparison of two unit sequences in unsigned unit
order: -1, 0 or 1. -/
def lexCompare : List Nat → List Nat → Int
  | [], [] => 0
  | [], _ :: _ => -1
  | _ :: _, [] => 1
  | a :: as, b :: bs =>
    if a < b then -1 else if b < a then 1 else lexCompare as bs

/-- The unit sequences of `a` and `b`, continued with NUL, agree
everywhere. -/
def seqEq (a b : List Nat) : Prop :=
  ∀ i, a.getD i 0 = b.getD i 0

/-- At the first index where the unit sequences of `a` and `b`, continued
with NUL, differ, the unit of `a` is the smaller one. -/
def seqLt (a b : List Nat) : Prop :=
  ∃ i, (∀ j, j < i → a.getD j 0 = b.getD j 0) ∧ a.getD i 0 < b.getD i 0

/-- The strides of the row-major contiguous layout of a shape, in the words
of the specification: `strides[i] = elsize * product(dims[i+1..nd-1])`. -/
def rowMajorStrides (elsize : Int) (dims : List Int) : List Int :=
  (List.range dims.length).map (fun i => elsize * (dims.drop (i + 1)).prod)

/-! ## `array_new`

The function is embedded from the point where `PyArg_ParseTupleAndKeywords`
has succeeded: its arguments are the parsed values.  A `PyArray_Dims` is the
list of its entries (`len` is the length of the list) and a NULL `ptr` is
`none`. -/

/-- The errors `array_new` fails with: its own messages, and the error left by
a function it calls. -/
inductive ArrayNewError
  /-- ValueError "data-type with unspecified variable length". -/
  | unspecifiedLength
  /-- ValueError "strides, if given, must be the same length as shape". -/
  | stridesLength
  /-- ValueError "strides is incompatible with shape of requested array and
  size of buffer". -/
  | stridesIncompatible
  /-- TypeError "buffer is too small for requested array". -/
  | bufferTooSmall
  /-- The error set by a called function that failed. -/
  | collaborator
  deriving DecidableEq, Repr

/-- The fields of a `PyArray_Chunk` with a non-NULL `ptr` that `array_new`
reads. -/
structure PyArray_Chunk where
  len : Int
  flags : Nat
  deriving DecidableEq, Repr

/-- The flag `NPY_ARRAY_F_CONTIGUOUS`. -/
def NPY_ARRAY_F_CONTIGUOUS : Nat := 0x0002

/-- The functions `array_new` calls that are defined elsewhere.
`PyArray_NewFromDescr dims strides data flags` receives the offset of the data
pointer inside the buffer (`none` for NULL) and returns `none` for NULL;
`PyArray_FillObjectArray` returns `false` when `PyErr_Occurred()` holds after
it; `PyArray_SetBaseObject` returns `false` for a negative result. -/
structure ArrayNewEnv (Obj : Type) where
  PyArray_NewFromDescr : List Int → Option (List Int) → Option Int → Nat → Option Obj
  hasObject : Bool
  PyArray_FillObjectArray : Obj → Bool
  PyArray_SetBaseObject : Obj → Bool

/-- The block `if (strides.ptr != NULL) { ... }` of `array_new`: the error it
fails with, if any. -/
def arrayNewStrides (dims : List Int) (itemsize : Int) (buffer : Option PyArray_Chunk)
    (offset : Int) (strides : Option (List Int)) : Option ArrayNewError :=
  match strides with
  | none => none
  | some st =>
    if st.length ≠ dims.length then some ArrayNewError.stridesLength
    else
      let nb : Int := match buffer with
        | none => 0
        | some b => b.len
      let off : Int := match buffer with
        | none => 0
        | some _ => offset
      if !PyArray_CheckStrides itemsize dims.length nb off dims st then
        some ArrayNewError.stridesIncompatible
      else none

/-- The creation of the array with a buffer given: the call of
`PyArray_NewFromDescr` on the buffer and of `PyArray_SetBaseObject`. -/
def arrayNewOnBuffer {Obj : Type} (env : ArrayNewEnv Obj) (dims : List Int)
    (b : PyArray_Chunk) (offset : Int) (strides : Option (List Int)) (is_f_order : Bool) :
    Except ArrayNewError Obj :=
  let flags := if is_f_order then Nat.lor b.flags NPY_ARRAY_F_CONTIGUOUS else b.flags
  match env.PyArray_NewFromDescr dims strides (some offset) flags with
  | none => Except.error ArrayNewError.collaborator
  | some ret =>
    if env.PyArray_SetBaseObject ret then Except.ok ret
    else Except.error ArrayNewError.collaborator

/-- The function `array_new` after its arguments are parsed: `itemsize` is
`descr->elsize`, `buffer` is `none` when `buffer.ptr` is NULL, `strides` is
`none` when `strides.ptr` is NULL. -/
def array_new {Obj : Type} (env : ArrayNewEnv Obj) (dims : List Int) (itemsize : Int)
    (buffer : Option PyArray_Chunk) (offset : Int) (strides : Option (List Int))
    (is_f_order : Bool) : Except ArrayNewError Obj :=
  if itemsize = 0 then Except.error ArrayNewError.unspecifiedLength
  else
    match arrayNewStrides dims itemsize buffer offset strides with
    | some e => Except.error e
    | none =>
      match buffer with
      | none =>
        match env.PyArray_NewFromDescr dims strides none (if is_f_order then 1 else 0) with
        | none => Except.error ArrayNewError.collaborator
        | some ret =>
          if env.hasObject then
            if env.PyArray_FillObjectArray ret then Except.ok ret
            else Except.error ArrayNewError.collaborator
          else Except.ok ret
      | some b =>
        if dims.length = 1 ∧ dims.getD 0 0 = -1 then
          arrayNewOnBuffer env [Int.tdiv (b.len - offset) itemsize] b offset strides is_f_order
        else if strides.isNone ∧
            b.len < offset + itemsize * PyArray_MultiplyList dims dims.length then
          Except.error ArrayNewError.bufferTooSmall
        else arrayNewOnBuffer env dims b offset strides is_f_order

/-- An environment in which every called function succeeds; the new array is
described by its shape and strides. -/
def plainNewEnv : ArrayNewEnv (List Int × Option (List Int)) where
  PyArray_NewFromDescr := fun dims strides _ _ => some (dims, strides)
  hasObject := false
  PyArray_FillObjectArray := fun _ => true
  PyArray_SetBaseObject := fun _ => true

/-! ## `PyArray_CopyObject`

Reference counts are not part of the embedding.  The destination is the part
of `dest` the function and the functions it calls can change; objects and
source arrays are values of a type `Obj`. -/

/-- The destination array of `PyArray_CopyObject`: its shape, the bytes at
`PyArray_DATA(dest)`, the bytes at `PyArray_MASKNA_DATA(dest)`, its flags,
whether `PyArray_DESCR(dest)->type` is `PyArray_CHARLTR`, and
`PyArray_DESCR(dest)->type_num`. -/
structure CopyDest where
  dimensions : List Int
  data : List Nat
  maskna_data : List Nat
  flags : Nat
  charltr : Bool
  type_num : Nat
  deriving DecidableEq, Repr

/-- What `PyArray_GetArrayParamsFromObjectEx` writes on success: `ndim`,
`dims`, `contains_na` and `src` (`none` for NULL). -/
structure ArrayParams (Obj : Type) where
  ndim : Nat
  dims : List Int
  contains_na : Bool
  src : Option Obj

/-- The value returned by `PyArray_CopyObject` and the destination it leaves
behind. -/
structure CopyResult where
  ret : Int
  dest : CopyDest
  deriving DecidableEq, Repr

/-- The functions `PyArray_CopyObject` calls that are defined elsewhere.  A
function returning `int` and writing to `dest` returns the pair of both;
`padString s n` is the string built by the `malloc`, `memmove`, `memset`,
`PyString_FromStringAndSize` sequence; `PyArray_GetArrayParamsFromObjectEx`
returns `none` for a negative result; `NpyNA_FromObject` and `scalar_value`
return whether their result is non-NULL; `setitem` is
`PyArray_DESCR(dest)->f->setitem` on `dest`, `setitemInto` and
`AssignFromSequenceInto` are `setitem` and `PyArray_AssignFromSequence` on the
fresh array `src`. -/
structure CopyEnv (Obj : Type) where
  PyString_Check : Obj → Bool
  PyString_Size : Obj → Int
  padString : Obj → Int → Obj
  PyArray_GetArrayParamsFromObjectEx : Obj → CopyDest → Option (ArrayParams Obj)
  PyArray_HasNASupport : CopyDest → Bool
  NpyNA_FromObject : Obj → Bool
  PyArray_IsScalar : Obj → Bool
  scalar_value : Obj → Bool
  PyArray_AssignRawScalar : CopyDest → Obj → Int × CopyDest
  PyArray_AssignNA : CopyDest → Obj → Int × CopyDest
  setitem : Obj → CopyDest → Int × CopyDest
  PyArray_NewFromDescr : Nat → List Int → Option Obj
  setitemInto : Obj → Obj → Int × Obj
  PyArray_AssignFromSequence : CopyDest → Obj → Int × CopyDest
  PyArray_AllocateMaskNA : CopyDest → Int × CopyDest
  AssignFromSequenceInto : Obj → Obj → Int × Obj
  PyArray_MoveInto : CopyDest → Obj → Int × CopyDest

/-- Modelled from the spec: the macro `PyArray_SIZE(m)` is declared in
`ndarraytypes.h`, which is not part of the sources at hand.  The
specification speaks of the number of elements of an array, the product of
its extents. -/
def PyArray_SIZE (m : CopyDest) : Int :=
  PyArray_MultiplyList m.dimensions m.dimensions.length

/-- Modelled from the spec: `PyArray_HASMASKNA(arr)` is declared in
`ndarraytypes.h`, which is not part of the sources at hand.  The
specification says a mask is present only if HAS_MASK is set in `flags`. -/
def PyArray_HASMASKNA (m : CopyDest) : Bool :=
  flagsAnd m.flags NPY_ARRAY_MASKNA

/-- Lines 155-176 of `PyArray_CopyObject`: the value of `src_object` after the
special code for character arrays. -/
def copyObjectSource {Obj : Type} (env : CopyEnv Obj) (dest : CopyDest) (src_object : Obj) :
    Obj :=
  if dest.charltr && decide (dest.dimensions.length > 0) && env.PyString_Check src_object then
    let n_new := dest.dimensions.getD (dest.dimensions.length - 1) 0
    let n_old := env.PyString_Size src_object
    if n_new > n_old then env.padString src_object n_new else src_object
  else src_object

/-- Lines 228-233 and 300-304 of `PyArray_CopyObject`, reached with a non-NULL
`src`: the move into `dest`. -/
def copyObjectMove {Obj : Type} (env : CopyEnv Obj) (dest : CopyDest) (src : Obj) : CopyResult :=
  ⟨(env.PyArray_MoveInto dest src).1, (env.PyArray_MoveInto dest src).2⟩

/-- Lines 242-253 of `PyArray_CopyObject`: the value is written with the
`setitem` of the dtype; "Unmask the value if necessary". -/
def copyObjectSetitem {Obj : Type} (env : CopyEnv Obj) (dest : CopyDest) (src_object : Obj) :
    CopyResult :=
  let r := env.setitem src_object dest
  let ret := r.1
  if ret = 0 ∧ PyArray_HASMASKNA r.2 = true then
    ⟨ret, { r.2 with maskna_data := r.2.maskna_data.set 0 1 }⟩
  else ⟨ret, r.2⟩

/-- Lines 199-268 of `PyArray_CopyObject`: `src` is NULL and `ndim == 0`. -/
def copyObjectScalar {Obj : Type} (env : CopyEnv Obj) (dest : CopyDest) (src_object : Obj) :
    CopyResult :=
  let na := env.PyArray_HasNASupport dest && env.NpyNA_FromObject src_object
  if env.PyArray_IsScalar src_object then
    if env.scalar_value src_object then
      ⟨(env.PyArray_AssignRawScalar dest src_object).1,
        (env.PyArray_AssignRawScalar dest src_object).2⟩
    else ⟨-1, dest⟩
  else if na then
    if (env.PyArray_AssignNA dest src_object).1 < 0 then
      ⟨-1, (env.PyArray_AssignNA dest src_object).2⟩
    else ⟨0, (env.PyArray_AssignNA dest src_object).2⟩
  else if PyArray_SIZE dest = 1 then copyObjectSetitem env dest src_object
  else
    match env.PyArray_NewFromDescr 0 [] with
    | none => ⟨-1, dest⟩
    | some src =>
      if (env.setitemInto src_object src).1 < 0 then ⟨-1, dest⟩
      else copyObjectMove env dest (env.setitemInto src_object src).2

/-- Lines 270-297 of `PyArray_CopyObject`: `src` is NULL and `ndim != 0`. -/
def copyObjectSequence {Obj : Type} (env : CopyEnv Obj) (dest : CopyDest) (src_object : Obj)
    (ndim : Nat) (dims : List Int) : CopyResult :=
  if ndim ≥ dest.dimensions.length then
    ⟨(env.PyArray_AssignFromSequence dest src_object).1,
      (env.PyArray_AssignFromSequence dest src_object).2⟩
  else
    match env.PyArray_NewFromDescr ndim dims with
    | none => ⟨-1, dest⟩
    | some src =>
      let masked : Int × CopyDest :=
        if PyArray_HASMASKNA dest then env.PyArray_AllocateMaskNA dest else (0, dest)
      if masked.1 < 0 then ⟨-1, masked.2⟩
      else if (env.AssignFromSequenceInto src src_object).1 < 0 then ⟨-1, masked.2⟩
      else copyObjectMove env masked.2 (env.AssignFromSequenceInto src src_object).2

/-- The function `PyArray_CopyObject(dest, src_object)`. -/
def PyArray_CopyObject {Obj : Type} (env : CopyEnv Obj) (dest : CopyDest) (src_object : Obj) :
    CopyResult :=
  let src_object := copyObjectSource env dest src_object
  match env.PyArray_GetArrayParamsFromObjectEx src_object dest with
  | none => ⟨-1, dest⟩
  | some p =>
    if p.contains_na && !(env.PyArray_HasNASupport dest || dest.type_num == NPY_OBJECT) then
      ⟨-1, dest⟩
    else
      match p.src with
      | some src => copyObjectMove env dest src
      | none =>
        if p.ndim = 0 then copyObjectScalar env dest src_object
        else copyObjectSequence env dest src_object p.ndim p.dims

/-- An environment for a one-element destination of small integers: objects
are integers, every object is a zero-dimensional non-array value that is
neither NA nor an array scalar, and `setitem` stores a value in `0..255` into
the data and fails with -1 on any other value, writing nothing. -/
def byteEnv : CopyEnv Int where
  PyString_Check := fun _ => false
  PyString_Size := fun _ => 0
  padString := fun s _ => s
  PyArray_GetArrayParamsFromObjectEx := fun _ _ => some ⟨0, [], false, none⟩
  PyArray_HasNASupport := fun d => PyArray_HASMASKNA d
  NpyNA_FromObject := fun _ => false
  PyArray_IsScalar := fun _ => false
  scalar_value := fun _ => false
  PyArray_AssignRawScalar := fun d _ => (-1, d)
  PyArray_AssignNA := fun d _ => (-1, d)
  setitem := fun v d =>
    if 0 ≤ v ∧ v < 256 then (0, { d with data := d.data.set 0 v.toNat }) else (-1, d)
  PyArray_NewFromDescr := fun _ _ => none
  setitemInto := fun _ s => (-1, s)
  PyArray_AssignFromSequence := fun d _ => (-1, d)
  PyArray_AllocateMaskNA := fun d => (-1, d)
  AssignFromSequenceInto := fun s _ => (-1, s)
  PyArray_MoveInto := fun d _ => (-1, d)

/-! # Theorems -/

/-! ### Lemmas on the collapsing loop -/

theorem collapseLoop_stop (h : Heap) (arr o fuel : Nat) (hs : stopsAt h arr o = true) :
    collapseLoop h arr (fuel + 1) o = some o := by
  rw [collapseLoop]
  unfold stopsAt at hs
  split
  next hc =>
    split
    next => rfl
    next hod =>
      split
      next => rfl
      next hm =>
        split
        next => rfl
        next tmp hb =>
          simp only [Bool.and_eq_true, bne_iff_ne, ne_eq] at hc
          have hne : ¬ o = arr := fun e => hc.2 e.symm
          simp_all
  next => rfl

theorem collapseLoop_step (h : Heap) (arr o fuel b : Nat) (hs : stopsAt h arr o = false)
    (hb : PyArray_BASE h o = some b) :
    collapseLoop h arr (fuel + 1) o = collapseLoop h arr fuel b := by
  unfold stopsAt at hs
  simp only [Bool.or_eq_false_iff, Bool.not_eq_false', beq_eq_false_iff_ne, ne_eq,
    Bool.and_eq_false_iff, Bool.not_eq_false'] at hs
  obtain ⟨⟨⟨⟨hc, hne⟩, hod⟩, hm⟩, _⟩ := hs
  have hne2 : (arr != o) = true := by
    simp only [bne_iff_ne, ne_eq]
    exact fun e => hne e.symm
  rw [collapseLoop]
  simp only [hc, hne2, Bool.and_self, ↓reduceIte, hod, Bool.false_eq_true, hb]
  rcases hm with hm | hm
  · simp [hm]
  · simp [hm]

theorem isView_not_stops (h : Heap) (arr v b : Nat) (hv : isView h v = true) (hne : v ≠ arr)
    (hb : PyArray_BASE h v = some b) : stopsAt h arr v = false := by
  unfold isView at hv
  simp only [Bool.and_eq_true, Bool.not_eq_true'] at hv
  obtain ⟨⟨hc, hod⟩, hm⟩ := hv
  unfold stopsAt
  simp [hc, hne, hod, hm, hb]

theorem collapseLoop_viewChain (h : Heap) (arr last : Nat) :
    ∀ (vs : List Nat) (fuel : Nat), isViewChain h vs last = true → arr ∉ vs →
      collapseLoop h arr (fuel + vs.length) (vs.headD last) = collapseLoop h arr fuel last := by
  intro vs
  induction vs with
  | nil => intro fuel _ _; rfl
  | cons v rest ih =>
    intro fuel hch hnot
    simp only [isViewChain, Bool.and_eq_true, beq_iff_eq] at hch
    obtain ⟨⟨hv, hb⟩, hrest⟩ := hch
    have hne : v ≠ arr := fun e => hnot (by simp [e])
    have hnot2 : arr ∉ rest := fun e => hnot (List.mem_cons_of_mem _ e)
    have hstep := collapseLoop_step h arr v (fuel + rest.length) (rest.headD last)
      (isView_not_stops h arr v _ hv hne hb) hb
    simp only [List.length_cons, List.headD_cons]
    rw [← Nat.add_assoc, hstep]
    exact ih fuel hrest hnot2

theorem collapseLoop_baseSeq (h : Heap) (arr cand : Nat) :
    ∀ (n fuel o : Nat), baseSeq h cand n = some o →
      (∀ m, m < n → ∀ o', baseSeq h cand m = some o' → stopsAt h arr o' = false) →
      collapseLoop h arr (fuel + n) cand = collapseLoop h arr fuel o := by
  intro n
  induction n with
  | zero =>
    intro fuel o hseq _
    simp only [baseSeq, Option.some.injEq] at hseq
    subst hseq
    rfl
  | succ n ih =>
    intro fuel o hseq hfirst
    simp only [baseSeq] at hseq
    cases hprev : baseSeq h cand n with
    | none => simp [hprev] at hseq
    | some p =>
      simp only [hprev] at hseq
      have hp : stopsAt h arr p = false := hfirst n (Nat.lt_succ_self n) p hprev
      have h1 := ih (fuel + 1) p hprev (fun m hm o' ho' => hfirst m (Nat.lt_succ_of_lt hm) o' ho')
      have h2 := collapseLoop_step h arr p fuel o hp hseq
      have e : fuel + (n + 1) = fuel + 1 + n := by omega
      rw [e, h1, h2]

theorem arrayAt_eq_some (h : Heap) (p : Nat) (f : PyArrayObject_fields)
    (hf : arrayAt h p = some f) : h[p]? = some (PyObject.ndarray f) ∧ p < h.length := by
  unfold arrayAt at hf
  cases hg : h[p]? with
  | none => simp [hg] at hf
  | some ob =>
    cases ob with
    | object => simp [hg] at hf
    | ndarray g =>
      simp only [hg, Option.some.injEq] at hf
      subst hf
      refine ⟨rfl, ?_⟩
      by_contra hge
      rw [List.getElem?_eq_none (Nat.le_of_not_lt hge)] at hg
      exact Option.noConfusion hg

theorem PyArray_BASE_setBaseField (h : Heap) (arr : Nat) (x : Option Nat)
    (harr : PyArray_Check h arr = true) : PyArray_BASE (setBaseField h arr x) arr = x := by
  unfold PyArray_Check at harr
  cases hf : arrayAt h arr with
  | none => simp [hf] at harr
  | some f =>
    obtain ⟨_, hlt⟩ := arrayAt_eq_some h arr f hf
    unfold setBaseField
    rw [hf]
    simp [PyArray_BASE, arrayAt, hlt]

theorem PyArray_SetBaseObject_of_loop (h : Heap) (arr cand o fuel : Nat)
    (hbase : PyArray_BASE h arr = none) (hloop : collapseLoop h arr fuel cand = some o) :
    PyArray_SetBaseObject fuel h arr (some cand) =
      if arr = o then some ⟨-1, h, some PyErr.CircularBase⟩
      else some ⟨0, setBaseField h arr (some o), none⟩ := by
  simp [PyArray_SetBaseObject, hbase, hloop]

/-! ### Claims on `PyArray_SetBaseObject` -/

/-- C1: for an array `arr` with empty base and a chain `v1 -> ... -> vk -> A`
(`k >= 1`) of views none of which is `arr`, ending in an array `A` other than
`arr` that owns its data, `PyArray_SetBaseObject(arr, v1)` succeeds (for every
fuel above `k`) and sets `arr.base` to `A`, which is none of the `vi`. -/
theorem C1_base_collapses_to_owner (h : Heap) (arr A fuel : Nat) (vs : List Nat)
    (harr : PyArray_Check h arr = true) (hbase : PyArray_BASE h arr = none)
    (hk : vs ≠ []) (hchain : isViewChain h vs A = true) (hnot : arr ∉ vs)
    (_hA : PyArray_Check h A = true)
    (hown : PyArray_CHKFLAGS (PyArray_FLAGS h A) NPY_ARRAY_OWNDATA = true)
    (hne : A ≠ arr) (hfuel : vs.length < fuel) :
    PyArray_SetBaseObject fuel h arr vs.head? =
        some ⟨0, setBaseField h arr (some A), none⟩ ∧
      PyArray_BASE (setBaseField h arr (some A)) arr = some A ∧ A ∉ vs := by
  obtain ⟨v, rest, rfl⟩ := List.exists_cons_of_ne_nil hk
  obtain ⟨f, rfl⟩ : ∃ f, fuel = (f + 1) + (v :: rest).length := ⟨fuel - (v :: rest).length - 1, by
    simp only [List.length_cons] at hfuel ⊢; omega⟩
  have hwalk := collapseLoop_viewChain h arr A (v :: rest) (f + 1) hchain hnot
  have hstopA : stopsAt h arr A = true := by simp [stopsAt, hown]
  rw [collapseLoop_stop h arr A f hstopA] at hwalk
  simp only [List.headD_cons] at hwalk
  refine ⟨?_, PyArray_BASE_setBaseField h arr _ harr, ?_⟩
  · have hne2 : ¬ arr = A := fun e => hne e.symm
    rw [List.head?_cons, PyArray_SetBaseObject_of_loop h arr v A _ hbase hwalk, if_neg hne2]
  · intro hmem
    have hall : ∀ (l : List Nat), isViewChain h l A = true → A ∈ l → False := by
      intro l
      induction l with
      | nil => intro _ hm; simp at hm
      | cons w l ih =>
        intro hc hm
        simp only [isViewChain, Bool.and_eq_true, beq_iff_eq] at hc
        rcases List.mem_cons.mp hm with e | hm2
        · subst e
          have hv := hc.1.1
          simp [isView, hown] at hv
        · exact ih hc.2 hm2
    exact hall _ hchain hmem

/-- C1 at a concrete heap: `arr = 0`, views `1 -> 2`, owner `3`. -/
theorem C1_base_collapses_to_owner_witness :
    PyArray_SetBaseObject 3
        [PyObject.ndarray ⟨0, none⟩, PyObject.ndarray ⟨0, some 2⟩,
          PyObject.ndarray ⟨0, some 3⟩, PyObject.ndarray ⟨4, none⟩] 0 (some 1) =
      some ⟨0, [PyObject.ndarray ⟨0, some 3⟩, PyObject.ndarray ⟨0, some 2⟩,
          PyObject.ndarray ⟨0, some 3⟩, PyObject.ndarray ⟨4, none⟩], none⟩ :=
  (C1_base_collapses_to_owner
    [PyObject.ndarray ⟨0, none⟩, PyObject.ndarray ⟨0, some 2⟩,
      PyObject.ndarray ⟨0, some 3⟩, PyObject.ndarray ⟨4, none⟩] 0 3 3 [1, 2]
    (by decide) (by decide) (by decide) (by decide) (by decide) (by decide) (by decide)
    (by decide) (by decide)).1

/-- C2: for an array `arr` with empty base and a candidate `cand`, if `o` is
the first object of the sequence `cand, cand.base, cand.base.base, ...` at
which a stop condition holds (not an array or `arr` itself; owns its data;
`arr` does not own its mask while `o` does; no base), then the collapsing
walk resolves `o` (for every fuel above its index), and when `o` is not
`arr` the call succeeds with `arr.base = o`. -/
theorem C2_resolves_first_stop (h : Heap) (arr cand n o fuel : Nat)
    (harr : PyArray_Check h arr = true) (hbase : PyArray_BASE h arr = none)
    (hseq : baseSeq h cand n = some o) (hstop : stopsAt h arr o = true)
    (hfirst : ∀ m, m < n → ∀ o', baseSeq h cand m = some o' → stopsAt h arr o' = false)
    (hfuel : n < fuel) :
    collapseLoop h arr fuel cand = some o ∧
      (o ≠ arr →
        PyArray_SetBaseObject fuel h arr (some cand) =
            some ⟨0, setBaseField h arr (some o), none⟩ ∧
          PyArray_BASE (setBaseField h arr (some o)) arr = some o) := by
  obtain ⟨f, rfl⟩ : ∃ f, fuel = (f + 1) + n := ⟨fuel - n - 1, by omega⟩
  have hwalk := collapseLoop_baseSeq h arr cand n (f + 1) o hseq hfirst
  rw [collapseLoop_stop h arr o f hstop] at hwalk
  refine ⟨hwalk, fun hne => ⟨?_, PyArray_BASE_setBaseField h arr _ harr⟩⟩
  have hne2 : ¬ arr = o := fun e => hne e.symm
  rw [PyArray_SetBaseObject_of_loop h arr cand o _ hbase hwalk, if_neg hne2]

/-- C2 at a concrete heap: `arr = 0` owns no mask, candidate `1` is a plain
view of `2`, which owns its mask but not its data and has base `3`: the walk
stops at `2`. -/
theorem C2_resolves_first_stop_witness :
    PyArray_SetBaseObject 2
        [PyObject.ndarray ⟨0, none⟩, PyObject.ndarray ⟨0, some 2⟩,
          PyObject.ndarray ⟨0x4000, some 3⟩, PyObject.ndarray ⟨4, none⟩] 0 (some 1) =
      some ⟨0, [PyObject.ndarray ⟨0, some 2⟩, PyObject.ndarray ⟨0, some 2⟩,
          PyObject.ndarray ⟨0x4000, some 3⟩, PyObject.ndarray ⟨4, none⟩], none⟩ :=
  ((C2_resolves_first_stop
    [PyObject.ndarray ⟨0, none⟩, PyObject.ndarray ⟨0, some 2⟩,
      PyObject.ndarray ⟨0x4000, some 3⟩, PyObject.ndarray ⟨4, none⟩] 0 1 1 2 2
    (by decide) (by decide) (by decide) (by decide)
    (fun m hm o' ho' => by
      have hm0 : m = 0 := by omega
      subst hm0
      have ho : o' = 1 := by
        simp only [baseSeq, Option.some.injEq] at ho'
        exact ho'.symm
      subst ho
      decide)
    (by decide)).2 (by decide)).1

/-- C3: for an array `arr` with empty base, `PyArray_SetBaseObject(arr, cand)`
fails with `CircularBase` and leaves the heap (so `arr.base`) untouched when
`cand` is `arr` itself (`vs = []`) or `cand` is the head of a chain of views
`vs` whose base links lead to `arr`. -/
theorem C3_circular_base_rejected (h : Heap) (arr fuel : Nat) (vs : List Nat)
    (hbase : PyArray_BASE h arr = none)
    (hchain : isViewChain h vs arr = true) (hfuel : vs.length < fuel) :
    PyArray_SetBaseObject fuel h arr (some (vs.headD arr)) =
        some ⟨-1, h, some PyErr.CircularBase⟩ := by
  have hnot : arr ∉ vs := by
    have hall : ∀ (l : List Nat), isViewChain h l arr = true → arr ∈ l → False := by
      intro l
      induction l with
      | nil => intro _ hm; simp at hm
      | cons w l ih =>
        intro hc hm
        simp only [isViewChain, Bool.and_eq_true, beq_iff_eq] at hc
        rcases List.mem_cons.mp hm with e | hm2
        · subst e
          rw [hbase] at hc
          exact Option.noConfusion hc.1.2
        · exact ih hc.2 hm2
    exact fun hm => hall vs hchain hm
  obtain ⟨f, rfl⟩ : ∃ f, fuel = (f + 1) + vs.length := ⟨fuel - vs.length - 1, by omega⟩
  have hwalk := collapseLoop_viewChain h arr arr vs (f + 1) hchain hnot
  have hstop : stopsAt h arr arr = true := by simp [stopsAt]
  rw [collapseLoop_stop h arr arr f hstop] at hwalk
  rw [PyArray_SetBaseObject_of_loop h arr _ arr _ hbase hwalk, if_pos rfl]

/-- C3 at a concrete heap: `arr = 0`, and the views `1 -> 2 -> 0` lead back
to it. -/
theorem C3_circular_base_rejected_witness :
    PyArray_SetBaseObject 3
        [PyObject.ndarray ⟨0, none⟩, PyObject.ndarray ⟨0, some 2⟩,
          PyObject.ndarray ⟨0, some 0⟩] 0 (some 1) =
      some ⟨-1, [PyObject.ndarray ⟨0, none⟩, PyObject.ndarray ⟨0, some 2⟩,
          PyObject.ndarray ⟨0, some 0⟩], some PyErr.CircularBase⟩ :=
  C3_circular_base_rejected
    [PyObject.ndarray ⟨0, none⟩, PyObject.ndarray ⟨0, some 2⟩,
      PyObject.ndarray ⟨0, some 0⟩] 0 3 [1, 2] (by decide) (by decide) (by decide)

/-- C4: `PyArray_SetBaseObject` is a one-time assignment: a `NULL` candidate
fails with `InvalidBase`, and a non-`NULL` candidate on an array whose base is
already set fails with `AlreadyBound`; in both cases the heap, hence
`arr.base`, is what it was before the call. -/
theorem C4_one_time_assignment (fuel : Nat) (h : Heap) (arr : Nat) :
    PyArray_SetBaseObject fuel h arr none = some ⟨-1, h, some PyErr.InvalidBase⟩ ∧
      ∀ (cand b : Nat), PyArray_BASE h arr = some b →
        PyArray_SetBaseObject fuel h arr (some cand) =
          some ⟨-1, h, some PyErr.AlreadyBound⟩ := by
  refine ⟨rfl, fun cand b hb => ?_⟩
  simp [PyArray_SetBaseObject, hb]

/-- C4 at a concrete heap: `arr = 0` already has base `1`. -/
theorem C4_one_time_assignment_witness :
    PyArray_SetBaseObject 0 [PyObject.ndarray ⟨0, some 1⟩, PyObject.ndarray ⟨4, none⟩] 0
        (some 1) =
      some ⟨-1, [PyObject.ndarray ⟨0, some 1⟩, PyObject.ndarray ⟨4, none⟩],
        some PyErr.AlreadyBound⟩ :=
  (C4_one_time_assignment 0 [PyObject.ndarray ⟨0, some 1⟩, PyObject.ndarray ⟨4, none⟩] 0).2
    1 1 (by decide)

/-! ### Lemmas on the pairwise comparators -/

theorem headD_eq_getD (s : List Nat) : s.headD 0 = s.getD 0 0 := by
  cases s <;> simp

theorem tail_getD (s : List Nat) (j : Nat) : s.tail.getD j 0 = s.getD (j + 1) 0 := by
  cases s <;> simp

theorem drop_getD (s : List Nat) (n j : Nat) : (s.drop n).getD j 0 = s.getD (n + j) 0 := by
  simp [List.getD_eq_getElem?_getD]

theorem memcmp_eq_zero : ∀ (n : Nat) (s1 s2 : List Nat),
    (∀ j, j < n → s1.getD j 0 = s2.getD j 0) → memcmp s1 s2 n = 0 := by
  intro n
  induction n with
  | zero => intro s1 s2 _; rfl
  | succ n ih =>
    intro s1 s2 heq
    have h0 : s1.headD 0 = s2.headD 0 := by
      rw [headD_eq_getD, headD_eq_getD]; exact heq 0 (Nat.succ_pos n)
    rw [memcmp, if_neg (not_not.mpr h0)]
    apply ih
    intro j hj
    rw [tail_getD, tail_getD]
    exact heq (j + 1) (Nat.succ_lt_succ hj)

theorem memcmp_first_diff : ∀ (n : Nat) (s1 s2 : List Nat) (i : Nat), i < n →
    (∀ j, j < i → s1.getD j 0 = s2.getD j 0) → s1.getD i 0 ≠ s2.getD i 0 →
    memcmp s1 s2 n = (s1.getD i 0 : Int) - (s2.getD i 0 : Int) := by
  intro n
  induction n with
  | zero => intro s1 s2 i hi; exact absurd hi (Nat.not_lt_zero i)
  | succ n ih =>
    intro s1 s2 i hi heq hne
    cases i with
    | zero =>
      rw [← headD_eq_getD, ← headD_eq_getD] at hne
      rw [memcmp, if_pos hne, headD_eq_getD, headD_eq_getD]
    | succ i =>
      have h0 : s1.headD 0 = s2.headD 0 := by
        rw [headD_eq_getD, headD_eq_getD]; exact heq 0 (Nat.succ_pos i)
      rw [memcmp, if_neg (not_not.mpr h0)]
      have := ih s1.tail s2.tail i (Nat.lt_of_succ_lt_succ hi)
        (fun j hj => by rw [tail_getD, tail_getD]; exact heq (j + 1) (Nat.succ_lt_succ hj))
        (by rw [tail_getD, tail_getD]; exact hne)
      rw [this, tail_getD, tail_getD]

theorem CompareUCS4_eq_zero : ∀ (n : Nat) (s1 s2 : List Nat),
    (∀ j, j < n → s1.getD j 0 = s2.getD j 0) → PyArray_CompareUCS4 s1 s2 n = 0 := by
  intro n
  induction n with
  | zero => intro s1 s2 _; rfl
  | succ n ih =>
    intro s1 s2 heq
    have h0 : s1.headD 0 = s2.headD 0 := by
      rw [headD_eq_getD, headD_eq_getD]; exact heq 0 (Nat.succ_pos n)
    simp only [PyArray_CompareUCS4]
    rw [if_neg (not_not.mpr h0)]
    apply ih
    intro j hj
    rw [tail_getD, tail_getD]
    exact heq (j + 1) (Nat.succ_lt_succ hj)

theorem CompareUCS4_first_diff : ∀ (n : Nat) (s1 s2 : List Nat) (i : Nat), i < n →
    (∀ j, j < i → s1.getD j 0 = s2.getD j 0) → s1.getD i 0 ≠ s2.getD i 0 →
    PyArray_CompareUCS4 s1 s2 n = if s1.getD i 0 < s2.getD i 0 then -1 else 1 := by
  intro n
  induction n with
  | zero => intro s1 s2 i hi; exact absurd hi (Nat.not_lt_zero i)
  | succ n ih =>
    intro s1 s2 i hi heq hne
    cases i with
    | zero =>
      rw [← headD_eq_getD, ← headD_eq_getD] at hne
      simp only [PyArray_CompareUCS4]
      rw [if_pos hne, headD_eq_getD, headD_eq_getD]
    | succ i =>
      have h0 : s1.headD 0 = s2.headD 0 := by
        rw [headD_eq_getD, headD_eq_getD]; exact heq 0 (Nat.succ_pos i)
      simp only [PyArray_CompareUCS4]
      rw [if_neg (not_not.mpr h0)]
      have := ih s1.tail s2.tail i (Nat.lt_of_succ_lt_succ hi)
        (fun j hj => by rw [tail_getD, tail_getD]; exact heq (j + 1) (Nat.succ_lt_succ hj))
        (by rw [tail_getD, tail_getD]; exact hne)
      rw [this, tail_getD, tail_getD]

theorem nulTailLoop_zero (val : Int) : ∀ (diff : Nat) (sptr : List Nat),
    (∀ j, j < diff → sptr.getD j 0 = 0) → nulTailLoop val sptr diff = 0 := by
  intro diff
  induction diff with
  | zero => intro sptr _; rfl
  | succ d ih =>
    intro sptr hz
    have h0 : sptr.headD 0 = 0 := by rw [headD_eq_getD]; exact hz 0 (Nat.succ_pos d)
    rw [nulTailLoop, if_neg (not_not.mpr h0)]
    exact ih sptr.tail (fun j hj => by rw [tail_getD]; exact hz (j + 1) (Nat.succ_lt_succ hj))

theorem nulTailLoop_val (val : Int) : ∀ (diff : Nat) (sptr : List Nat) (j : Nat),
    j < diff → sptr.getD j 0 ≠ 0 → nulTailLoop val sptr diff = val := by
  intro diff
  induction diff with
  | zero => intro sptr j hj; exact absurd hj (Nat.not_lt_zero j)
  | succ d ih =>
    intro sptr j hj hne
    rw [nulTailLoop]
    by_cases h0 : sptr.headD 0 = 0
    · rw [if_neg (not_not.mpr h0)]
      cases j with
      | zero => rw [headD_eq_getD] at h0; exact absurd h0 hne
      | succ j =>
        exact ih sptr.tail j (Nat.lt_of_succ_lt_succ hj) (by rw [tail_getD]; exact hne)
    · rw [if_pos h0]

theorem all_zero_iff_getD (l : List Nat) :
    (∀ u, u ∈ l → u = 0) ↔ ∀ j, j < l.length → l.getD j 0 = 0 := by
  constructor
  · intro hall j hj
    rw [List.getD_eq_getElem?_getD, List.getElem?_eq_getElem hj]
    exact hall _ (List.getElem_mem hj)
  · intro hget u hu
    obtain ⟨j, hj, rfl⟩ := List.getElem_of_mem hu
    have := hget j hj
    rw [List.getD_eq_getElem?_getD, List.getElem?_eq_getElem hj] at this
    exact this

theorem nulTailLoop_full (val : Int) (l : List Nat) :
    nulTailLoop val l l.length = if ∀ u, u ∈ l → u = 0 then 0 else val := by
  by_cases hall : ∀ u, u ∈ l → u = 0
  · rw [if_pos hall]
    exact nulTailLoop_zero val _ _ ((all_zero_iff_getD l).mp hall)
  · rw [if_neg hall]
    have hex : ∃ j, j < l.length ∧ l.getD j 0 ≠ 0 := by
      by_contra hno
      apply hall
      rw [all_zero_iff_getD]
      intro j hj
      by_contra hne
      exact hno ⟨j, hj, hne⟩
    obtain ⟨j, hj, hne⟩ := hex
    exact nulTailLoop_val val _ _ j hj hne

theorem memcmp_prefixCmp : PrefixCmp memcmp := by
  refine ⟨memcmp_eq_zero, ?_, ?_⟩
  · intro n s1 s2 i hi heq hlt
    rw [memcmp_first_diff n s1 s2 i hi heq (Nat.ne_of_lt hlt)]
    omega
  · intro n s1 s2 i hi heq hlt
    rw [memcmp_first_diff n s1 s2 i hi heq (Nat.ne_of_gt hlt)]
    omega

theorem CompareUCS4_prefixCmp : PrefixCmp PyArray_CompareUCS4 := by
  refine ⟨CompareUCS4_eq_zero, ?_, ?_⟩
  · intro n s1 s2 i hi heq hlt
    rw [CompareUCS4_first_diff n s1 s2 i hi heq (Nat.ne_of_lt hlt), if_pos hlt]
    decide
  · intro n s1 s2 i hi heq hlt
    rw [CompareUCS4_first_diff n s1 s2 i hi heq (Nat.ne_of_gt hlt),
      if_neg (Nat.lt_asymm hlt)]
    decide

theorem cmpWith_prefix_differs (pc : List Nat → List Nat → Nat → Int) (hpc : PrefixCmp pc)
    (s1 s2 : List Nat) (len1 len2 i : Nat) (hi : i < min len1 len2)
    (heq : ∀ j, j < i → s1.getD j 0 = s2.getD j 0) :
    (s1.getD i 0 < s2.getD i 0 → cmpWith pc s1 s2 len1 len2 < 0) ∧
    (s2.getD i 0 < s1.getD i 0 → 0 < cmpWith pc s1 s2 len1 len2) := by
  constructor
  · intro hlt
    have hv := hpc.2.1 _ s1 s2 i hi heq hlt
    have hne : pc s1 s2 (min len1 len2) ≠ 0 := by omega
    simp only [cmpWith]
    rw [if_pos (Or.inl hne)]
    exact hv
  · intro hlt
    have hv := hpc.2.2 _ s1 s2 i hi heq hlt
    have hne : pc s1 s2 (min len1 len2) ≠ 0 := by omega
    simp only [cmpWith]
    rw [if_pos (Or.inl hne)]
    exact hv

theorem cmpWith_prefix_equal (pc : List Nat → List Nat → Nat → Int) (hpc : PrefixCmp pc)
    (s1 s2 : List Nat)
    (heq : ∀ j, j < min s1.length s2.length → s1.getD j 0 = s2.getD j 0) :
    cmpWith pc s1 s2 s1.length s2.length =
      if ∀ u, u ∈ longerTail s1 s2 → u = 0 then 0
      else if s1.length < s2.length then -1 else 1 := by
  have hv := hpc.1 _ s1 s2 heq
  simp only [cmpWith, hv, ne_eq, not_true_eq_false, false_or, gt_iff_lt]
  by_cases hlen : s1.length = s2.length
  · have ht : longerTail s1 s2 = [] := by simp [longerTail, hlen]
    rw [if_pos hlen, ht]
    simp
  · rw [if_neg hlen]
    by_cases hlt : s1.length < s2.length
    · have ht : longerTail s1 s2 = s2.drop s1.length := by simp [longerTail, hlt]
      have hl : (s2.drop s1.length).length = s2.length - s1.length := List.length_drop _ _
      rw [if_pos hlt, ht, ← hl, nulTailLoop_full]
      simp [hlt]
    · have ht : longerTail s1 s2 = s1.drop s2.length := by simp [longerTail, hlt]
      have hl : (s1.drop s2.length).length = s1.length - s2.length := List.length_drop _ _
      rw [if_neg hlt, ht, ← hl, nulTailLoop_full]
      simp [hlt]

theorem CompFunc.call_eq_cmpWith (cmp : CompFunc) :
    ∃ pc, PrefixCmp pc ∧ cmp.call = cmpWith pc := by
  cases cmp
  · exact ⟨memcmp, memcmp_prefixCmp, rfl⟩
  · exact ⟨PyArray_CompareUCS4, CompareUCS4_prefixCmp, rfl⟩

/-! ### Claims on the pairwise comparator -/

/-- C5: for unit sequences `s1`, `s2` of lengths `N1`, `N2`, each of
`_mystrncmp` and `_myunincmp` returns: when the first `min(N1,N2)` units
differ, a negative value if at the first differing index the unit of `s1` is
the smaller one and a positive value if it is the larger one; otherwise 0 if
`N1 = N2`; otherwise 0 if every unit of the longer element beyond index
`min(N1,N2)` is NUL; otherwise a positive value if `s1` is longer and a
negative value if `s2` is. -/
theorem C5_pairwise_comparator (cmp : CompFunc) (s1 s2 : List Nat) :
    (∀ i, i < min s1.length s2.length → (∀ j, j < i → s1.getD j 0 = s2.getD j 0) →
      s1.getD i 0 ≠ s2.getD i 0 →
      (s1.getD i 0 < s2.getD i 0 → cmp.call s1 s2 s1.length s2.length < 0) ∧
      (s2.getD i 0 < s1.getD i 0 → 0 < cmp.call s1 s2 s1.length s2.length)) ∧
    ((∀ j, j < min s1.length s2.length → s1.getD j 0 = s2.getD j 0) →
      (s1.length = s2.length → cmp.call s1 s2 s1.length s2.length = 0) ∧
      (s1.length ≠ s2.length →
        ((∀ u, u ∈ longerTail s1 s2 → u = 0) → cmp.call s1 s2 s1.length s2.length = 0) ∧
        (¬ (∀ u, u ∈ longerTail s1 s2 → u = 0) →
          (s2.length < s1.length → 0 < cmp.call s1 s2 s1.length s2.length) ∧
          (s1.length < s2.length → cmp.call s1 s2 s1.length s2.length < 0)))) := by
  obtain ⟨pc, hpc, hcall⟩ := cmp.call_eq_cmpWith
  rw [hcall]
  refine ⟨fun i hi heq _ => cmpWith_prefix_differs pc hpc s1 s2 _ _ i hi heq, fun heq => ?_⟩
  have hval := cmpWith_prefix_equal pc hpc s1 s2 heq
  refine ⟨fun hlen => ?_, fun _ => ⟨fun hall => ?_, fun hnall => ⟨fun hlt => ?_, fun hlt => ?_⟩⟩⟩
  · have ht : longerTail s1 s2 = [] := by simp [longerTail, hlen]
    rw [hval, ht]
    simp
  · rw [hval, if_pos hall]
  · rw [hval, if_neg hnall, if_neg (Nat.lt_asymm hlt)]
    decide
  · rw [hval, if_neg hnall, if_pos hlt]
    decide

/-- C5 at concrete elements: `"ab"` against `"abc"` with `_mystrncmp` is
negative, since the prefix agrees and the longer `s2` has a non-NUL tail. -/
theorem C5_pairwise_comparator_witness : _mystrncmp [97, 98] [97, 98, 99] 2 3 < 0 :=
  ((((C5_pairwise_comparator CompFunc.mystrncmp [97, 98] [97, 98, 99]).2
    (by decide)).2 (by decide)).2 (by decide)).2 (by decide)

/-! ### Lemmas on `_compare_strings` for a single pair of elements -/

theorem unitBytes_width (func : CompFunc) (n : Nat) :
    (if func = CompFunc.myunincmp then (func.unitBytes * n) >>> 2 else func.unitBytes * n) = n := by
  cases func
  · simp [CompFunc.unitBytes]
  · simp only [CompFunc.unitBytes, if_true, Nat.shiftRight_eq_div_pow]
    omega

theorem longerTail_append_right (s u : List Nat) : longerTail s (s ++ u) = u := by
  unfold longerTail
  by_cases hu : u = []
  · subst hu; simp
  · have : 0 < u.length := List.length_pos.mpr hu
    simp [this]

theorem longerTail_append_left (s u : List Nat) : longerTail (s ++ u) s = u := by
  unfold longerTail
  simp

theorem append_getD_left (s u : List Nat) (j : Nat) (hj : j < s.length) :
    (s ++ u).getD j 0 = s.getD j 0 := by
  simp [List.getD_eq_getElem?_getD, List.getElem?_append_left hj]

theorem call_append_right (cmp : CompFunc) (s u : List Nat) :
    cmp.call s (s ++ u) s.length (s ++ u).length =
      if ∀ x, x ∈ u → x = 0 then 0 else -1 := by
  obtain ⟨pc, hpc, hcall⟩ := cmp.call_eq_cmpWith
  rw [hcall, cmpWith_prefix_equal pc hpc s (s ++ u)
    (fun j hj => (append_getD_left s u j (by simp at hj; omega)).symm),
    longerTail_append_right]
  by_cases hall : ∀ x, x ∈ u → x = 0
  · rw [if_pos hall, if_pos hall]
  · have hu : u ≠ [] := fun e => hall (by simp [e])
    have hlen : s.length < (s ++ u).length := by
      have := List.length_pos.mpr hu
      simp only [List.length_append]
      omega
    rw [if_neg hall, if_neg hall, if_pos hlen]

theorem call_append_left (cmp : CompFunc) (s u : List Nat) :
    cmp.call (s ++ u) s (s ++ u).length s.length =
      if ∀ x, x ∈ u → x = 0 then 0 else 1 := by
  obtain ⟨pc, hpc, hcall⟩ := cmp.call_eq_cmpWith
  rw [hcall, cmpWith_prefix_equal pc hpc (s ++ u) s
    (fun j hj => append_getD_left s u j (by simp at hj; omega)),
    longerTail_append_left]
  by_cases hall : ∀ x, x ∈ u → x = 0
  · rw [if_pos hall, if_pos hall]
  · have hlen : ¬ (s ++ u).length < s.length := by
      simp only [List.length_append]
      omega
    rw [if_neg hall, if_neg hall, if_neg hlen]

theorem compare_strings_EQ_single (malloc : Nat → Bool) (d : Bool) (a b : List Nat)
    (func : CompFunc) :
    _compare_strings malloc [d] 1 (fun _ => a) (fun _ => b) (func.unitBytes * a.length)
        (func.unitBytes * b.length) Py_EQ func false =
      ⟨0, [func.call a b a.length b.length == 0], none⟩ := by
  simp [_compare_strings, unitBytes_width, _reg_loop]

theorem compare_strings_LT_single (malloc : Nat → Bool) (d : Bool) (a b : List Nat)
    (func : CompFunc) :
    _compare_strings malloc [d] 1 (fun _ => a) (fun _ => b) (func.unitBytes * a.length)
        (func.unitBytes * b.length) Py_LT func false =
      ⟨0, [decide (func.call a b a.length b.length < 0)], none⟩ := by
  simp [_compare_strings, unitBytes_width, _reg_loop, Py_LT, Py_EQ, Py_NE]

/-! ### Claims on NUL padding -/

/-- C6: for a text element `s` and a tail `u`, with `t = s ++ u`, compared
without rstrip by `_compare_strings` (either comparison function, one
position): if every unit of `u` is NUL, `s == t` and `t == s` are both true;
if `u` has a non-NUL unit, `s == t` is false and `s < t` is true. -/
theorem C6_nul_padding (func : CompFunc) (malloc : Nat → Bool) (d : Bool) (s u : List Nat) :
    ((∀ x, x ∈ u → x = 0) →
      _compare_strings malloc [d] 1 (fun _ => s) (fun _ => s ++ u)
          (func.unitBytes * s.length) (func.unitBytes * (s ++ u).length) Py_EQ func false =
        ⟨0, [true], none⟩ ∧
      _compare_strings malloc [d] 1 (fun _ => s ++ u) (fun _ => s)
          (func.unitBytes * (s ++ u).length) (func.unitBytes * s.length) Py_EQ func false =
        ⟨0, [true], none⟩) ∧
    (¬ (∀ x, x ∈ u → x = 0) →
      _compare_strings malloc [d] 1 (fun _ => s) (fun _ => s ++ u)
          (func.unitBytes * s.length) (func.unitBytes * (s ++ u).length) Py_EQ func false =
        ⟨0, [false], none⟩ ∧
      _compare_strings malloc [d] 1 (fun _ => s) (fun _ => s ++ u)
          (func.unitBytes * s.length) (func.unitBytes * (s ++ u).length) Py_LT func false =
        ⟨0, [true], none⟩) := by
  refine ⟨fun hall => ⟨?_, ?_⟩, fun hnall => ⟨?_, ?_⟩⟩
  · rw [compare_strings_EQ_single, call_append_right, if_pos hall]; rfl
  · rw [compare_strings_EQ_single, call_append_left, if_pos hall]; rfl
  · rw [compare_strings_EQ_single, call_append_right, if_neg hnall]; rfl
  · rw [compare_strings_LT_single, call_append_right, if_neg hnall]; rfl

/-- C6 at the elements of the specification: `"ab"` (width 2) equals
`"ab\0"` (width 3). -/
theorem C6_nul_padding_witness :
    _compare_strings (fun _ => true) [false] 1 (fun _ => [97, 98]) (fun _ => [97, 98, 0])
        2 3 Py_EQ CompFunc.mystrncmp false = ⟨0, [true], none⟩ :=
  ((C6_nul_padding CompFunc.mystrncmp (fun _ => true) false [97, 98] [0]).1 (by decide)).1

/-! ### Lemmas on stripping -/

theorem stripLoop_length : ∀ (i : Nat) (s : List Nat), (stripLoop s i).length = s.length := by
  intro i
  induction i with
  | zero => intro s; rfl
  | succ i ih =>
    intro s
    simp only [stripLoop]
    split
    · rw [ih, List.length_set]
    · rfl

theorem set_getD_ne (s : List Nat) (i v j : Nat) (h : j ≠ i) :
    (s.set i v).getD j 0 = s.getD j 0 := by
  simp [List.getD_eq_getElem?_getD, List.getElem?_set, h.symm]

theorem set_getD_eq (s : List Nat) (i v : Nat) (h : i < s.length) :
    (s.set i v).getD i 0 = v := by
  simp [List.getD_eq_getElem?_getD, List.getElem?_set, h]

theorem stripLoop_getD : ∀ (i : Nat) (s : List Nat) (m : Nat), i < s.length → m ≤ i →
    (m = 0 ∨ (s.getD m 0 == 0 || isspace (s.getD m 0)) = false) →
    (∀ j, m < j → j ≤ i → (s.getD j 0 == 0 || isspace (s.getD j 0)) = true) →
    ∀ k, (stripLoop s i).getD k 0 = if m < k ∧ k ≤ i then 0 else s.getD k 0 := by
  intro i
  induction i with
  | zero =>
    intro s m _ hm _ _ k
    have : ¬ (m < k ∧ k ≤ 0) := by omega
    rw [if_neg this]
    rfl
  | succ i ih =>
    intro s m hi hm hkeep hstrip k
    simp only [stripLoop]
    by_cases hmi : m = i + 1
    · subst hmi
      have hk : (s.getD (i + 1) 0 == 0 || isspace (s.getD (i + 1) 0)) = false := by
        rcases hkeep with h0 | h1
        · omega
        · exact h1
      have : ¬ (i + 1 < k ∧ k ≤ i + 1) := by omega
      rw [hk, if_neg this]
      rfl
    · have hmle : m ≤ i := by omega
      have hs := hstrip (i + 1) (by omega) (Nat.le_refl _)
      rw [hs, if_pos rfl]
      have hlen : i < (s.set (i + 1) 0).length := by rw [List.length_set]; omega
      have hsame : ∀ j, j ≤ i → (s.set (i + 1) 0).getD j 0 = s.getD j 0 :=
        fun j hj => set_getD_ne s (i + 1) 0 j (by omega)
      have hkeep2 : m = 0 ∨
          ((s.set (i + 1) 0).getD m 0 == 0 || isspace ((s.set (i + 1) 0).getD m 0)) = false := by
        rw [hsame m hmle]; exact hkeep
      have hstrip2 : ∀ j, m < j → j ≤ i →
          ((s.set (i + 1) 0).getD j 0 == 0 || isspace ((s.set (i + 1) 0).getD j 0)) = true := by
        intro j h1 h2
        rw [hsame j h2]
        exact hstrip j h1 (by omega)
      rw [ih (s.set (i + 1) 0) m hlen hmle hkeep2 hstrip2 k]
      by_cases hk : k = i + 1
      · subst hk
        have h1 : ¬ (m < i + 1 ∧ i + 1 ≤ i) := by omega
        have h2 : m < i + 1 ∧ i + 1 ≤ i + 1 := by omega
        rw [if_neg h1, if_pos h2, set_getD_eq s (i + 1) 0 hi]
      · rw [set_getD_ne s (i + 1) 0 k hk]
        by_cases hc : m < k ∧ k ≤ i
        · have h2 : m < k ∧ k ≤ i + 1 := by omega
          rw [if_pos hc, if_pos h2]
        · have h2 : ¬ (m < k ∧ k ≤ i + 1) := by omega
          rw [if_neg hc, if_neg h2]

theorem exists_keepIndex (s : List Nat) : ∀ (i : Nat), ∃ m, m ≤ i ∧
    (m = 0 ∨ (s.getD m 0 == 0 || isspace (s.getD m 0)) = false) ∧
    (∀ j, m < j → j ≤ i → (s.getD j 0 == 0 || isspace (s.getD j 0)) = true) := by
  intro i
  induction i with
  | zero => exact ⟨0, Nat.le_refl 0, Or.inl rfl, fun j h1 h2 => by omega⟩
  | succ i ih =>
    by_cases hc : (s.getD (i + 1) 0 == 0 || isspace (s.getD (i + 1) 0)) = true
    · obtain ⟨m, hm, hkeep, hstrip⟩ := ih
      refine ⟨m, by omega, hkeep, fun j h1 h2 => ?_⟩
      by_cases hj : j = i + 1
      · subst hj; exact hc
      · exact hstrip j h1 (by omega)
    · exact ⟨i + 1, Nat.le_refl _, Or.inr (by simpa using hc), fun j h1 h2 => by omega⟩

theorem strippable_iff (c : Nat) :
    (c == 0 || isspace c) = true ↔ c ∈ [0, 32, 9, 10, 13, 11, 12] := by
  simp only [isspace, Bool.or_eq_true, beq_iff_eq, List.mem_cons, List.mem_singleton,
    List.not_mem_nil, or_false]
  constructor <;> (intro h; omega)

/-! ### Claim on `_rstripw` and `_unistripw` -/

/-- C8: for a buffer `s` of `n >= 1` units, with `m` the largest index in
`[1, n-1]` whose unit is neither NUL nor one of space, tab, newline, carriage
return, vertical tab, form feed (`m = 0` if there is none), `_rstripw(s, n)`
keeps the length `n`, does not change unit 0, leaves every unit at an index
`<= m` unchanged and sets every unit at an index `> m` to NUL; `_unistripw`
does the same. -/
theorem C8_rstrip_keeps_prefix (s : List Nat) (m : Nat) (hn : 1 ≤ s.length)
    (hm : m < s.length)
    (hkeep : m = 0 ∨ s.getD m 0 ∉ [0, 32, 9, 10, 13, 11, 12])
    (hlast : ∀ i, i < s.length → m < i → s.getD i 0 ∈ [0, 32, 9, 10, 13, 11, 12]) :
    (_rstripw s s.length).length = s.length ∧
    (_rstripw s s.length).getD 0 0 = s.getD 0 0 ∧
    (∀ i, i ≤ m → (_rstripw s s.length).getD i 0 = s.getD i 0) ∧
    (∀ i, i < s.length → m < i → (_rstripw s s.length).getD i 0 = 0) ∧
    _unistripw s s.length = _rstripw s s.length := by
  have hchar := stripLoop_getD (s.length - 1) s m (by omega) (by omega)
    (hkeep.imp id (fun h => by
      cases hb : (s.getD m 0 == 0 || isspace (s.getD m 0))
      · rfl
      · exact absurd ((strippable_iff _).mp hb) h))
    (fun j h1 h2 => (strippable_iff _).mpr (hlast j (by omega) h1))
  refine ⟨stripLoop_length _ _, ?_, fun i hi => ?_, fun i h1 h2 => ?_, rfl⟩
  · have := hchar 0
    rw [if_neg (by omega)] at this
    exact this
  · have := hchar i
    rw [if_neg (by omega)] at this
    exact this
  · have := hchar i
    rw [if_pos (by omega)] at this
    exact this

/-- C8 at a concrete buffer: `"a b \0\n"` keeps `"a b"` (here `m = 2`) and
the three units behind it become NUL. -/
theorem C8_rstrip_keeps_prefix_witness :
    (_rstripw [97, 32, 98, 32, 0, 10] 6).length = 6 ∧
    (_rstripw [97, 32, 98, 32, 0, 10] 6).getD 0 0 = 97 ∧
    (∀ i, i ≤ 2 → (_rstripw [97, 32, 98, 32, 0, 10] 6).getD i 0 =
      List.getD [97, 32, 98, 32, 0, 10] i 0) ∧
    (∀ i, i < 6 → 2 < i → (_rstripw [97, 32, 98, 32, 0, 10] 6).getD i 0 = 0) ∧
    _unistripw [97, 32, 98, 32, 0, 10] 6 = _rstripw [97, 32, 98, 32, 0, 10] 6 :=
  C8_rstrip_keeps_prefix [97, 32, 98, 32, 0, 10] 2 (by decide) (by decide) (by decide)
    (by decide)

/-! ### Lemmas on comparison in rstrip mode -/

theorem stripfunc_eq (func : CompFunc) (malloc : Nat → Bool)
    (halloc : ∀ sz, SMALL_STRING < sz → malloc sz = true) (original : List Nat) (nc : Nat) :
    func.stripfunc malloc original nc = some (stripLoop (original.take nc) (nc - 1)) := by
  cases func
  · simp only [CompFunc.stripfunc, _char_copy_n_strip, _rstripw]
    by_cases h : nc > SMALL_STRING
    · simp [halloc nc h]
    · simp [h]
  · simp only [CompFunc.stripfunc, _uni_copy_n_strip, _unistripw]
    by_cases h : nc * 4 > SMALL_STRING
    · simp [halloc (nc * 4) h]
    · simp [h]

theorem append_replicate_getD (s : List Nat) (k c j : Nat) (h1 : s.length ≤ j)
    (h2 : j < s.length + k) : (s ++ List.replicate k c).getD j 0 = c := by
  have : j - s.length < k := by omega
  simp [List.getD_eq_getElem?_getD, List.getElem?_append_right h1, List.getElem?_replicate, this]

theorem getD_beyond (s : List Nat) (j : Nat) (h : s.length ≤ j) : s.getD j 0 = 0 := by
  simp [List.getD_eq_getElem?_getD, List.getElem?_eq_none h]

theorem strip_append_spaces (s : List Nat) (k : Nat) (hn : 1 ≤ s.length) :
    (∀ j, j < s.length →
      (stripLoop (s ++ List.replicate k 32) (s.length + k - 1)).getD j 0 =
        (stripLoop s (s.length - 1)).getD j 0) ∧
    (∀ j, s.length ≤ j →
      (stripLoop (s ++ List.replicate k 32) (s.length + k - 1)).getD j 0 = 0) := by
  obtain ⟨m, hm, hkeep, hstrip⟩ := exists_keepIndex s (s.length - 1)
  have hs := stripLoop_getD (s.length - 1) s m (by omega) hm hkeep hstrip
  have hmt : m < s.length := by omega
  have ht := stripLoop_getD (s.length + k - 1) (s ++ List.replicate k 32) m
    (by simp only [List.length_append, List.length_replicate]; omega) (by omega)
    (by rw [append_getD_left s _ m hmt]; exact hkeep)
    (fun j h1 h2 => by
      by_cases hj : j < s.length
      · rw [append_getD_left s _ j hj]
        exact hstrip j h1 (by omega)
      · rw [append_replicate_getD s k 32 j (by omega) (by omega)]
        rfl)
  constructor
  · intro j hj
    rw [ht j, hs j, append_getD_left s _ j hj]
    by_cases hc : m < j
    · rw [if_pos (by omega), if_pos (by omega)]
    · rw [if_neg (by omega), if_neg (by omega)]
  · intro j hj
    rw [ht j]
    by_cases hc : j ≤ s.length + k - 1
    · rw [if_pos (by omega)]
    · rw [if_neg (by omega)]
      exact getD_beyond _ j (by
        simp only [List.length_append, List.length_replicate]; omega)

theorem call_strip_append_spaces (cmp : CompFunc) (s : List Nat) (k : Nat) (hn : 1 ≤ s.length) :
    cmp.call (stripLoop (s ++ List.replicate k 32) (s.length + k - 1))
      (stripLoop s (s.length - 1)) (s.length + k) s.length = 0 := by
  obtain ⟨pc, hpc, hcall⟩ := cmp.call_eq_cmpWith
  obtain ⟨hpre, htail⟩ := strip_append_spaces s k hn
  have hla : (stripLoop (s ++ List.replicate k 32) (s.length + k - 1)).length = s.length + k := by
    rw [stripLoop_length]; simp
  have hlb : (stripLoop s (s.length - 1)).length = s.length := stripLoop_length _ _
  have hval := cmpWith_prefix_equal pc hpc
    (stripLoop (s ++ List.replicate k 32) (s.length + k - 1)) (stripLoop s (s.length - 1))
    (fun j hj => hpre j (by rw [hla, hlb] at hj; omega))
  rw [hla, hlb] at hval
  rw [hcall, hval]
  apply if_pos
  rw [all_zero_iff_getD]
  intro j _
  unfold longerTail
  rw [hla, hlb, if_neg (by omega), drop_getD]
  exact htail _ (by omega)

/-! ### Claim on rstrip mode -/

/-- C7: for a text element `s` of width `n >= 1` and `k >= 1`, with
`t = s` followed by `k` spaces, `_compare_strings` with `Py_EQ` on `t` and `s`
(either comparison function, one position, allocations succeeding) writes
true in rstrip mode and false without rstrip.  The copies are made in
buffers of `SMALL_STRING` bytes; only a wider element needs `malloc`, which
is assumed to succeed. -/
theorem C7_rstrip_mode (func : CompFunc) (malloc : Nat → Bool) (d : Bool) (s : List Nat)
    (k : Nat) (halloc : ∀ sz, SMALL_STRING < sz → malloc sz = true) (hn : 1 ≤ s.length)
    (hk : 1 ≤ k) :
    _compare_strings malloc [d] 1 (fun _ => s ++ List.replicate k 32) (fun _ => s)
        (func.unitBytes * (s ++ List.replicate k 32).length) (func.unitBytes * s.length)
        Py_EQ func true = ⟨0, [true], none⟩ ∧
    _compare_strings malloc [d] 1 (fun _ => s ++ List.replicate k 32) (fun _ => s)
        (func.unitBytes * (s ++ List.replicate k 32).length) (func.unitBytes * s.length)
        Py_EQ func false = ⟨0, [false], none⟩ := by
  constructor
  · have hlen : (s ++ List.replicate k 32).length = s.length + k := by simp
    have h0 := call_strip_append_spaces func s k hn
    simp only [_compare_strings, unitBytes_width, if_true, _rstrip_loop, stripfunc_eq func malloc
      halloc, hlen]
    rw [← hlen, List.take_length, List.take_length, hlen, h0]
    rfl
  · have hnz : ¬ (∀ x, x ∈ List.replicate k 32 → x = 0) := by
      intro h
      have := h 32 (by simp; omega)
      omega
    rw [compare_strings_EQ_single, call_append_left, if_neg hnz]
    rfl

/-- C7 at the elements of the specification: `"ab  "` against `"ab"`. -/
theorem C7_rstrip_mode_witness :
    _compare_strings (fun _ => true) [false] 1 (fun _ => [97, 98, 32, 32]) (fun _ => [97, 98])
        4 2 Py_EQ CompFunc.mystrncmp true = ⟨0, [true], none⟩ ∧
    _compare_strings (fun _ => true) [false] 1 (fun _ => [97, 98, 32, 32]) (fun _ => [97, 98])
        4 2 Py_EQ CompFunc.mystrncmp false = ⟨0, [false], none⟩ :=
  C7_rstrip_mode CompFunc.mystrncmp (fun _ => true) false [97, 98] 2 (fun _ _ => rfl)
    (by decide) (by decide)

/-! ### Lemmas on the field loop -/

theorem voidFieldLoop_some {Arr : Type} (env : Collaborators Arr) (self other : Arr)
    (cmp_op : Nat) (op : NumOp) (nd : Nat) (r c : Nat → CmpObj) :
    ∀ (entries : List (Nat × FieldValue)) (acc : CmpObj),
      (∀ x, x ∈ canonicalFields entries → fieldCompare env self other cmp_op x.1 = Except.ok (r x.1)) →
      (∀ x, x ∈ canonicalFields entries →
        collapseExtraDims env op nd (r x.1) = Except.ok (c x.1)) →
      voidFieldLoop env self other cmp_op op nd entries (some acc) =
        (foldFields env op c (canonicalFields entries) acc).map some := by
  intro entries
  induction entries with
  | nil => intro acc _ _; rfl
  | cons kv entries ih =>
    intro acc hr hc
    obtain ⟨key, value⟩ := kv
    by_cases ht : NPY_TITLE_KEY key value = true
    · have hcan : canonicalFields ((key, value) :: entries) = canonicalFields entries := by
        simp [canonicalFields, ht]
      rw [hcan] at hr hc ⊢
      rw [voidFieldLoop, if_pos ht]
      exact ih acc hr hc
    · have hcan : canonicalFields ((key, value) :: entries) =
          (key, value) :: canonicalFields entries := by
        simp [canonicalFields, ht]
      rw [hcan] at hr hc ⊢
      have h1 := hr (key, value) (List.mem_cons_self _ _)
      have h2 := hc (key, value) (List.mem_cons_self _ _)
      simp only at h1 h2
      rw [voidFieldLoop, if_neg ht, h1]
      simp only [h2, foldFields]
      cases hcall : env.PyObject_CallFunction op acc (c key) with
      | error e => rfl
      | ok acc2 =>
        exact ih acc2 (fun x hx => hr x (List.mem_cons_of_mem _ hx))
          (fun x hx => hc x (List.mem_cons_of_mem _ hx))

theorem voidFieldLoop_none {Arr : Type} (env : Collaborators Arr) (self other : Arr)
    (cmp_op : Nat) (op : NumOp) (nd : Nat) (r c : Nat → CmpObj) :
    ∀ (entries : List (Nat × FieldValue)) (kv : Nat × FieldValue)
      (rest : List (Nat × FieldValue)), canonicalFields entries = kv :: rest →
      (∀ x, x ∈ kv :: rest → fieldCompare env self other cmp_op x.1 = Except.ok (r x.1)) →
      (∀ x, x ∈ kv :: rest → collapseExtraDims env op nd (r x.1) = Except.ok (c x.1)) →
      voidFieldLoop env self other cmp_op op nd entries none =
        (foldFields env op c rest (c kv.1)).map some := by
  intro entries
  induction entries with
  | nil => intro kv rest hcan; simp [canonicalFields] at hcan
  | cons e entries ih =>
    intro kv rest hcanon hr hc
    obtain ⟨key, value⟩ := e
    by_cases ht : NPY_TITLE_KEY key value = true
    · have hcan : canonicalFields ((key, value) :: entries) = canonicalFields entries := by
        simp [canonicalFields, ht]
      rw [hcan] at hcanon
      rw [voidFieldLoop, if_pos ht]
      exact ih kv rest hcanon hr hc
    · have hcan : canonicalFields ((key, value) :: entries) =
          (key, value) :: canonicalFields entries := by
        simp [canonicalFields, ht]
      rw [hcan] at hcanon
      have hkv : kv = (key, value) := (List.cons.inj hcanon).1.symm
      have hrest : canonicalFields entries = rest := (List.cons.inj hcanon).2
      subst hkv
      have h1 := hr (key, value) (List.mem_cons_self _ _)
      have h2 := hc (key, value) (List.mem_cons_self _ _)
      simp only at h1 h2
      rw [voidFieldLoop, if_neg ht, h1]
      simp only [h2]
      rw [← hrest] at hr hc ⊢
      exact voidFieldLoop_some env self other cmp_op op nd r c entries (c key)
        (fun x hx => hr x (List.mem_cons_of_mem _ hx))
        (fun x hx => hc x (List.mem_cons_of_mem _ hx))

theorem void_compare_eq_foldFields {Arr : Type} (env : Collaborators Arr) (self other : Arr)
    (cmp_op : Nat) (r c : Nat → CmpObj) (kv : Nat × FieldValue)
    (rest : List (Nat × FieldValue))
    (hop : cmp_op = Py_EQ ∨ cmp_op = Py_NE) (hf : env.PyArray_HASFIELDS self = true)
    (hcanon : canonicalFields (env.fields self) = kv :: rest)
    (hr : ∀ x, x ∈ kv :: rest → fieldCompare env self other cmp_op x.1 = Except.ok (r x.1))
    (hc : ∀ x, x ∈ kv :: rest →
      collapseExtraDims env (reduceOp cmp_op) (result_ndim env self other) (r x.1) =
        Except.ok (c x.1)) :
    _void_compare env self other cmp_op =
      foldFields env (reduceOp cmp_op) c rest (c kv.1) := by
  have hguard : (!(cmp_op == Py_EQ || cmp_op == Py_NE)) = false := by
    rcases hop with h | h <;> simp [h]
  have hloop := voidFieldLoop_none env self other cmp_op (reduceOp cmp_op)
    (result_ndim env self other) r c (env.fields self) kv rest hcanon hr hc
  unfold _void_compare
  rw [hguard, hf, hloop]
  cases foldFields env (reduceOp cmp_op) c rest (c kv.1) <;> rfl

/-! ### Claims on `_void_compare` -/

/-- C9 as stated fails: a record dtype with the single field 7 whose
per-field `Py_EQ` result `r1` has one dimension more than the records (an
array-valued field).  The claimed value is the fold of the per-field
results, here `r1` itself; `_void_compare` returns `r1` reduced over the
extra dimension. -/
theorem C9_counterexample_shaped_field :
    canonicalFields ((boolCollaborators 1 1 [(7, ⟨none⟩)]
        (fun _ _ => CmpObj.ndarray [1, 2] [true, false])).fields RecOperand.self) =
      [(7, ⟨none⟩)] ∧
    fieldCompare (boolCollaborators 1 1 [(7, ⟨none⟩)]
        (fun _ _ => CmpObj.ndarray [1, 2] [true, false])) RecOperand.self RecOperand.other
        Py_EQ 7 = Except.ok (CmpObj.ndarray [1, 2] [true, false]) ∧
    _void_compare (boolCollaborators 1 1 [(7, ⟨none⟩)]
        (fun _ _ => CmpObj.ndarray [1, 2] [true, false])) RecOperand.self RecOperand.other
        Py_EQ = Except.ok (CmpObj.ndarray [1] [false]) ∧
    _void_compare (boolCollaborators 1 1 [(7, ⟨none⟩)]
        (fun _ _ => CmpObj.ndarray [1, 2] [true, false])) RecOperand.self RecOperand.other
        Py_EQ ≠
      foldFields (boolCollaborators 1 1 [(7, ⟨none⟩)]
        (fun _ _ => CmpObj.ndarray [1, 2] [true, false])) (reduceOp Py_EQ)
        (fun _ => CmpObj.ndarray [1, 2] [true, false]) [] (CmpObj.ndarray [1, 2] [true, false]) := by
  refine ⟨rfl, rfl, rfl, ?_⟩
  intro h
  have h2 : (Except.ok (CmpObj.ndarray [1] [false]) : Except PyErr CmpObj) =
      Except.ok (CmpObj.ndarray [1, 2] [true, false]) := h
  injection h2 with h3
  injection h3 with h4 _
  exact absurd h4 (by decide)

/-- C9 (amended): for a structured dtype and `cmp_op` in {`Py_EQ`, `Py_NE`},
let `kv :: rest` be the entries of the fields dictionary with title entries
skipped (at least one field), `r` the per-field comparison results and `c`
the same results after the collapse of additional dimensions (`c = r` for a
result that is no array or has at most `result_ndim` dimensions).  Then
`_void_compare` returns the left fold of `c` over the fields by `logical_and`
for `Py_EQ` and by `logical_or` for `Py_NE`. -/
theorem C9_void_compare_fold {Arr : Type} (env : Collaborators Arr) (self other : Arr)
    (cmp_op : Nat) (r c : Nat → CmpObj) (kv : Nat × FieldValue)
    (rest : List (Nat × FieldValue))
    (hop : cmp_op = Py_EQ ∨ cmp_op = Py_NE) (hf : env.PyArray_HASFIELDS self = true)
    (hcanon : canonicalFields (env.fields self) = kv :: rest)
    (hr : ∀ x, x ∈ kv :: rest → fieldCompare env self other cmp_op x.1 = Except.ok (r x.1))
    (hc : ∀ x, x ∈ kv :: rest →
      collapseExtraDims env (reduceOp cmp_op) (result_ndim env self other) (r x.1) =
        Except.ok (c x.1)) :
    _void_compare env self other cmp_op =
        foldFields env (reduceOp cmp_op) c rest (c kv.1) ∧
      reduceOp cmp_op = (if cmp_op = Py_EQ then NumOp.logical_and else NumOp.logical_or) ∧
      (∀ x, x ∈ kv :: rest →
        ((r x.1).PyArray_Check && (r x.1).PyArray_NDIM > result_ndim env self other) = false →
        c x.1 = r x.1) := by
  refine ⟨void_compare_eq_foldFields env self other cmp_op r c kv rest hop hf hcanon hr hc,
    rfl, ?_⟩
  · intro x hx hno
    have := hc x hx
    unfold collapseExtraDims at this
    rw [hno] at this
    simp only [Bool.false_eq_true, if_false] at this
    injection this with h
    exact h.symm

/-- C9 (amended) at a concrete dtype: field 1 carries the title 9 (so the
dictionary has a title entry under key 9) and field 2 is array-valued; the
`Py_EQ` result is the AND of field 1 and of field 2 reduced over its extra
dimension. -/
theorem C9_void_compare_fold_witness :
    _void_compare (boolCollaborators 1 1 [(1, ⟨some 9⟩), (9, ⟨some 9⟩), (2, ⟨none⟩)]
        (fun key _ => if key = 1 then CmpObj.ndarray [2] [true, false]
          else CmpObj.ndarray [2, 2] [true, true, true, true]))
        RecOperand.self RecOperand.other Py_EQ =
      Except.ok (CmpObj.ndarray [2] [true, false]) :=
  (C9_void_compare_fold (boolCollaborators 1 1 [(1, ⟨some 9⟩), (9, ⟨some 9⟩), (2, ⟨none⟩)]
      (fun key _ => if key = 1 then CmpObj.ndarray [2] [true, false]
        else CmpObj.ndarray [2, 2] [true, true, true, true]))
    RecOperand.self RecOperand.other Py_EQ
    (fun key => if key = 1 then CmpObj.ndarray [2] [true, false]
      else CmpObj.ndarray [2, 2] [true, true, true, true])
    (fun key => if key = 1 then CmpObj.ndarray [2] [true, false]
      else CmpObj.ndarray [2] [true, true])
    (1, ⟨some 9⟩) [(2, ⟨none⟩)] (Or.inl rfl) rfl rfl
    (fun x hx => by
      rcases List.mem_cons.mp hx with h | h
      · subst h; rfl
      · rw [List.mem_singleton.mp h]; rfl)
    (fun x hx => by
      rcases List.mem_cons.mp hx with h | h
      · subst h; rfl
      · rw [List.mem_singleton.mp h]; rfl)).1

/-! ### Lemmas on the boolean model -/

theorem chunk_one (d : List Bool) (p : Nat) (hp : p < d.length) : chunk d 1 p = [d[p]] := by
  unfold chunk
  rw [Nat.mul_one, List.drop_eq_getElem_cons hp]
  rfl

theorem reduce_singleton (op : NumOp) (b : Bool) : op.reduce [b] = b := by
  cases op <;> simp [NumOp.reduce]

theorem map_reduce_chunk_one (op : NumOp) (d : List Bool) :
    (List.range d.length).map (fun p => op.reduce (chunk d 1 p)) = d := by
  apply List.ext_getElem
  · simp
  · intro i h1 h2
    rw [List.getElem_map, List.getElem_range, chunk_one d i h2, reduce_singleton]

theorem boolReduce_last (op : NumOp) (S : List Nat) (x : Nat) (d : List Bool) :
    boolReduce (CmpObj.ndarray (S ++ [x]) d) op S.length =
      Except.ok (CmpObj.ndarray S ((List.range S.prod).map (fun p => op.reduce (chunk d x p)))) := by
  simp [boolReduce, chunk]

theorem collapseExtraDims_bool (ndS ndO : Nat) (entries : List (Nat × FieldValue))
    (cmp : Nat → Nat → CmpObj) (op : NumOp) (S X : List Nat) (d : List Bool)
    (hlen : d.length = (S ++ X).prod) :
    collapseExtraDims (boolCollaborators ndS ndO entries cmp) op S.length
        (CmpObj.ndarray (S ++ X) d) =
      Except.ok (CmpObj.ndarray S
        ((List.range S.prod).map (fun p => op.reduce (chunk d X.prod p)))) := by
  cases X with
  | nil =>
    have hl : d.length = S.prod := by simpa using hlen
    have hd := map_reduce_chunk_one op d
    rw [hl] at hd
    simp only [List.prod_nil, hd]
    simp [collapseExtraDims, CmpObj.PyArray_Check, CmpObj.PyArray_NDIM]
  | cons x X =>
    cases X with
    | nil =>
      have := boolReduce_last op S x d
      simp only [collapseExtraDims, CmpObj.PyArray_Check, CmpObj.PyArray_NDIM,
        List.length_append, List.length_singleton, Bool.true_and, boolCollaborators,
        List.prod_singleton]
      simpa using this
    | cons y X =>
      have := boolReduce_last op S (x :: y :: X).prod d
      simp only [collapseExtraDims, CmpObj.PyArray_Check, CmpObj.PyArray_NDIM,
        CmpObj.PyArray_DIMS, List.length_append, List.length_cons, Bool.true_and,
        boolCollaborators, boolNewshape]
      have hgt : decide (S.length + (X.length + 1 + 1) > S.length) = true := by
        simp
      have hne : S.length + (X.length + 1 + 1) ≠ S.length + 1 := by omega
      rw [hgt, if_pos rfl, if_pos hne]
      have hdims : (List.map Int.ofNat (List.take S.length (S ++ x :: y :: X)) ++ [-1]).dropLast =
          List.map Int.ofNat S := by
        rw [List.dropLast_concat, List.take_left' rfl]
      simp only [hdims, List.length_map, List.map_map, List.drop_left' rfl]
      have hid : List.map (Int.toNat ∘ Int.ofNat) S = S := by
        simp [Function.comp_def]
      rw [hid]
      exact this

theorem zipWith_map_same (h : Bool → Bool → Bool) (f g : Nat → Bool) (l : List Nat) :
    List.zipWith h (l.map f) (l.map g) = l.map (fun p => h (f p) (g p)) := by
  induction l with
  | nil => rfl
  | cons a l ih => simp [ih]

theorem foldFields_bool (ndS ndO : Nat) (entries : List (Nat × FieldValue))
    (cmp : Nat → Nat → CmpObj) (op : NumOp) (S : List Nat) (n : Nat) (f : Nat → Nat → Bool) :
    ∀ (rest : List (Nat × FieldValue)) (g : Nat → Bool),
      foldFields (boolCollaborators ndS ndO entries cmp) op
          (fun key => CmpObj.ndarray S ((List.range n).map (f key))) rest
          (CmpObj.ndarray S ((List.range n).map g)) =
        Except.ok (CmpObj.ndarray S ((List.range n).map
          (fun p => rest.foldl (fun a x => op.apply a (f x.1 p)) (g p)))) := by
  intro rest
  induction rest with
  | nil => intro g; rfl
  | cons kv rest ih =>
    intro g
    have hcall : (boolCollaborators ndS ndO entries cmp).PyObject_CallFunction op
        (CmpObj.ndarray S ((List.range n).map g))
        (CmpObj.ndarray S ((List.range n).map (f kv.1))) =
        Except.ok (CmpObj.ndarray S
          ((List.range n).map (fun p => op.apply (g p) (f kv.1 p)))) := by
      simp [boolCollaborators, boolCallFunction, zipWith_map_same]
    simp only [foldFields, hcall, List.foldl_cons]
    exact ih (fun p => op.apply (g p) (f kv.1 p))

theorem foldl_and_eq (F : Nat × FieldValue → Bool) :
    ∀ (rest : List (Nat × FieldValue)) (a : Bool),
      rest.foldl (fun acc x => NumOp.logical_and.apply acc (F x)) a = (a && rest.all F) := by
  intro rest
  induction rest with
  | nil => intro a; simp
  | cons x rest ih =>
    intro a
    rw [List.foldl_cons, ih, List.all_cons]
    simp [NumOp.apply, Bool.and_assoc]

theorem foldl_or_eq (F : Nat × FieldValue → Bool) :
    ∀ (rest : List (Nat × FieldValue)) (a : Bool),
      rest.foldl (fun acc x => NumOp.logical_or.apply acc (F x)) a = (a || rest.any F) := by
  intro rest
  induction rest with
  | nil => intro a; simp
  | cons x rest ih =>
    intro a
    rw [List.foldl_cons, ih, List.any_cons]
    simp [NumOp.apply, Bool.or_assoc]

theorem all_id_eq_not_any_not (l : List Bool) : l.all id = !(l.any (fun b => !b)) := by
  induction l with
  | nil => rfl
  | cons a l ih => simp [List.all_cons, List.any_cons, ih]

theorem reduce_and_chunk (d : List Bool) (w p : Nat) :
    NumOp.logical_and.reduce (chunk d w p) = !fieldDiffers d w p := by
  simp only [NumOp.reduce, fieldDiffers]
  exact all_id_eq_not_any_not _

theorem reduce_or_chunk_not (d : List Bool) (w p : Nat) :
    NumOp.logical_or.reduce (chunk (d.map not) w p) = fieldDiffers d w p := by
  simp only [NumOp.reduce, fieldDiffers, chunk]
  rw [← List.map_drop, ← List.map_take, List.any_map]
  rfl

theorem not_any_eq_all_not (F : Nat × FieldValue → Bool) (l : List (Nat × FieldValue)) :
    (!(l.any F)) = l.all (fun x => !F x) := by
  induction l with
  | nil => rfl
  | cons a l ih => simp [List.all_cons, List.any_cons, ← ih]

theorem void_compare_bool (ndS ndO : Nat) (entries : List (Nat × FieldValue)) (S : List Nat)
    (extra : Nat → List Nat) (data : Nat → Nat → List Bool) (cmp_op : Nat)
    (kv : Nat × FieldValue) (rest : List (Nat × FieldValue))
    (hop : cmp_op = Py_EQ ∨ cmp_op = Py_NE)
    (hcanon : canonicalFields entries = kv :: rest)
    (hS : S.length = max ndS ndO)
    (hlen : ∀ x, x ∈ kv :: rest → (data x.1 cmp_op).length = (S ++ extra x.1).prod) :
    _void_compare (boolCollaborators ndS ndO entries
        (fun key op => CmpObj.ndarray (S ++ extra key) (data key op)))
        RecOperand.self RecOperand.other cmp_op =
      Except.ok (CmpObj.ndarray S ((List.range S.prod).map (fun p =>
        rest.foldl (fun a x => (reduceOp cmp_op).apply a
          ((reduceOp cmp_op).reduce (chunk (data x.1 cmp_op) (extra x.1).prod p)))
          ((reduceOp cmp_op).reduce (chunk (data kv.1 cmp_op) (extra kv.1).prod p))))) := by
  have hnd : result_ndim (boolCollaborators ndS ndO entries
      (fun key op => CmpObj.ndarray (S ++ extra key) (data key op)))
      RecOperand.self RecOperand.other = S.length := by
    simp only [result_ndim, boolCollaborators]
    split <;> omega
  rw [void_compare_eq_foldFields _ RecOperand.self RecOperand.other cmp_op
    (fun key => CmpObj.ndarray (S ++ extra key) (data key cmp_op))
    (fun key => CmpObj.ndarray S ((List.range S.prod).map
      (fun p => (reduceOp cmp_op).reduce (chunk (data key cmp_op) (extra key).prod p))))
    kv rest hop rfl hcanon
    (fun x _ => by simp [fieldCompare, boolCollaborators])
    (fun x hx => by
      rw [hnd]
      exact collapseExtraDims_bool ndS ndO entries _ (reduceOp cmp_op) S (extra x.1)
        (data x.1 cmp_op) (hlen x hx))]
  exact foldFields_bool ndS ndO entries _ (reduceOp cmp_op) S S.prod
    (fun key p => (reduceOp cmp_op).reduce (chunk (data key cmp_op) (extra key).prod p)) rest _

/-! ### Claim on structured equality and inequality -/

/-- C10: two record arrays with the same fields (`kv :: rest`, title entries
skipped), record shape `S`, field shapes `extra`, whose per-field `Py_EQ`
result of field `key` is `e key` and whose per-field `Py_NE` result is its
pointwise negation.  Then `_void_compare` with `Py_EQ` returns the array of
shape `S` that is false exactly at the positions where at least one field
differs, and with `Py_NE` it returns the pointwise complement of that
array. -/
theorem C10_structured_eq_ne (ndimSelf ndimOther : Nat) (entries : List (Nat × FieldValue))
    (S : List Nat) (extra : Nat → List Nat) (e : Nat → List Bool)
    (kv : Nat × FieldValue) (rest : List (Nat × FieldValue))
    (hcanon : canonicalFields entries = kv :: rest)
    (hS : S.length = max ndimSelf ndimOther)
    (hlen : ∀ x, x ∈ kv :: rest → (e x.1).length = (S ++ extra x.1).prod) :
    _void_compare (boolCollaborators ndimSelf ndimOther entries
        (fun key op => CmpObj.ndarray (S ++ extra key)
          (if op = Py_EQ then e key else (e key).map not)))
        RecOperand.self RecOperand.other Py_EQ =
      Except.ok (CmpObj.ndarray S (recordEq S.prod (kv :: rest) e extra)) ∧
    _void_compare (boolCollaborators ndimSelf ndimOther entries
        (fun key op => CmpObj.ndarray (S ++ extra key)
          (if op = Py_EQ then e key else (e key).map not)))
        RecOperand.self RecOperand.other Py_NE =
      Except.ok (CmpObj.ndarray S ((recordEq S.prod (kv :: rest) e extra).map not)) ∧
    (recordEq S.prod (kv :: rest) e extra).length = S.prod ∧
    (∀ p, p < S.prod →
      ((recordEq S.prod (kv :: rest) e extra).getD p true = false ↔
        ∃ x, x ∈ kv :: rest ∧ fieldDiffers (e x.1) (extra x.1).prod p = true)) := by
  refine ⟨?_, ?_, ?_, ?_⟩
  · rw [void_compare_bool ndimSelf ndimOther entries S extra
      (fun key op => if op = Py_EQ then e key else (e key).map not) Py_EQ kv rest
      (Or.inl rfl) hcanon hS (fun x hx => by simpa using hlen x hx)]
    have hop : reduceOp Py_EQ = NumOp.logical_and := rfl
    simp only [hop, if_true, recordEq]
    congr 2
    apply List.map_congr_left
    intro p _
    rw [foldl_and_eq (fun x => NumOp.logical_and.reduce (chunk (e x.1) (extra x.1).prod p))]
    simp only [reduce_and_chunk, List.any_cons, Bool.not_or, not_any_eq_all_not]
  · rw [void_compare_bool ndimSelf ndimOther entries S extra
      (fun key op => if op = Py_EQ then e key else (e key).map not) Py_NE kv rest
      (Or.inr rfl) hcanon hS (fun x hx => by
        have hne : ¬ Py_NE = Py_EQ := by decide
        simp only [if_neg hne, List.length_map]
        exact hlen x hx)]
    have hop : reduceOp Py_NE = NumOp.logical_or := rfl
    have hne : ¬ Py_NE = Py_EQ := by decide
    simp only [hop, if_neg hne, recordEq, List.map_map]
    congr 2
    apply List.map_congr_left
    intro p _
    rw [foldl_or_eq (fun x => NumOp.logical_or.reduce
      (chunk ((e x.1).map not) (extra x.1).prod p))]
    simp only [reduce_or_chunk_not, List.any_cons, Function.comp_apply, Bool.not_not]
  · simp [recordEq]
  · intro p hp
    simp only [recordEq, List.getD_eq_getElem?_getD]
    rw [List.getElem?_eq_getElem (by simpa using hp)]
    simp only [List.getElem_map, List.getElem_range, Option.getD_some, Bool.not_eq_false',
      List.any_eq_true]

/-- C10 at two records with fields 1 and 2 of shape `[3]`: field 1 differs at
position 1, field 2 at position 2. -/
theorem C10_structured_eq_ne_witness :
    _void_compare (boolCollaborators 1 1 [(1, ⟨none⟩), (2, ⟨none⟩)]
        (fun key op => CmpObj.ndarray ([3] ++ [])
          (if op = Py_EQ then (if key = 1 then [true, false, true] else [true, true, false])
           else (if key = 1 then [true, false, true] else [true, true, false]).map not)))
        RecOperand.self RecOperand.other Py_EQ =
      Except.ok (CmpObj.ndarray [3] [true, false, false]) :=
  (C10_structured_eq_ne 1 1 [(1, ⟨none⟩), (2, ⟨none⟩)] [3] (fun _ => [])
    (fun key => if key = 1 then [true, false, true] else [true, true, false])
    (1, ⟨none⟩) [(2, ⟨none⟩)] rfl rfl
    (fun x hx => by
      rcases List.mem_cons.mp hx with h | h
      · subst h; rfl
      · rw [List.mem_singleton.mp h]; rfl)).1

/-! ### `PyArray_CheckStrides` -/

theorem checkStridesLoop_iff (begin end_ : Int) (dims newstrides : List Int) :
    ∀ (k i : Nat), checkStridesLoop begin end_ dims newstrides k i = true ↔
      ∀ j, i ≤ j → j < i + k →
        begin ≤ newstrides.getD j 0 * (dims.getD j 0 - 1) ∧
          newstrides.getD j 0 * (dims.getD j 0 - 1) ≤ end_ := by
  intro k
  induction k with
  | zero =>
    intro i
    simp only [checkStridesLoop, true_iff]
    intro j h1 h2
    omega
  | succ k ih =>
    intro i
    simp only [checkStridesLoop]
    by_cases hbad : newstrides.getD i 0 * (dims.getD i 0 - 1) < begin ∨
        newstrides.getD i 0 * (dims.getD i 0 - 1) > end_
    · rw [if_pos hbad]
      constructor
      · intro h; exact absurd h (by decide)
      · intro h
        have := h i (Nat.le_refl i) (by omega)
        omega
    · rw [if_neg hbad, ih (i + 1)]
      constructor
      · intro h j h1 h2
        by_cases hj : j = i
        · subst hj; omega
        · exact h j (by omega) (by omega)
      · intro h j h1 h2
        exact h j (by omega) (by omega)

/-- C13: `PyArray_CheckStrides` returns TRUE if and only if for every axis
`i < nd` the value `strides[i] * (dims[i] - 1)` lies in the closed interval
`[-offset, numbytes - offset - elsize]`, a `numbytes` of 0 being replaced by
`product(dims) * elsize`; each axis is checked on its own. -/
theorem C13_check_strides_iff (elsize : Int) (nd : Nat) (numbytes offset : Int)
    (dims newstrides : List Int) :
    PyArray_CheckStrides elsize nd numbytes offset dims newstrides = true ↔
      ∀ i, i < nd →
        -offset ≤ newstrides.getD i 0 * (dims.getD i 0 - 1) ∧
          newstrides.getD i 0 * (dims.getD i 0 - 1) ≤
            (if numbytes = 0 then (dims.take nd).prod * elsize else numbytes) - offset - elsize := by
  unfold PyArray_CheckStrides PyArray_MultiplyList
  simp only []
  rw [checkStridesLoop_iff]
  constructor
  · intro h i hi
    exact h i (Nat.zero_le i) (by omega)
  · intro h j _ hj
    exact h j (by omega)

theorem checkStrides_axis_inside (elsize : Int) (nd : Nat) (numbytes offset : Int)
    (dims newstrides : List Int) (i : Nat) (k : Int)
    (hcheck : PyArray_CheckStrides elsize nd numbytes offset dims newstrides = true)
    (horigin : -offset ≤ 0 ∧
      elsize ≤ (if numbytes = 0 then (dims.take nd).prod * elsize else numbytes) - offset)
    (hi : i < nd) (hk0 : 0 ≤ k) (hk : k < dims.getD i 0) :
    axisElementInside elsize
      (if numbytes = 0 then (dims.take nd).prod * elsize else numbytes) offset newstrides i k := by
  unfold PyArray_CheckStrides PyArray_MultiplyList at hcheck
  simp only [] at hcheck
  rw [checkStridesLoop_iff] at hcheck
  obtain ⟨hb, he⟩ := hcheck i (Nat.zero_le i) (by omega)
  unfold axisElementInside
  rw [mul_comm (newstrides.getD i 0)] at hb he
  by_cases hs : 0 ≤ newstrides.getD i 0
  · have h1 : 0 ≤ k * newstrides.getD i 0 := mul_nonneg hk0 hs
    have h2 : k * newstrides.getD i 0 ≤ (dims.getD i 0 - 1) * newstrides.getD i 0 :=
      mul_le_mul_of_nonneg_right (by omega) hs
    constructor <;> linarith [horigin.1, horigin.2]
  · have hs2 : newstrides.getD i 0 ≤ 0 := by omega
    have h1 : k * newstrides.getD i 0 ≤ 0 := mul_nonpos_of_nonneg_of_nonpos hk0 hs2
    have h2 : (dims.getD i 0 - 1) * newstrides.getD i 0 ≤ k * newstrides.getD i 0 :=
      mul_le_mul_of_nonpos_right (by omega) hs2
    constructor <;> linarith [horigin.1, horigin.2]

/-- C14 fails on the code: with `elsize = 4`, a buffer of `numbytes = 12`,
`offset = 10`, one axis of extent 2 and stride -4, the only value checked is
`-4 * (2 - 1) = -4`, which lies in `[-10, -2]`, so `PyArray_CheckStrides`
returns TRUE; yet the element with index 0 occupies the bytes 10 to 14 of
the buffer and does not lie inside the memory. -/
theorem C14_origin_element_outside :
    PyArray_CheckStrides 4 1 12 10 [2] [-4] = true ∧
      (0 : Int) ≤ 0 ∧ (0 : Int) < List.getD [2] 0 0 ∧
      ¬ axisElementInside 4 12 10 [-4] 0 0 := by
  refine ⟨by decide, by decide, by decide, ?_⟩
  unfold axisElementInside
  decide

/-! ### Invariants under `PyArray_SetBaseObject` -/

theorem ownersHaveNoBase_iff (h : Heap) :
    ownersHaveNoBase h = true ↔
      ∀ (p : Nat) (f : PyArrayObject_fields), arrayAt h p = some f →
        PyArray_CHKFLAGS f.flags NPY_ARRAY_OWNDATA = true → f.base = none := by
  unfold ownersHaveNoBase
  rw [List.all_eq_true]
  constructor
  · intro hall p f hf hown
    obtain ⟨hget, hlt⟩ := arrayAt_eq_some h p f hf
    have hmem : PyObject.ndarray f ∈ h := by
      rw [List.getElem?_eq_getElem hlt] at hget
      injection hget with hget
      rw [← hget]
      exact List.getElem_mem hlt
    have := hall _ hmem
    simp only [hown, Bool.not_true, Bool.false_or, Option.isNone_iff_eq_none] at this
    exact this
  · intro hprop ob hmem
    cases ob with
    | object => rfl
    | ndarray f =>
      obtain ⟨p, hp, hget⟩ := List.getElem_of_mem hmem
      have hf : arrayAt h p = some f := by
        unfold arrayAt
        rw [List.getElem?_eq_getElem hp, hget]
      by_cases hown : PyArray_CHKFLAGS f.flags NPY_ARRAY_OWNDATA = true
      · simp [hown, hprop p f hf hown]
      · simp [hown]

theorem arrayAt_setBaseField_ne (h : Heap) (arr p : Nat) (x : Option Nat) (hne : p ≠ arr) :
    arrayAt (setBaseField h arr x) p = arrayAt h p := by
  unfold setBaseField
  cases hf : arrayAt h arr with
  | none => rfl
  | some f =>
    simp only [arrayAt, List.getElem?_set]
    rw [if_neg (fun e => hne e.symm)]

theorem arrayAt_setBaseField_self (h : Heap) (arr : Nat) (x : Option Nat)
    (f : PyArrayObject_fields) (hf : arrayAt h arr = some f) :
    arrayAt (setBaseField h arr x) arr = some { f with base := x } := by
  obtain ⟨_, hlt⟩ := arrayAt_eq_some h arr f hf
  unfold setBaseField
  rw [hf]
  simp [arrayAt, hlt]

theorem collapseLoop_result_stops (h : Heap) (arr : Nat) :
    ∀ (fuel cand o : Nat), collapseLoop h arr fuel cand = some o → stopsAt h arr o = true := by
  intro fuel
  induction fuel with
  | zero => intro cand o hres; simp [collapseLoop] at hres
  | succ fuel ih =>
    intro cand o hres
    by_cases hs : stopsAt h arr cand = true
    · rw [collapseLoop_stop h arr cand fuel hs] at hres
      injection hres with hres
      rw [← hres]
      exact hs
    · have hs2 : stopsAt h arr cand = false := by simpa using hs
      have hb : ∃ b, PyArray_BASE h cand = some b := by
        unfold stopsAt at hs2
        simp only [Bool.or_eq_false_iff] at hs2
        cases hbase : PyArray_BASE h cand with
        | none => simp [hbase] at hs2
        | some b => exact ⟨b, rfl⟩
      obtain ⟨b, hb⟩ := hb
      rw [collapseLoop_step h arr cand fuel b hs2 hb] at hres
      exact ih b o hres

theorem PyArray_SetBaseObject_success (fuel : Nat) (h : Heap) (arr cand : Nat)
    (r : SetBaseResult) (hres : PyArray_SetBaseObject fuel h arr (some cand) = some r)
    (hok : r.ret = 0) :
    ∃ o, collapseLoop h arr fuel cand = some o ∧ o ≠ arr ∧
      r = ⟨0, setBaseField h arr (some o), none⟩ := by
  unfold PyArray_SetBaseObject at hres
  simp only [] at hres
  split at hres
  · injection hres with hres
    rw [← hres] at hok
    simp at hok
  · cases hloop : collapseLoop h arr fuel cand with
    | none => simp [hloop] at hres
    | some o =>
      simp only [hloop] at hres
      by_cases he : arr = o
      · rw [if_pos he] at hres
        injection hres with hres
        rw [← hres] at hok
        simp at hok
      · rw [if_neg he] at hres
        injection hres with hres
        exact ⟨o, rfl, fun e => he e.symm, hres.symm⟩

theorem PyArray_SetBaseObject_failure (fuel : Nat) (h : Heap) (arr : Nat) (cand : Option Nat)
    (r : SetBaseResult) (hres : PyArray_SetBaseObject fuel h arr cand = some r)
    (hfail : r.ret ≠ 0) : r.heap = h := by
  unfold PyArray_SetBaseObject at hres
  cases cand with
  | none =>
    injection hres with hres
    rw [← hres]
  | some c =>
    simp only [] at hres
    split at hres
    · injection hres with hres
      rw [← hres]
    · cases hloop : collapseLoop h arr fuel c with
      | none => simp [hloop] at hres
      | some o =>
        simp only [hloop] at hres
        by_cases he : arr = o
        · rw [if_pos he] at hres
          injection hres with hres
          rw [← hres]
        · rw [if_neg he] at hres
          injection hres with hres
          rw [← hres] at hfail
          exact absurd rfl hfail

theorem PyArray_BASE_setBaseField_ne (h : Heap) (arr p : Nat) (x : Option Nat) (hne : p ≠ arr) :
    PyArray_BASE (setBaseField h arr x) p = PyArray_BASE h p := by
  unfold PyArray_BASE
  rw [arrayAt_setBaseField_ne h arr p x hne]

theorem PyArray_FLAGS_setBaseField_ne (h : Heap) (arr p : Nat) (x : Option Nat) (hne : p ≠ arr) :
    PyArray_FLAGS (setBaseField h arr x) p = PyArray_FLAGS h p := by
  unfold PyArray_FLAGS
  rw [arrayAt_setBaseField_ne h arr p x hne]

theorem PyArray_Check_setBaseField_ne (h : Heap) (arr p : Nat) (x : Option Nat) (hne : p ≠ arr) :
    PyArray_Check (setBaseField h arr x) p = PyArray_Check h p := by
  unfold PyArray_Check
  rw [arrayAt_setBaseField_ne h arr p x hne]

theorem ownerBase_none (h : Heap) (o : Nat) (hwf : ownersHaveNoBase h = true)
    (hown : PyArray_CHKFLAGS (PyArray_FLAGS h o) NPY_ARRAY_OWNDATA = true) :
    PyArray_BASE h o = none := by
  unfold PyArray_BASE
  unfold PyArray_FLAGS at hown
  cases hf : arrayAt h o with
  | none => rfl
  | some f =>
    rw [hf] at hown
    exact (ownersHaveNoBase_iff h).mp hwf o f hf hown

/-- C15 as stated fails: in the well-formed heap with `arr = 0` (owning no
mask), the view `1` that owns its mask and has base `2`, and the owner `2`
of the data, `PyArray_SetBaseObject(arr, 1)` succeeds and binds `1`, an
array whose own base is not empty: the chain from `arr` is two hops deep. -/
theorem C15_counterexample_mask_owner :
    ownersHaveNoBase [PyObject.ndarray ⟨0, none⟩, PyObject.ndarray ⟨0x4000, some 2⟩,
        PyObject.ndarray ⟨4, none⟩] = true ∧
    PyArray_SetBaseObject 1 [PyObject.ndarray ⟨0, none⟩, PyObject.ndarray ⟨0x4000, some 2⟩,
        PyObject.ndarray ⟨4, none⟩] 0 (some 1) =
      some ⟨0, [PyObject.ndarray ⟨0, some 1⟩, PyObject.ndarray ⟨0x4000, some 2⟩,
        PyObject.ndarray ⟨4, none⟩], none⟩ ∧
    PyArray_BASE [PyObject.ndarray ⟨0, some 1⟩, PyObject.ndarray ⟨0x4000, some 2⟩,
        PyObject.ndarray ⟨4, none⟩] 0 = some 1 ∧
    PyArray_Check [PyObject.ndarray ⟨0, some 1⟩, PyObject.ndarray ⟨0x4000, some 2⟩,
        PyObject.ndarray ⟨4, none⟩] 1 = true ∧
    PyArray_BASE [PyObject.ndarray ⟨0, some 1⟩, PyObject.ndarray ⟨0x4000, some 2⟩,
        PyObject.ndarray ⟨4, none⟩] 1 = some 2 := by
  decide

/-- C15 (amended): in a heap in which every array that owns its data has an
empty base, after a successful `PyArray_SetBaseObject(arr, cand)` the object
`o` bound as `arr.base` is not `arr`, and if it is an array then its own base
is empty, except possibly when `arr` does not own its mask and `o` owns its
mask but not its data (the walk stops at the owner of the mask). -/
theorem C15_bound_base_is_owner (fuel : Nat) (h : Heap) (arr cand : Nat) (r : SetBaseResult)
    (hwf : ownersHaveNoBase h = true) (harr : PyArray_Check h arr = true)
    (hres : PyArray_SetBaseObject fuel h arr (some cand) = some r) (hok : r.ret = 0) :
    ∃ o, PyArray_BASE r.heap arr = some o ∧ o ≠ arr ∧
      (PyArray_Check r.heap o = true →
        PyArray_BASE r.heap o = none ∨
        (PyArray_CHKFLAGS (PyArray_FLAGS h arr) NPY_ARRAY_OWNMASKNA = false ∧
          PyArray_CHKFLAGS (PyArray_FLAGS r.heap o) NPY_ARRAY_OWNMASKNA = true ∧
          PyArray_CHKFLAGS (PyArray_FLAGS r.heap o) NPY_ARRAY_OWNDATA = false)) := by
  obtain ⟨o, hloop, hne, hr⟩ := PyArray_SetBaseObject_success fuel h arr cand r hres hok
  have hstop := collapseLoop_result_stops h arr fuel cand o hloop
  subst hr
  refine ⟨o, PyArray_BASE_setBaseField h arr _ harr, hne, ?_⟩
  intro hchk
  simp only [PyArray_BASE_setBaseField_ne h arr o _ hne,
    PyArray_FLAGS_setBaseField_ne h arr o _ hne,
    PyArray_Check_setBaseField_ne h arr o _ hne] at hchk ⊢
  by_cases hown : PyArray_CHKFLAGS (PyArray_FLAGS h o) NPY_ARRAY_OWNDATA = true
  · exact Or.inl (ownerBase_none h o hwf hown)
  · have hown2 : PyArray_CHKFLAGS (PyArray_FLAGS h o) NPY_ARRAY_OWNDATA = false := by
      simpa using hown
    unfold stopsAt at hstop
    simp only [hchk, Bool.not_true, Bool.false_or, hown2, Bool.or_eq_true, beq_iff_eq,
      Bool.and_eq_true, Bool.not_eq_true', Option.isNone_iff_eq_none, Bool.or_false] at hstop
    rcases hstop with (he | hm) | hb
    · exact absurd he hne
    · exact Or.inr ⟨hm.1, hm.2, hown2⟩
    · exact Or.inl hb

/-- C15 (amended) at a concrete heap: `arr = 0`, views `1 -> 2`, owner `3`;
the bound base `3` has an empty base. -/
theorem C15_bound_base_is_owner_witness :
    ∃ o, PyArray_BASE [PyObject.ndarray ⟨0, some 3⟩, PyObject.ndarray ⟨0, some 2⟩,
        PyObject.ndarray ⟨0, some 3⟩, PyObject.ndarray ⟨4, none⟩] 0 = some o ∧ o ≠ 0 ∧
      (PyArray_Check [PyObject.ndarray ⟨0, some 3⟩, PyObject.ndarray ⟨0, some 2⟩,
          PyObject.ndarray ⟨0, some 3⟩, PyObject.ndarray ⟨4, none⟩] o = true →
        PyArray_BASE [PyObject.ndarray ⟨0, some 3⟩, PyObject.ndarray ⟨0, some 2⟩,
          PyObject.ndarray ⟨0, some 3⟩, PyObject.ndarray ⟨4, none⟩] o = none ∨
        (PyArray_CHKFLAGS (PyArray_FLAGS [PyObject.ndarray ⟨0, none⟩,
            PyObject.ndarray ⟨0, some 2⟩, PyObject.ndarray ⟨0, some 3⟩,
            PyObject.ndarray ⟨4, none⟩] 0) NPY_ARRAY_OWNMASKNA = false ∧
          PyArray_CHKFLAGS (PyArray_FLAGS [PyObject.ndarray ⟨0, some 3⟩,
            PyObject.ndarray ⟨0, some 2⟩, PyObject.ndarray ⟨0, some 3⟩,
            PyObject.ndarray ⟨4, none⟩] o) NPY_ARRAY_OWNMASKNA = true ∧
          PyArray_CHKFLAGS (PyArray_FLAGS [PyObject.ndarray ⟨0, some 3⟩,
            PyObject.ndarray ⟨0, some 2⟩, PyObject.ndarray ⟨0, some 3⟩,
            PyObject.ndarray ⟨4, none⟩] o) NPY_ARRAY_OWNDATA = false)) :=
  C15_bound_base_is_owner 3
    [PyObject.ndarray ⟨0, none⟩, PyObject.ndarray ⟨0, some 2⟩,
      PyObject.ndarray ⟨0, some 3⟩, PyObject.ndarray ⟨4, none⟩] 0 1
    ⟨0, [PyObject.ndarray ⟨0, some 3⟩, PyObject.ndarray ⟨0, some 2⟩,
      PyObject.ndarray ⟨0, some 3⟩, PyObject.ndarray ⟨4, none⟩], none⟩
    (by decide) (by decide) (by decide) rfl

/-- C16 as stated fails: `arr = 0` owns its data and has an empty base, the
candidate `1` is not an array; `PyArray_SetBaseObject(arr, 1)` succeeds, and
afterwards `arr` owns its data and has a base. -/
theorem C16_counterexample_owner_gets_base :
    ownersHaveNoBase [PyObject.ndarray ⟨4, none⟩, PyObject.object] = true ∧
    PyArray_SetBaseObject 1 [PyObject.ndarray ⟨4, none⟩, PyObject.object] 0 (some 1) =
      some ⟨0, [PyObject.ndarray ⟨4, some 1⟩, PyObject.object], none⟩ ∧
    ownersHaveNoBase [PyObject.ndarray ⟨4, some 1⟩, PyObject.object] = false := by
  decide

/-- C16 (amended): if every array with OWN_DATA set has an empty base before
a call `PyArray_SetBaseObject(arr, cand)`, the same holds after the call when
the call fails (the heap is then unchanged) or when `arr` does not own its
data. -/
theorem C16_owner_invariant_preserved (fuel : Nat) (h : Heap) (arr : Nat) (cand : Option Nat)
    (r : SetBaseResult) (hwf : ownersHaveNoBase h = true)
    (hres : PyArray_SetBaseObject fuel h arr cand = some r)
    (hcase : r.ret ≠ 0 ∨ PyArray_CHKFLAGS (PyArray_FLAGS h arr) NPY_ARRAY_OWNDATA = false) :
    ownersHaveNoBase r.heap = true ∧ (r.ret ≠ 0 → r.heap = h) := by
  refine ⟨?_, fun hfail => PyArray_SetBaseObject_failure fuel h arr cand r hres hfail⟩
  by_cases hret : r.ret = 0
  · have hown : PyArray_CHKFLAGS (PyArray_FLAGS h arr) NPY_ARRAY_OWNDATA = false := by
      rcases hcase with hc | hc
      · exact absurd hret hc
      · exact hc
    cases cand with
    | none =>
      injection hres with hres
      rw [← hres] at hret
      simp at hret
    | some c =>
      obtain ⟨o, _, _, hr⟩ := PyArray_SetBaseObject_success fuel h arr c r hres hret
      subst hr
      rw [ownersHaveNoBase_iff]
      intro p f hf hfown
      by_cases hp : p = arr
      · subst hp
        cases hf0 : arrayAt h p with
        | none =>
          have : setBaseField h p (some o) = h := by simp [setBaseField, hf0]
          simp only [this] at hf
          rw [hf0] at hf
          exact Option.noConfusion hf
        | some f0 =>
          rw [arrayAt_setBaseField_self h p _ f0 hf0] at hf
          injection hf with hf
          have hfl : f.flags = f0.flags := by rw [← hf]
          unfold PyArray_FLAGS at hown
          rw [hf0] at hown
          rw [hfl, hown] at hfown
          exact absurd hfown (by decide)
      · simp only [arrayAt_setBaseField_ne h arr p _ hp] at hf
        exact (ownersHaveNoBase_iff h).mp hwf p f hf hfown
  · rw [PyArray_SetBaseObject_failure fuel h arr cand r hres hret]
    exact hwf

/-- C16 (amended) at a concrete heap: the view `0` gets the owner `1` as its
base and the invariant still holds. -/
theorem C16_owner_invariant_preserved_witness :
    ownersHaveNoBase [PyObject.ndarray ⟨0, some 1⟩, PyObject.ndarray ⟨4, none⟩] = true :=
  (C16_owner_invariant_preserved 1 [PyObject.ndarray ⟨0, none⟩, PyObject.ndarray ⟨4, none⟩] 0
    (some 1) ⟨0, [PyObject.ndarray ⟨0, some 1⟩, PyObject.ndarray ⟨4, none⟩], none⟩
    (by decide) (by decide) (Or.inr (by decide))).1

theorem baseSeq_none_add (h : Heap) (c n : Nat) (hn : baseSeq h c n = none) :
    ∀ k, baseSeq h c (n + k) = none := by
  intro k
  induction k with
  | zero => exact hn
  | succ k ih =>
    rw [← Nat.add_assoc]
    simp only [baseSeq, ih]

/-- C17 fails on the code: `arr = 0` has no base and owns no mask, and `1`
is a view of `arr` that owns its mask (`1.base = arr`).  Before the call no
object reaches itself.  `PyArray_SetBaseObject(arr, 1)` stops the walk at `1`
(the owner of the mask), finds `1` different from `arr`, and succeeds; then
`arr.base = 1` and `1.base = arr`, a cycle of base links. -/
theorem C17_cycle_through_mask_owner :
    baseAcyclic [PyObject.ndarray ⟨0, none⟩, PyObject.ndarray ⟨0x4000, some 0⟩] ∧
    PyArray_SetBaseObject 1 [PyObject.ndarray ⟨0, none⟩, PyObject.ndarray ⟨0x4000, some 0⟩]
        0 (some 1) =
      some ⟨0, [PyObject.ndarray ⟨0, some 1⟩, PyObject.ndarray ⟨0x4000, some 0⟩], none⟩ ∧
    baseSeq [PyObject.ndarray ⟨0, some 1⟩, PyObject.ndarray ⟨0x4000, some 0⟩] 0 2 = some 0 ∧
    ¬ baseAcyclic [PyObject.ndarray ⟨0, some 1⟩, PyObject.ndarray ⟨0x4000, some 0⟩] := by
  refine ⟨?_, by decide, by decide, fun hac => hac 0 2 (by decide) (by decide)⟩
  intro p n hn
  match p with
  | 0 =>
    have h1 : baseSeq [PyObject.ndarray ⟨0, none⟩, PyObject.ndarray ⟨0x4000, some 0⟩] 0 1 =
        none := by decide
    have := baseSeq_none_add _ 0 1 h1 (n - 1)
    have e : 1 + (n - 1) = n := by omega
    rw [e] at this
    rw [this]
    exact fun hc => Option.noConfusion hc
  | 1 =>
    by_cases hn1 : n = 1
    · subst hn1
      decide
    · have h2 : baseSeq [PyObject.ndarray ⟨0, none⟩, PyObject.ndarray ⟨0x4000, some 0⟩] 1 2 =
          none := by decide
      have := baseSeq_none_add _ 1 2 h2 (n - 2)
      have e : 2 + (n - 2) = n := by omega
      rw [e] at this
      rw [this]
      exact fun hc => Option.noConfusion hc
  | q + 2 =>
    have h1 : baseSeq [PyObject.ndarray ⟨0, none⟩, PyObject.ndarray ⟨0x4000, some 0⟩]
        (q + 2) 1 = none := by
      simp [baseSeq, PyArray_BASE, arrayAt]
    have := baseSeq_none_add _ (q + 2) 1 h1 (n - 1)
    have e : 1 + (n - 1) = n := by omega
    rw [e] at this
    rw [this]
    exact fun hc => Option.noConfusion hc

/-! ### `array_dealloc` -/

theorem land_lor_self (f W : Nat) : Nat.land (Nat.lor f W) W = W := by
  apply Nat.eq_of_testBit_eq
  intro i
  show ((f ||| W) &&& W).testBit i = W.testBit i
  rw [Nat.testBit_land, Nat.testBit_lor]
  cases f.testBit i <;> cases W.testBit i <;> rfl

theorem CHKFLAGS_ENABLEFLAGS (h : Heap) (p FLAGS : Nat) (hp : PyArray_Check h p = true) :
    PyArray_CHKFLAGS (PyArray_FLAGS (PyArray_ENABLEFLAGS h p FLAGS) p) FLAGS = true := by
  unfold PyArray_Check at hp
  cases hf : arrayAt h p with
  | none => simp [hf] at hp
  | some f =>
    obtain ⟨_, hlt⟩ := arrayAt_eq_some h p f hf
    have hnew : arrayAt (PyArray_ENABLEFLAGS h p FLAGS) p =
        some { f with flags := Nat.lor f.flags FLAGS } := by
      unfold PyArray_ENABLEFLAGS
      rw [hf]
      simp [arrayAt, hlt]
    unfold PyArray_FLAGS PyArray_CHKFLAGS
    rw [hnew]
    simp only [land_lor_self, beq_self_eq_true]

/-- C18: when an array `self` with base `b` (an array) and the UPDATEIFCOPY
flag is destroyed, `array_dealloc` sets the WRITEABLE flag of `b`, then
calls `PyArray_CopyAnyInto(b, self)` in that heap; the flag is still set in
the final heap; if the copy fails the error is printed and cleared and, but
for these two calls, the sequence of steps (release of the base, freeing of
the owned data and mask, ...) and the final heap are those of a successful
copy, and no error is left pending. -/
theorem C18_writeback_failure_swallowed (CopyAnyInto : Heap → Nat → Nat → Option PyErr)
    (h : Heap) (self b : Nat) (info : DeallocInfo)
    (hbase : PyArray_BASE h self = some b) (hb : PyArray_Check h b = true)
    (hflag : flagsAnd (PyArray_FLAGS h self) NPY_ARRAY_UPDATEIFCOPY = true) :
    (array_dealloc CopyAnyInto h self info).heap = PyArray_ENABLEFLAGS h b NPY_ARRAY_WRITEABLE ∧
    PyArray_CHKFLAGS (PyArray_FLAGS (PyArray_ENABLEFLAGS h b NPY_ARRAY_WRITEABLE) b)
      NPY_ARRAY_WRITEABLE = true ∧
    (array_dealloc CopyAnyInto h self info).err = none ∧
    (array_dealloc CopyAnyInto h self info).steps =
      deallocHead info ++
        [DeallocStep.ENABLEFLAGS_WRITEABLE b, DeallocStep.PyArray_CopyAnyInto b self] ++
        (if (CopyAnyInto (PyArray_ENABLEFLAGS h b NPY_ARRAY_WRITEABLE) b self).isSome then
          [DeallocStep.PyErr_Print, DeallocStep.PyErr_Clear] else []) ++
        [DeallocStep.Py_DECREF_base b] ++
        deallocTail (PyArray_FLAGS (PyArray_ENABLEFLAGS h b NPY_ARRAY_WRITEABLE) self) info := by
  refine ⟨?_, CHKFLAGS_ENABLEFLAGS h b _ hb, ?_, ?_⟩
  · unfold array_dealloc
    simp only [hbase, hflag, if_true]
    cases CopyAnyInto (PyArray_ENABLEFLAGS h b NPY_ARRAY_WRITEABLE) b self <;> rfl
  · unfold array_dealloc
    simp only [hbase, hflag, if_true]
    cases CopyAnyInto (PyArray_ENABLEFLAGS h b NPY_ARRAY_WRITEABLE) b self <;> rfl
  · unfold array_dealloc
    simp only [hbase, hflag, if_true]
    cases CopyAnyInto (PyArray_ENABLEFLAGS h b NPY_ARRAY_WRITEABLE) b self <;>
      simp

/-- C18 at a concrete heap: the deferred view `0` of the owner `1`, which
was locked (not WRITEABLE), with a copy that fails: the owner is WRITEABLE
afterwards and no error is pending. -/
theorem C18_writeback_failure_swallowed_witness :
    (array_dealloc (fun _ _ _ => some (PyErr.External 0))
        [PyObject.ndarray ⟨0x1004, some 1⟩, PyObject.ndarray ⟨4, none⟩] 0
        ⟨false, true, false⟩).heap =
      PyArray_ENABLEFLAGS [PyObject.ndarray ⟨0x1004, some 1⟩, PyObject.ndarray ⟨4, none⟩] 1
        NPY_ARRAY_WRITEABLE ∧
    (array_dealloc (fun _ _ _ => some (PyErr.External 0))
        [PyObject.ndarray ⟨0x1004, some 1⟩, PyObject.ndarray ⟨4, none⟩] 0
        ⟨false, true, false⟩).err = none :=
  ⟨(C18_writeback_failure_swallowed (fun _ _ _ => some (PyErr.External 0))
      [PyObject.ndarray ⟨0x1004, some 1⟩, PyObject.ndarray ⟨4, none⟩] 0 1 ⟨false, true, false⟩
      (by decide) (by decide) (by decide)).1,
    (C18_writeback_failure_swallowed (fun _ _ _ => some (PyErr.External 0))
      [PyObject.ndarray ⟨0x1004, some 1⟩, PyObject.ndarray ⟨4, none⟩] 0 1 ⟨false, true, false⟩
      (by decide) (by decide) (by decide)).2.2.1⟩

/-- C19 as stated fails: the view `0` with base `1` owns its mask; in the
steps of `array_dealloc` the base reference is released before the mask
memory is freed, not after, and it is not the last step. -/
theorem C19_counterexample_base_released_first :
    (array_dealloc (fun _ _ _ => none)
        [PyObject.ndarray ⟨0x6000, some 1⟩, PyObject.ndarray ⟨4, none⟩] 0
        ⟨false, true, false⟩).steps =
      [DeallocStep.array_dealloc_buffer_info, DeallocStep.Py_DECREF_base 1,
        DeallocStep.Py_XDECREF_maskna_dtype, DeallocStep.PyDataMem_FREE_maskna_data,
        DeallocStep.PyDimMem_FREE_dimensions, DeallocStep.Py_DECREF_descr,
        DeallocStep.tp_free] ∧
    List.indexOf (DeallocStep.Py_DECREF_base 1)
        (array_dealloc (fun _ _ _ => none)
          [PyObject.ndarray ⟨0x6000, some 1⟩, PyObject.ndarray ⟨4, none⟩] 0
          ⟨false, true, false⟩).steps <
      List.indexOf DeallocStep.PyDataMem_FREE_maskna_data
        (array_dealloc (fun _ _ _ => none)
          [PyObject.ndarray ⟨0x6000, some 1⟩, PyObject.ndarray ⟨4, none⟩] 0
          ⟨false, true, false⟩).steps := by
  decide

theorem deallocTail_isFree (flags : Nat) (info : DeallocInfo) :
    ∀ s, s ∈ deallocTail flags info → s.isFree = true := by
  intro s hs
  unfold deallocTail at hs
  simp only [List.mem_append, List.mem_cons, List.mem_singleton, List.not_mem_nil,
    or_false] at hs
  rcases hs with (hs | hs) | hs
  · split at hs
    · simp only [List.mem_append, List.mem_singleton] at hs
      rcases hs with hs | hs
      · split at hs
        · rw [List.mem_singleton.mp hs]; rfl
        · simp at hs
      · rw [hs]; rfl
    · simp at hs
  · split at hs
    · rcases List.mem_cons.mp hs with hs | hs
      · rw [hs]; rfl
      · split at hs
        · rw [List.mem_singleton.mp hs]; rfl
        · simp at hs
    · simp at hs
  · rcases hs with hs | hs | hs <;> (rw [hs]; rfl)

/-- C19 (amended): in the steps of `array_dealloc` on an array with a
non-empty base `b`, the release of the base reference comes after the
write-back (if any) and before every step that frees something owned by the
array: the nested references of the elements, the data buffer, the mask
dtype and memory, the dimensions, the descr and the object itself. -/
theorem C19_base_released_before_frees (CopyAnyInto : Heap → Nat → Nat → Option PyErr)
    (h : Heap) (self b : Nat) (info : DeallocInfo) (hbase : PyArray_BASE h self = some b) :
    ∃ pre post, (array_dealloc CopyAnyInto h self info).steps =
        pre ++ [DeallocStep.Py_DECREF_base b] ++ post ∧
      (∀ s, s ∈ pre → s.isFree = false) ∧ (∀ s, s ∈ post → s.isFree = true) ∧
      post.getLast? = some DeallocStep.tp_free := by
  have hhead : ∀ s, s ∈ deallocHead info → s.isFree = false := by
    intro s hs
    unfold deallocHead at hs
    rcases List.mem_cons.mp hs with hs | hs
    · rw [hs]; rfl
    · split at hs
      · rw [List.mem_singleton.mp hs]; rfl
      · simp at hs
  have hlast : ∀ flags, (deallocTail flags info).getLast? = some DeallocStep.tp_free := by
    intro flags
    unfold deallocTail
    rw [List.getLast?_append]
    rfl
  unfold array_dealloc
  simp only [hbase]
  by_cases hflag : flagsAnd (PyArray_FLAGS h self) NPY_ARRAY_UPDATEIFCOPY = true
  · simp only [hflag, if_true]
    cases CopyAnyInto (PyArray_ENABLEFLAGS h b NPY_ARRAY_WRITEABLE) b self with
    | none =>
      refine ⟨deallocHead info ++ [DeallocStep.ENABLEFLAGS_WRITEABLE b,
        DeallocStep.PyArray_CopyAnyInto b self],
        deallocTail (PyArray_FLAGS (PyArray_ENABLEFLAGS h b NPY_ARRAY_WRITEABLE) self) info,
        by simp, ?_, deallocTail_isFree _ info, hlast _⟩
      intro s hs
      rcases List.mem_append.mp hs with hs | hs
      · exact hhead s hs
      · simp only [List.mem_cons, List.mem_singleton, List.not_mem_nil, or_false] at hs
        rcases hs with hs | hs <;> (rw [hs]; rfl)
    | some e =>
      refine ⟨deallocHead info ++ [DeallocStep.ENABLEFLAGS_WRITEABLE b,
        DeallocStep.PyArray_CopyAnyInto b self, DeallocStep.PyErr_Print,
        DeallocStep.PyErr_Clear],
        deallocTail (PyArray_FLAGS (PyArray_ENABLEFLAGS h b NPY_ARRAY_WRITEABLE) self) info,
        by simp, ?_, deallocTail_isFree _ info, hlast _⟩
      intro s hs
      rcases List.mem_append.mp hs with hs | hs
      · exact hhead s hs
      · simp only [List.mem_cons, List.mem_singleton, List.not_mem_nil, or_false] at hs
        rcases hs with hs | hs | hs | hs <;> (rw [hs]; rfl)
  · simp only [hflag, Bool.false_eq_true, if_false]
    exact ⟨deallocHead info, deallocTail _ info, rfl, hhead, deallocTail_isFree _ info, hlast _⟩

/-- C19 (amended) at a concrete heap: the view `0` of `1` owns its mask. -/
theorem C19_base_released_before_frees_witness :
    ∃ pre post, (array_dealloc (fun _ _ _ => none)
        [PyObject.ndarray ⟨0x6000, some 1⟩, PyObject.ndarray ⟨4, none⟩] 0
        ⟨false, true, false⟩).steps = pre ++ [DeallocStep.Py_DECREF_base 1] ++ post ∧
      (∀ s, s ∈ pre → s.isFree = false) ∧ (∀ s, s ∈ post → s.isFree = true) ∧
      post.getLast? = some DeallocStep.tp_free :=
  C19_base_released_before_frees (fun _ _ _ => none)
    [PyObject.ndarray ⟨0x6000, some 1⟩, PyObject.ndarray ⟨4, none⟩] 0 1 ⟨false, true, false⟩
    (by decide)

/-! ### `_strings_richcompare` -/

theorem reg_loop_ret (CMP : Int → Bool) (compfunc : CompFunc) (N1 N2 : Nat)
    (iself iother : Nat → List Nat) :
    ∀ (size i : Nat) (data : List Bool),
      (_reg_loop CMP compfunc N1 N2 iself iother size i data).ret = 0 := by
  intro size
  induction size with
  | zero => intro i data; rfl
  | succ size ih => intro i data; simp only [_reg_loop]; exact ih _ _

theorem compare_strings_reg_ret (malloc : Nat → Bool) (data : List Bool) (size : Nat)
    (iself iother : Nat → List Nat) (elsize1 elsize2 cmp_op : Nat) (func : CompFunc)
    (hop : cmp_op ≤ 5) :
    (_compare_strings malloc data size iself iother elsize1 elsize2 cmp_op func false).ret = 0 := by
  unfold _compare_strings
  simp only [Bool.false_eq_true, if_false]
  have h6 : cmp_op = 0 ∨ cmp_op = 1 ∨ cmp_op = 2 ∨ cmp_op = 3 ∨ cmp_op = 4 ∨ cmp_op = 5 := by
    omega
  rcases h6 with h | h | h | h | h | h <;> subst h <;>
    simp [Py_EQ, Py_NE, Py_LT, Py_LE, Py_GT, Py_GE, reg_loop_ret]

theorem stringsCompareLoop_ok {Arr : Type} (env : StringCollaborators Arr) (a b : Arr)
    (cmp_op : Nat) (mit : MultiIter) (data : List Bool) (hop : cmp_op ≤ 5)
    (hmit : env.PyArray_MultiIterNew a b = Except.ok mit)
    (hnew : env.PyArray_NewFromDescr mit.dimensions = Except.ok data) :
    stringsCompareLoop env a b cmp_op false =
      Except.ok (CmpObj.ndarray mit.dimensions
        (_compare_strings env.malloc data mit.size mit.iself mit.iother (env.elsize a)
          (env.elsize b) cmp_op
          (if env.PyArray_TYPE a = NPY_UNICODE then CompFunc.myunincmp else CompFunc.mystrncmp)
          false).data) := by
  unfold stringsCompareLoop
  simp only [hmit, hnew]
  rw [compare_strings_reg_ret env.malloc data mit.size mit.iself mit.iother _ _ cmp_op _ hop]
  simp

/-- C20 as stated fails: in a build without `NPY_PY3K`, comparing the
byte-string array `["a"]` with the unicode array `["b"]` under `Py_LT` is
carried out (the byte-string side is converted) and yields `[True]`, not the
TypeMismatch error; and in a build with `NPY_PY3K` the same operands under
`Py_EQ` yield `Py_NotImplemented`, so `Py_EQ` is not carried out either. -/
theorem C20_counterexample_mixed_ordering :
    _strings_richcompare (textCollaborators false) ⟨NPY_STRING, 1, [[97]]⟩
        ⟨NPY_UNICODE, 4, [[98]]⟩ Py_LT false = Except.ok (CmpObj.ndarray [1] [true]) ∧
    _strings_richcompare (textCollaborators true) ⟨NPY_STRING, 1, [[97]]⟩
        ⟨NPY_UNICODE, 4, [[98]]⟩ Py_EQ false = Except.ok Py_NotImplemented :=
  ⟨rfl, rfl⟩

/-- C20 (amended): for `self` of byte-string dtype and `other` of unicode
dtype, or the reverse, `_strings_richcompare` treats every `cmp_op` alike.
With `NPY_PY3K` it returns `Py_NotImplemented`.  Without it, the byte-string
operand is converted to unicode of four times its element size and the
comparison loop is run on the resulting pair; in particular, for an op from
`Py_LT` to `Py_GE` without rstrip, when the conversion, the multi-iterator
and the allocation of the result succeed, the result is the boolean array
written by `_compare_strings`. -/
theorem C20_mixed_kinds_any_op {Arr : Type} (env : StringCollaborators Arr) (self other : Arr)
    (cmp_op : Nat) (rstrip : Bool)
    (hkinds : (env.PyArray_TYPE self = NPY_STRING ∧ env.PyArray_TYPE other = NPY_UNICODE) ∨
      (env.PyArray_TYPE self = NPY_UNICODE ∧ env.PyArray_TYPE other = NPY_STRING)) :
    (env.NPY_PY3K = true →
      _strings_richcompare env self other cmp_op rstrip = Except.ok Py_NotImplemented) ∧
    (env.NPY_PY3K = false →
      _strings_richcompare env self other cmp_op rstrip =
        if env.PyArray_TYPE self = NPY_STRING then
          match env.PyArray_FromAny self (env.elsize self <<< 2) with
          | Except.error e => Except.error e
          | Except.ok newObj => stringsCompareLoop env newObj other cmp_op rstrip
        else
          match env.PyArray_FromAny other (env.elsize other <<< 2) with
          | Except.error e => Except.error e
          | Except.ok newObj => stringsCompareLoop env self newObj cmp_op rstrip) ∧
    (env.NPY_PY3K = false → rstrip = false → cmp_op ≤ 5 →
      ∀ (a b : Arr) (mit : MultiIter) (data : List Bool),
        ((env.PyArray_TYPE self = NPY_STRING ∧
            env.PyArray_FromAny self (env.elsize self <<< 2) = Except.ok a ∧ b = other) ∨
          (env.PyArray_TYPE self = NPY_UNICODE ∧
            env.PyArray_FromAny other (env.elsize other <<< 2) = Except.ok b ∧ a = self)) →
        env.PyArray_MultiIterNew a b = Except.ok mit →
        env.PyArray_NewFromDescr mit.dimensions = Except.ok data →
        _strings_richcompare env self other cmp_op rstrip =
          Except.ok (CmpObj.ndarray mit.dimensions
            (_compare_strings env.malloc data mit.size mit.iself mit.iother (env.elsize a)
              (env.elsize b) cmp_op
              (if env.PyArray_TYPE a = NPY_UNICODE then CompFunc.myunincmp
               else CompFunc.mystrncmp) false).data)) := by
  have hne : env.PyArray_TYPE self ≠ env.PyArray_TYPE other := by
    rcases hkinds with ⟨h1, h2⟩ | ⟨h1, h2⟩ <;> rw [h1, h2] <;> decide
  have hsu : ¬ NPY_STRING = NPY_UNICODE := by decide
  have hmain : env.NPY_PY3K = false →
      _strings_richcompare env self other cmp_op rstrip =
        if env.PyArray_TYPE self = NPY_STRING then
          match env.PyArray_FromAny self (env.elsize self <<< 2) with
          | Except.error e => Except.error e
          | Except.ok newObj => stringsCompareLoop env newObj other cmp_op rstrip
        else
          match env.PyArray_FromAny other (env.elsize other <<< 2) with
          | Except.error e => Except.error e
          | Except.ok newObj => stringsCompareLoop env self newObj cmp_op rstrip := by
    intro hpy
    unfold _strings_richcompare
    rw [if_pos hne, hpy]
    rcases hkinds with ⟨h1, h2⟩ | ⟨h1, h2⟩
    · simp [h1, h2]
    · have hus : ¬ NPY_UNICODE = NPY_STRING := by decide
      simp only [h1, h2, hus, false_and, if_false, and_self, if_true, Bool.false_eq_true]
  refine ⟨?_, hmain, ?_⟩
  · intro hpy
    unfold _strings_richcompare
    rw [if_pos hne, hpy]
    rfl
  · intro hpy hrs hop a b mit data hconv hmit hnew
    rw [hmain hpy, hrs]
    rcases hconv with ⟨h1, hfa, hb⟩ | ⟨h1, hfa, ha⟩
    · rw [if_pos h1, hfa]
      subst hb
      exact stringsCompareLoop_ok env a b cmp_op mit data hop hmit hnew
    · have h3 : ¬ env.PyArray_TYPE self = NPY_STRING := by rw [h1]; decide
      rw [if_neg h3, hfa]
      subst ha
      exact stringsCompareLoop_ok env a b cmp_op mit data hop hmit hnew

/-- C20 (amended) at concrete arrays: `["a"] < ["b"]` across kinds, without
`NPY_PY3K`, is the array written by `_compare_strings` after the conversion of
the byte-string side. -/
theorem C20_mixed_kinds_any_op_witness :
    _strings_richcompare (textCollaborators false) ⟨NPY_STRING, 1, [[97]]⟩
        ⟨NPY_UNICODE, 4, [[98]]⟩ Py_LT false =
      Except.ok (CmpObj.ndarray [1]
        (_compare_strings (fun _ => true) [false] 1 (fun _ => [97]) (fun _ => [98]) 4 4 Py_LT
          CompFunc.myunincmp false).data) :=
  (C20_mixed_kinds_any_op (textCollaborators false) ⟨NPY_STRING, 1, [[97]]⟩
    ⟨NPY_UNICODE, 4, [[98]]⟩ Py_LT false (Or.inl ⟨rfl, rfl⟩)).2.2 rfl rfl (by decide)
    ⟨NPY_UNICODE, 4, [[97]]⟩ ⟨NPY_UNICODE, 4, [[98]]⟩
    ⟨[1], 1, fun i => List.getD [[97]] (if (1 : Nat) = 1 then 0 else i) [],
      fun i => List.getD [[98]] (if (1 : Nat) = 1 then 0 else i) []⟩ [false]
    (Or.inl ⟨rfl, rfl, rfl⟩) rfl rfl

/-! ### `array_richcompare` -/

theorem richcompareOrder_void {Arr Obj : Type} (env : RichCollaborators Arr Obj) (self : Arr)
    (other : Obj) (cmp_op : Nat) (ufunc : CmpUfunc) (hvoid : env.PyArray_TYPE self = NPY_VOID) :
    RichCall.void_compare ∉ (richcompareOrder env self other cmp_op ufunc).calls ∧
    (richcompareOrder env self other cmp_op ufunc).value =
      match env.PyArray_GenericBinaryFunction self other ufunc with
      | Except.error e => some (Except.error e)
      | Except.ok v =>
        if v = Py_NotImplemented then
          match env.PyArray_FromObject other with
          | Except.error _ => none
          | Except.ok _ => some (Except.ok Py_NotImplemented)
        else some (Except.ok v) := by
  have hobj : ¬ NPY_VOID = NPY_OBJECT := by decide
  have hstr : PyTypeNum_ISSTRING NPY_VOID = false := by decide
  unfold richcompareOrder richcompareTail
  cases env.PyArray_GenericBinaryFunction self other ufunc with
  | error e => exact ⟨by simp, rfl⟩
  | ok v =>
    by_cases hv : v = Py_NotImplemented
    · simp only [hv, if_true, hvoid, hobj, if_false, hstr, Bool.false_and, Bool.false_eq_true]
      cases env.PyArray_FromObject other with
      | error e => exact ⟨by simp, rfl⟩
      | ok a => exact ⟨by simp, rfl⟩
    · simp [hv]

/-- C11 as stated fails: `self` of structured dtype (`NPY_VOID`), a generic
dispatcher that answers `Py_NotImplemented` for `less`, and `Py_LT`:
`array_richcompare` returns `Py_NotImplemented` after the calls to the
dispatcher and to `PyArray_FromObject`; no error is raised and
`_void_compare` is not called. -/
theorem C11_counterexample_ordering_not_implemented :
    (array_richcompare (scenarioCollaborators (Except.ok Py_NotImplemented)) NPY_VOID 5
        Py_LT).value = some (Except.ok Py_NotImplemented) ∧
    (array_richcompare (scenarioCollaborators (Except.ok Py_NotImplemented)) NPY_VOID 5
        Py_LT).calls =
      [RichCall.PyArray_GenericBinaryFunction CmpUfunc.less, RichCall.PyArray_FromObject] ∧
    (array_richcompare (scenarioCollaborators (Except.ok Py_NotImplemented)) NPY_VOID 5
        Py_LT).value ≠ some (Except.error PyErr.UnsupportedComparison) := by
  refine ⟨rfl, rfl, ?_⟩
  intro h
  have h2 : (some (Except.ok Py_NotImplemented) : Option (Except PyErr CmpObj)) =
      some (Except.error PyErr.UnsupportedComparison) := h
  injection h2 with h3
  exact Except.noConfusion h3

/-- C11 (amended): `_void_compare` fails with UnsupportedComparison for every
op other than `Py_EQ` and `Py_NE`; but for `self` of structured dtype and an
ordering op, `array_richcompare` never calls `_void_compare`: it returns what
the generic dispatcher returns for the ufunc of the op, where a
`Py_NotImplemented` answer stays `Py_NotImplemented` once `other` has been
converted by `PyArray_FromObject` (the behaviour is undefined if that
conversion fails). -/
theorem C11_ordering_bypasses_void_compare {Arr Obj : Type} (env : RichCollaborators Arr Obj)
    (self : Arr) (other : Obj) (cmp_op : Nat) (hvoid : env.PyArray_TYPE self = NPY_VOID)
    (hop : cmp_op = Py_LT ∨ cmp_op = Py_LE ∨ cmp_op = Py_GT ∨ cmp_op = Py_GE) :
    (∀ a b : Arr, _void_compare env.void a b cmp_op =
      Except.error PyErr.UnsupportedComparison) ∧
    RichCall.void_compare ∉ (array_richcompare env self other cmp_op).calls ∧
    (array_richcompare env self other cmp_op).value =
      match env.PyArray_GenericBinaryFunction self other (orderUfunc cmp_op) with
      | Except.error e => some (Except.error e)
      | Except.ok v =>
        if v = Py_NotImplemented then
          match env.PyArray_FromObject other with
          | Except.error _ => none
          | Except.ok _ => some (Except.ok Py_NotImplemented)
        else some (Except.ok v) := by
  have hguard : (!(cmp_op == Py_EQ || cmp_op == Py_NE)) = true := by
    rcases hop with h | h | h | h <;> subst h <;> decide
  refine ⟨fun a b => ?_, ?_⟩
  · unfold _void_compare
    rw [hguard]
    rfl
  · rcases hop with h | h | h | h <;> subst h
    · exact richcompareOrder_void env self other Py_LT CmpUfunc.less hvoid
    · exact richcompareOrder_void env self other Py_LE CmpUfunc.less_equal hvoid
    · exact richcompareOrder_void env self other Py_GT CmpUfunc.greater hvoid
    · exact richcompareOrder_void env self other Py_GE CmpUfunc.greater_equal hvoid

/-- C11 (amended) at the scenario of the counterexample. -/
theorem C11_ordering_bypasses_void_compare_witness :
    RichCall.void_compare ∉
      (array_richcompare (scenarioCollaborators (Except.ok Py_NotImplemented)) NPY_VOID 5
        Py_LT).calls :=
  (C11_ordering_bypasses_void_compare (scenarioCollaborators (Except.ok Py_NotImplemented))
    NPY_VOID 5 Py_LT rfl (Or.inl rfl)).2.1

/-- C12: for every array `self`, `array_richcompare(self, None, Py_EQ)`
returns the scalar `Py_False` and `array_richcompare(self, None, Py_NE)` the
scalar `Py_True`, in both cases without any call to a collaborator (no
conversion of `other`, no generic dispatcher, no broadcasting). -/
theorem C12_none_short_circuit {Arr Obj : Type} (env : RichCollaborators Arr Obj) (self : Arr)
    (other : Obj) (hnone : env.is_Py_None other = true) :
    (array_richcompare env self other Py_EQ).value = some (Except.ok Py_False) ∧
    (array_richcompare env self other Py_EQ).calls = [] ∧
    (array_richcompare env self other Py_NE).value = some (Except.ok Py_True) ∧
    (array_richcompare env self other Py_NE).calls = [] := by
  have h1 : array_richcompare env self other Py_EQ =
      richcompareEqNe env self other Py_EQ Py_False CmpUfunc.equal := rfl
  have h2 : array_richcompare env self other Py_NE =
      richcompareEqNe env self other Py_NE Py_True CmpUfunc.not_equal := rfl
  rw [h1, h2]
  unfold richcompareEqNe
  simp only [hnone, if_true, and_self]

/-- C12 at the scenario in which the object 0 is `None`. -/
theorem C12_none_short_circuit_witness :
    (array_richcompare (scenarioCollaborators (Except.error (PyErr.External 9))) 12 0
        Py_EQ).value = some (Except.ok Py_False) ∧
    (array_richcompare (scenarioCollaborators (Except.error (PyErr.External 9))) 12 0
        Py_EQ).calls = [] ∧
    (array_richcompare (scenarioCollaborators (Except.error (PyErr.External 9))) 12 0
        Py_NE).value = some (Except.ok Py_True) ∧
    (array_richcompare (scenarioCollaborators (Except.error (PyErr.External 9))) 12 0
        Py_NE).calls = [] :=
  C12_none_short_circuit (scenarioCollaborators (Except.error (PyErr.External 9))) 12 0 rfl

/-! ### The loops of `_compare_strings` -/

theorem reg_loop_spec (CMP : Int → Bool) (compfunc : CompFunc) (N1 N2 : Nat)
    (iself iother : Nat → List Nat) :
    ∀ (size i : Nat) (data : List Bool),
      (_reg_loop CMP compfunc N1 N2 iself iother size i data).ret = 0 ∧
      (_reg_loop CMP compfunc N1 N2 iself iother size i data).err = none ∧
      (_reg_loop CMP compfunc N1 N2 iself iother size i data).data.length = data.length ∧
      ∀ k, (_reg_loop CMP compfunc N1 N2 iself iother size i data).data[k]? =
        if i ≤ k ∧ k < i + size ∧ k < data.length then
          some (CMP (compfunc.call (iself k) (iother k) N1 N2))
        else data[k]? := by
  intro size
  induction size with
  | zero =>
    intro i data
    refine ⟨rfl, rfl, rfl, fun k => ?_⟩
    have : ¬ (i ≤ k ∧ k < i + 0 ∧ k < data.length) := by omega
    rw [if_neg this]
    rfl
  | succ size ih =>
    intro i data
    simp only [_reg_loop]
    obtain ⟨h1, h2, h3, h4⟩ := ih (i + 1)
      (data.set i (CMP (compfunc.call (iself i) (iother i) N1 N2)))
    refine ⟨h1, h2, by rw [h3, List.length_set], fun k => ?_⟩
    rw [h4 k, List.length_set, List.getElem?_set]
    by_cases hk : i = k
    · subst hk
      by_cases hlt : i < data.length
      · split_ifs <;> first | rfl | (exfalso; omega)
      · have hnone : data[i]? = none := List.getElem?_eq_none (by omega)
        rw [hnone]
        split_ifs <;> first | rfl | (exfalso; omega)
    · split_ifs <;> first | rfl | (exfalso; omega)

theorem rstrip_loop_spec (CMP : Int → Bool) (compfunc : CompFunc) (malloc : Nat → Bool)
    (halloc : ∀ sz, SMALL_STRING < sz → malloc sz = true) (N1 N2 : Nat)
    (iself iother : Nat → List Nat) :
    ∀ (size i : Nat) (data : List Bool),
      (_rstrip_loop CMP compfunc malloc N1 N2 iself iother size i data).ret = 0 ∧
      (_rstrip_loop CMP compfunc malloc N1 N2 iself iother size i data).err = none ∧
      (_rstrip_loop CMP compfunc malloc N1 N2 iself iother size i data).data.length =
        data.length ∧
      ∀ k, (_rstrip_loop CMP compfunc malloc N1 N2 iself iother size i data).data[k]? =
        if i ≤ k ∧ k < i + size ∧ k < data.length then
          some (CMP (compfunc.call (stripLoop ((iself k).take N1) (N1 - 1))
            (stripLoop ((iother k).take N2) (N2 - 1)) N1 N2))
        else data[k]? := by
  intro size
  induction size with
  | zero =>
    intro i data
    refine ⟨rfl, rfl, rfl, fun k => ?_⟩
    have : ¬ (i ≤ k ∧ k < i + 0 ∧ k < data.length) := by omega
    rw [if_neg this]
    rfl
  | succ size ih =>
    intro i data
    simp only [_rstrip_loop, stripfunc_eq compfunc malloc halloc]
    obtain ⟨h1, h2, h3, h4⟩ := ih (i + 1)
      (data.set i (CMP (compfunc.call (stripLoop ((iself i).take N1) (N1 - 1))
        (stripLoop ((iother i).take N2) (N2 - 1)) N1 N2)))
    refine ⟨h1, h2, by rw [h3, List.length_set], fun k => ?_⟩
    rw [h4 k, List.length_set, List.getElem?_set]
    by_cases hk : i = k
    · subst hk
      by_cases hlt : i < data.length
      · split_ifs <;> first | rfl | (exfalso; omega)
      · have hnone : data[i]? = none := List.getElem?_eq_none (by omega)
        rw [hnone]
        split_ifs <;> first | rfl | (exfalso; omega)
    · split_ifs <;> first | rfl | (exfalso; omega)

theorem reg_loop_traced_spec (CMP : Int → Bool) (compfunc : CompFunc) (N1 N2 : Nat)
    (iself iother : Nat → List Nat) :
    ∀ (size i : Nat) (data : List Bool) (log : List (List Nat × List Nat)),
      _reg_loop_traced CMP compfunc N1 N2 iself iother size i data log =
        (_reg_loop CMP compfunc N1 N2 iself iother size i data,
          log ++ (List.range' i size).map (fun j => (iself j, iother j))) := by
  intro size
  induction size with
  | zero => intro i data log; simp [_reg_loop_traced, _reg_loop]
  | succ size ih =>
    intro i data log
    simp only [_reg_loop_traced, _reg_loop, ih, List.range'_succ, List.map_cons,
      List.append_assoc, List.singleton_append]

theorem call_self (cmp : CompFunc) (s : List Nat) (n : Nat) : cmp.call s s n n = 0 := by
  obtain ⟨pc, hpc, hcall⟩ := cmp.call_eq_cmpWith
  rw [hcall]
  have hv : pc s s (min n n) = 0 := hpc.1 _ s s (fun _ _ => rfl)
  simp only [cmpWith, hv, ne_eq, not_true_eq_false, false_or, if_true]

theorem compare_strings_loop (malloc : Nat → Bool) (data : List Bool) (size : Nat)
    (iself iother : Nat → List Nat) (elsize1 elsize2 cmp_op : Nat) (func : CompFunc)
    (rstrip : Bool) (hop : cmp_op ≤ 5) :
    _compare_strings malloc data size iself iother elsize1 elsize2 cmp_op func rstrip =
      if rstrip then
        _rstrip_loop (opHolds cmp_op) func malloc
          (if func = CompFunc.myunincmp then elsize1 >>> 2 else elsize1)
          (if func = CompFunc.myunincmp then elsize2 >>> 2 else elsize2) iself iother size 0 data
      else
        _reg_loop (opHolds cmp_op) func
          (if func = CompFunc.myunincmp then elsize1 >>> 2 else elsize1)
          (if func = CompFunc.myunincmp then elsize2 >>> 2 else elsize2) iself iother size 0
          data := by
  have h6 : cmp_op = 0 ∨ cmp_op = 1 ∨ cmp_op = 2 ∨ cmp_op = 3 ∨ cmp_op = 4 ∨ cmp_op = 5 := by
    omega
  have e0 : opHolds 0 = fun val => decide (val < 0) := by funext v; simp [opHolds, Py_EQ, Py_NE, Py_LT]
  have e1 : opHolds 1 = fun val => decide (val ≤ 0) := by
    funext v; simp [opHolds, Py_EQ, Py_NE, Py_LT, Py_LE]
  have e2 : opHolds 2 = fun val => val == 0 := by funext v; simp [opHolds, Py_EQ]
  have e3 : opHolds 3 = fun val => val != 0 := by funext v; simp [opHolds, Py_EQ, Py_NE]
  have e4 : opHolds 4 = fun val => decide (val > 0) := by
    funext v; simp [opHolds, Py_EQ, Py_NE, Py_LT, Py_LE, Py_GT]
  have e5 : opHolds 5 = fun val => decide (val ≥ 0) := by
    funext v; simp [opHolds, Py_EQ, Py_NE, Py_LT, Py_LE, Py_GT]
  unfold _compare_strings
  rcases h6 with h | h | h | h | h | h <;> subst h
  · rw [e0]; simp [Py_EQ, Py_NE, Py_LT]
  · rw [e1]; simp [Py_EQ, Py_NE, Py_LT, Py_LE]
  · rw [e2]; simp [Py_EQ]
  · rw [e3]; simp [Py_EQ, Py_NE]
  · rw [e4]; simp [Py_EQ, Py_NE, Py_LT, Py_LE, Py_GT]
  · rw [e5]; simp [Py_EQ, Py_NE, Py_LT, Py_LE, Py_GT, Py_GE]

/-- C21: comparing a text array with itself under `Py_EQ`: when both
iterators yield the same elements (of the same element size),
`_compare_strings` succeeds and writes true into every one of the `size`
result positions, with and without rstrip (allocations for elements wider
than `SMALL_STRING` succeeding). -/
theorem C21_self_comparison_all_true (malloc : Nat → Bool) (data : List Bool) (size : Nat)
    (elems : Nat → List Nat) (elsize : Nat) (func : CompFunc) (rstrip : Bool)
    (halloc : ∀ sz, SMALL_STRING < sz → malloc sz = true) (hsize : size ≤ data.length) :
    (_compare_strings malloc data size elems elems elsize elsize Py_EQ func rstrip).ret = 0 ∧
    (_compare_strings malloc data size elems elems elsize elsize Py_EQ func rstrip).err = none ∧
    (_compare_strings malloc data size elems elems elsize elsize Py_EQ func rstrip).data.length =
      data.length ∧
    (∀ k, k < size →
      (_compare_strings malloc data size elems elems elsize elsize Py_EQ func rstrip).data[k]? =
        some true) := by
  have htrue : opHolds Py_EQ 0 = true := by decide
  rw [compare_strings_loop malloc data size elems elems elsize elsize Py_EQ func rstrip
    (by decide)]
  cases rstrip with
  | false =>
    simp only [Bool.false_eq_true, if_false]
    obtain ⟨h1, h2, h3, h4⟩ := reg_loop_spec (opHolds Py_EQ) func
      (if func = CompFunc.myunincmp then elsize >>> 2 else elsize)
      (if func = CompFunc.myunincmp then elsize >>> 2 else elsize) elems elems size 0 data
    refine ⟨h1, h2, h3, fun k hk => ?_⟩
    rw [h4 k, if_pos (by omega), call_self, htrue]
  | true =>
    simp only [if_true]
    obtain ⟨h1, h2, h3, h4⟩ := rstrip_loop_spec (opHolds Py_EQ) func malloc halloc
      (if func = CompFunc.myunincmp then elsize >>> 2 else elsize)
      (if func = CompFunc.myunincmp then elsize >>> 2 else elsize) elems elems size 0 data
    refine ⟨h1, h2, h3, fun k hk => ?_⟩
    rw [h4 k, if_pos (by omega), call_self, htrue]

/-- C21 at a concrete array of two byte strings, in rstrip mode. -/
theorem C21_self_comparison_all_true_witness :
    (_compare_strings (fun _ => true) [false, false] 2 (fun i => [97, 98 + i]) (fun i => [97, 98 + i])
        2 2 Py_EQ CompFunc.mystrncmp true).data[1]? = some true :=
  (C21_self_comparison_all_true (fun _ => true) [false, false] 2 (fun i => [97, 98 + i]) 2
    CompFunc.mystrncmp true (fun _ _ => rfl) (by decide)).2.2.2 1 (by decide)

/-- C24: for each op from `Py_LT` to `Py_GE` and elements `a_i`, `b_i`
yielded in lock-step by the two iterators, `_compare_strings` without rstrip
returns 0 with no error, writes `result[i] = (comparator(a_i, b_i, N1, N2) op
0)` for every `i < size`, leaves every other position as it was, and calls
the comparator exactly once per position, in iteration order (the record of
calls is `(a_0, b_0), ..., (a_(size-1), b_(size-1))`). -/
theorem C24_one_comparison_per_position (malloc : Nat → Bool) (data : List Bool) (size : Nat)
    (iself iother : Nat → List Nat) (elsize1 elsize2 cmp_op : Nat) (func : CompFunc)
    (hop : cmp_op ∈ [Py_EQ, Py_NE, Py_LT, Py_LE, Py_GT, Py_GE]) (hsize : size ≤ data.length) :
    (_compare_strings malloc data size iself iother elsize1 elsize2 cmp_op func false).ret = 0 ∧
    (_compare_strings malloc data size iself iother elsize1 elsize2 cmp_op func false).err =
      none ∧
    (_compare_strings malloc data size iself iother elsize1 elsize2 cmp_op func false).data.length =
      data.length ∧
    (∀ k, k < size →
      (_compare_strings malloc data size iself iother elsize1 elsize2 cmp_op func false).data[k]? =
        some (opHolds cmp_op (func.call (iself k) (iother k)
          (if func = CompFunc.myunincmp then elsize1 >>> 2 else elsize1)
          (if func = CompFunc.myunincmp then elsize2 >>> 2 else elsize2)))) ∧
    (∀ k, size ≤ k →
      (_compare_strings malloc data size iself iother elsize1 elsize2 cmp_op func false).data[k]? =
        data[k]?) ∧
    _reg_loop_traced (opHolds cmp_op) func
        (if func = CompFunc.myunincmp then elsize1 >>> 2 else elsize1)
        (if func = CompFunc.myunincmp then elsize2 >>> 2 else elsize2) iself iother size 0 data
        [] =
      (_compare_strings malloc data size iself iother elsize1 elsize2 cmp_op func false,
        (List.range size).map (fun i => (iself i, iother i))) := by
  have hop5 : cmp_op ≤ 5 := by
    simp only [List.mem_cons, List.mem_singleton, List.not_mem_nil, or_false, Py_EQ, Py_NE,
      Py_LT, Py_LE, Py_GT, Py_GE] at hop
    omega
  rw [compare_strings_loop malloc data size iself iother elsize1 elsize2 cmp_op func false hop5]
  simp only [Bool.false_eq_true, if_false]
  obtain ⟨h1, h2, h3, h4⟩ := reg_loop_spec (opHolds cmp_op) func
    (if func = CompFunc.myunincmp then elsize1 >>> 2 else elsize1)
    (if func = CompFunc.myunincmp then elsize2 >>> 2 else elsize2) iself iother size 0 data
  refine ⟨h1, h2, h3, fun k hk => ?_, fun k hk => ?_, ?_⟩
  · rw [h4 k, if_pos (by omega)]
  · rw [h4 k, if_neg (by omega)]
  · rw [reg_loop_traced_spec, List.nil_append, List.range_eq_range']

/-- C24 at a concrete pair of arrays under `Py_LT`. -/
theorem C24_one_comparison_per_position_witness :
    (_compare_strings (fun _ => false) [true, true, true] 2 (fun i => [97 + i])
        (fun _ => [98]) 1 1 Py_LT CompFunc.mystrncmp false).data[0]? =
      some (opHolds Py_LT (_mystrncmp [97] [98] 1 1)) :=
  (C24_one_comparison_per_position (fun _ => false) [true, true, true] 2 (fun i => [97 + i])
    (fun _ => [98]) 1 1 Py_LT CompFunc.mystrncmp (by decide) (by decide)).2.2.2.1 0 (by decide)

/-! ### Order properties of the pairwise comparators -/

theorem memcmp_swap : ∀ (n : Nat) (s1 s2 : List Nat), memcmp s2 s1 n = -memcmp s1 s2 n := by
  intro n
  induction n with
  | zero => intro s1 s2; rfl
  | succ n ih =>
    intro s1 s2
    simp only [memcmp]
    by_cases h : s1.headD 0 = s2.headD 0
    · rw [if_neg (not_not.mpr h), if_neg (not_not.mpr h.symm)]
      exact ih _ _
    · rw [if_pos h, if_pos (fun e => h e.symm)]
      omega

theorem CompareUCS4_swap : ∀ (n : Nat) (s1 s2 : List Nat),
    PyArray_CompareUCS4 s2 s1 n = -PyArray_CompareUCS4 s1 s2 n := by
  intro n
  induction n with
  | zero => intro s1 s2; rfl
  | succ n ih =>
    intro s1 s2
    simp only [PyArray_CompareUCS4]
    by_cases h : s1.headD 0 = s2.headD 0
    · rw [if_neg (not_not.mpr h), if_neg (not_not.mpr h.symm)]
      exact ih _ _
    · rw [if_pos h, if_pos (fun e => h e.symm)]
      by_cases hlt : s1.headD 0 < s2.headD 0
      · rw [if_pos hlt, if_neg (by omega)]
        rfl
      · rw [if_neg hlt, if_pos (by omega)]

theorem nulTailLoop_neg : ∀ (diff : Nat) (sptr : List Nat),
    nulTailLoop (-1) sptr diff = -nulTailLoop 1 sptr diff := by
  intro diff
  induction diff with
  | zero => intro sptr; rfl
  | succ d ih =>
    intro sptr
    simp only [nulTailLoop]
    by_cases h : sptr.headD 0 = 0
    · rw [if_neg (not_not.mpr h), if_neg (not_not.mpr h)]
      exact ih _
    · rw [if_pos h, if_pos h]

theorem cmpWith_swap (pc : List Nat → List Nat → Nat → Int)
    (hswap : ∀ n s1 s2, pc s2 s1 n = -pc s1 s2 n) (s1 s2 : List Nat) (len1 len2 : Nat) :
    cmpWith pc s2 s1 len2 len1 = -cmpWith pc s1 s2 len1 len2 := by
  simp only [cmpWith]
  rw [Nat.min_comm len2 len1, hswap]
  by_cases hv : pc s1 s2 (min len1 len2) = 0
  · rw [hv]
    simp only [neg_zero, ne_eq, not_true_eq_false, false_or, gt_iff_lt]
    by_cases hlen : len1 = len2
    · rw [if_pos hlen, if_pos hlen.symm]
      rfl
    · rw [if_neg hlen, if_neg (fun e => hlen e.symm)]
      by_cases hlt : len1 < len2
      · rw [if_pos hlt, if_neg (by omega)]
        rw [nulTailLoop_neg, neg_neg]
      · rw [if_neg hlt, if_pos (by omega)]
        exact nulTailLoop_neg _ _
  · have hv2 : -pc s1 s2 (min len1 len2) ≠ 0 := by omega
    rw [if_pos (Or.inl hv2), if_pos (Or.inl hv)]

theorem call_swap (cmp : CompFunc) (s1 s2 : List Nat) (len1 len2 : Nat) :
    cmp.call s2 s1 len2 len1 = -cmp.call s1 s2 len1 len2 := by
  cases cmp
  · exact cmpWith_swap memcmp memcmp_swap s1 s2 len1 len2
  · exact cmpWith_swap PyArray_CompareUCS4 CompareUCS4_swap s1 s2 len1 len2

theorem compare_strings_data (malloc : Nat → Bool) (data : List Bool) (size : Nat)
    (iself iother : Nat → List Nat) (elsize1 elsize2 cmp_op : Nat) (func : CompFunc)
    (rstrip : Bool) (halloc : ∀ sz, SMALL_STRING < sz → malloc sz = true) (hop : cmp_op ≤ 5)
    (k : Nat) :
    (_compare_strings malloc data size iself iother elsize1 elsize2 cmp_op func rstrip).data[k]? =
      if k < size ∧ k < data.length then
        some (opHolds cmp_op (func.call
          (if rstrip then stripLoop ((iself k).take
              (if func = CompFunc.myunincmp then elsize1 >>> 2 else elsize1))
              ((if func = CompFunc.myunincmp then elsize1 >>> 2 else elsize1) - 1)
            else iself k)
          (if rstrip then stripLoop ((iother k).take
              (if func = CompFunc.myunincmp then elsize2 >>> 2 else elsize2))
              ((if func = CompFunc.myunincmp then elsize2 >>> 2 else elsize2) - 1)
            else iother k)
          (if func = CompFunc.myunincmp then elsize1 >>> 2 else elsize1)
          (if func = CompFunc.myunincmp then elsize2 >>> 2 else elsize2)))
      else data[k]? := by
  rw [compare_strings_loop malloc data size iself iother elsize1 elsize2 cmp_op func rstrip hop]
  cases rstrip with
  | false =>
    simp only [Bool.false_eq_true, if_false]
    rw [(reg_loop_spec (opHolds cmp_op) func
      (if func = CompFunc.myunincmp then elsize1 >>> 2 else elsize1)
      (if func = CompFunc.myunincmp then elsize2 >>> 2 else elsize2) iself iother size 0
      data).2.2.2 k]
    by_cases hk : k < size ∧ k < data.length
    · rw [if_pos hk, if_pos (by omega)]
    · rw [if_neg hk, if_neg (by omega)]
  | true =>
    simp only [if_true]
    rw [(rstrip_loop_spec (opHolds cmp_op) func malloc halloc
      (if func = CompFunc.myunincmp then elsize1 >>> 2 else elsize1)
      (if func = CompFunc.myunincmp then elsize2 >>> 2 else elsize2) iself iother size 0
      data).2.2.2 k]
    by_cases hk : k < size ∧ k < data.length
    · rw [if_pos hk, if_pos (by omega)]
    · rw [if_neg hk, if_neg (by omega)]

/-- C26: the pairwise comparators are antisymmetric: for all `s1`, `s2` and
lengths, `comparator(s2, s1, N2, N1)` is the negation of `comparator(s1, s2,
N1, N2)`, so the signs are opposite, for `_mystrncmp` and `_myunincmp`; hence
at every position the `Py_GT` result of `_compare_strings` for `(a, b)` is
the `Py_LT` result for `(b, a)`, and the `Py_GE` result is the `Py_LE` result
with the operands swapped. -/
theorem C26_comparator_antisymmetric (cmp : CompFunc) (s1 s2 : List Nat) (N1 N2 : Nat)
    (malloc : Nat → Bool) (data : List Bool) (size : Nat) (a b : Nat → List Nat)
    (elsize1 elsize2 : Nat) (rstrip : Bool)
    (halloc : ∀ sz, SMALL_STRING < sz → malloc sz = true) :
    Int.sign (cmp.call s1 s2 N1 N2) = -Int.sign (cmp.call s2 s1 N2 N1) ∧
    (∀ k : Nat, (_compare_strings malloc data size a b elsize1 elsize2 Py_GT cmp rstrip).data[k]? =
      (_compare_strings malloc data size b a elsize2 elsize1 Py_LT cmp rstrip).data[k]?) ∧
    (∀ k : Nat, (_compare_strings malloc data size a b elsize1 elsize2 Py_GE cmp rstrip).data[k]? =
      (_compare_strings malloc data size b a elsize2 elsize1 Py_LE cmp rstrip).data[k]?) := by
  have hgt : ∀ v : Int, opHolds Py_GT v = opHolds Py_LT (-v) := by
    intro v
    simp only [opHolds, Py_GT, Py_LT, Py_EQ, Py_NE, Py_LE]
    simp
  have hge : ∀ v : Int, opHolds Py_GE v = opHolds Py_LE (-v) := by
    intro v
    simp only [opHolds, Py_GT, Py_LT, Py_EQ, Py_NE, Py_LE, Py_GE]
    simp
  refine ⟨?_, fun k => ?_, fun k => ?_⟩
  · rw [call_swap cmp s1 s2 N1 N2, Int.sign_neg, neg_neg]
  · rw [compare_strings_data malloc data size a b elsize1 elsize2 Py_GT cmp rstrip halloc
        (by decide) k,
      compare_strings_data malloc data size b a elsize2 elsize1 Py_LT cmp rstrip halloc
        (by decide) k, hgt, ← call_swap]
  · rw [compare_strings_data malloc data size a b elsize1 elsize2 Py_GE cmp rstrip halloc
        (by decide) k,
      compare_strings_data malloc data size b a elsize2 elsize1 Py_LE cmp rstrip halloc
        (by decide) k, hge, ← call_swap]

/-- C26 at concrete elements: `"b" > "a"` and `"a" < "b"` give the same
result. -/
theorem C26_comparator_antisymmetric_witness :
    (_compare_strings (fun _ => true) [false] 1 (fun _ => [98]) (fun _ => [97]) 1 1 Py_GT
        CompFunc.mystrncmp false).data[0]? =
      (_compare_strings (fun _ => true) [false] 1 (fun _ => [97]) (fun _ => [98]) 1 1 Py_LT
        CompFunc.mystrncmp false).data[0]? :=
  (C26_comparator_antisymmetric CompFunc.mystrncmp [98] [97] 1 1 (fun _ => true) [false] 1
    (fun _ => [98]) (fun _ => [97]) 1 1 false (fun _ _ => rfl)).2.1 0

theorem seq_trichotomy (a b : List Nat) : seqEq a b ∨ seqLt a b ∨ seqLt b a := by
  by_cases heq : seqEq a b
  · exact Or.inl heq
  · right
    have hex : ∃ i, a.getD i 0 ≠ b.getD i 0 := by
      by_contra hno
      exact heq (fun i => by
        by_contra hne
        exact hno ⟨i, hne⟩)
    have hmin : ∀ j, j < Nat.find hex → a.getD j 0 = b.getD j 0 := by
      intro j hj
      by_contra hne
      exact Nat.find_min hex hj hne
    have hdiff := Nat.find_spec hex
    by_cases hlt : a.getD (Nat.find hex) 0 < b.getD (Nat.find hex) 0
    · exact Or.inl ⟨Nat.find hex, hmin, hlt⟩
    · exact Or.inr ⟨Nat.find hex, fun j hj => (hmin j hj).symm, by omega⟩

theorem seqLt_trans (a b c : List Nat) (h1 : seqLt a b) (h2 : seqLt b c) : seqLt a c := by
  obtain ⟨i, hi, hlt1⟩ := h1
  obtain ⟨j, hj, hlt2⟩ := h2
  by_cases hij : i ≤ j
  · refine ⟨i, fun l hl => (hi l hl).trans (hj l (by omega)), ?_⟩
    by_cases he : i = j
    · subst he; omega
    · have := hj i (by omega)
      omega
  · refine ⟨j, fun l hl => (hi l (by omega)).trans (hj l hl), ?_⟩
    have := hi j (by omega)
    omega

theorem seqLt_of_eq_left (a b c : List Nat) (h1 : seqEq a b) (h2 : seqLt b c) : seqLt a c := by
  obtain ⟨j, hj, hlt⟩ := h2
  exact ⟨j, fun l hl => (h1 l).trans (hj l hl), by rw [h1 j]; exact hlt⟩

theorem seqLt_of_eq_right (a b c : List Nat) (h1 : seqLt a b) (h2 : seqEq b c) : seqLt a c := by
  obtain ⟨i, hi, hlt⟩ := h1
  exact ⟨i, fun l hl => (hi l hl).trans (h2 l), by rw [← h2 i]; exact hlt⟩

theorem seqLt_irrefl_of (a b : List Nat) (h1 : seqLt a b) : ¬ seqLt b a ∧ ¬ seqEq a b := by
  obtain ⟨i, hi, hlt⟩ := h1
  constructor
  · rintro ⟨j, hj, hlt2⟩
    by_cases hij : i < j
    · have := hj i hij
      omega
    · by_cases he : i = j
      · subst he; omega
      · have := hi j (by omega)
        omega
  · intro he
    have := he i
    omega

theorem call_of_seqEq (cmp : CompFunc) (a b : List Nat) (h : seqEq a b) :
    cmp.call a b a.length b.length = 0 := by
  obtain ⟨pc, hpc, hcall⟩ := cmp.call_eq_cmpWith
  rw [hcall, cmpWith_prefix_equal pc hpc a b (fun j _ => h j)]
  apply if_pos
  intro u hu
  unfold longerTail at hu
  split at hu
  · obtain ⟨j, hj, rfl⟩ := List.getElem_of_mem hu
    have hg : (b.drop a.length).getD j 0 = (b.drop a.length)[j] := by
      rw [List.getD_eq_getElem?_getD, List.getElem?_eq_getElem hj]; rfl
    rw [← hg, drop_getD, ← h (a.length + j)]
    exact getD_beyond a _ (by omega)
  · obtain ⟨j, hj, rfl⟩ := List.getElem_of_mem hu
    have hg : (a.drop b.length).getD j 0 = (a.drop b.length)[j] := by
      rw [List.getD_eq_getElem?_getD, List.getElem?_eq_getElem hj]; rfl
    rw [← hg, drop_getD, h (b.length + j)]
    exact getD_beyond b _ (by omega)

theorem call_of_seqLt (cmp : CompFunc) (a b : List Nat) (h : seqLt a b) :
    cmp.call a b a.length b.length < 0 := by
  obtain ⟨pc, hpc, hcall⟩ := cmp.call_eq_cmpWith
  obtain ⟨i, hi, hlt⟩ := h
  rw [hcall]
  by_cases him : i < min a.length b.length
  · exact (cmpWith_prefix_differs pc hpc a b _ _ i him hi).1 hlt
  · have hib : i < b.length := by
      by_contra hge
      rw [getD_beyond b i (by omega)] at hlt
      omega
    have hia : a.length ≤ i := by
      rw [Nat.lt_min] at him
      omega
    rw [cmpWith_prefix_equal pc hpc a b (fun j hj => hi j (by omega))]
    have hnz : ¬ ∀ u, u ∈ longerTail a b → u = 0 := by
      intro hall
      have hlen : a.length < b.length := by omega
      have hmem : b.getD i 0 ∈ longerTail a b := by
        unfold longerTail
        rw [if_pos hlen, List.getD_eq_getElem?_getD, List.getElem?_eq_getElem hib]
        simp only [Option.getD_some]
        rw [List.mem_iff_getElem]
        exact ⟨i - a.length, by simp; omega, by simp; congr 1; omega⟩
      have := hall _ hmem
      omega
    rw [if_neg hnz, if_pos (by omega)]
    decide

theorem call_of_seqGt (cmp : CompFunc) (a b : List Nat) (h : seqLt b a) :
    0 < cmp.call a b a.length b.length := by
  have := call_of_seqLt cmp b a h
  rw [call_swap cmp b a b.length a.length]
  omega

theorem padTo_getD (n : Nat) (s : List Nat) (i : Nat) : (padTo n s).getD i 0 = s.getD i 0 := by
  unfold padTo
  by_cases hi : i < s.length
  · exact append_getD_left s _ i hi
  · rw [getD_beyond s i (by omega)]
    by_cases hi2 : i < s.length + (n - s.length)
    · exact append_replicate_getD s _ 0 i (by omega) hi2
    · exact getD_beyond _ i (by simp; omega)

theorem padTo_length (n : Nat) (s : List Nat) (h : s.length ≤ n) : (padTo n s).length = n := by
  unfold padTo
  simp
  omega

theorem lexCompare_spec : ∀ (x y : List Nat), x.length = y.length →
    (seqEq x y → lexCompare x y = 0) ∧ (seqLt x y → lexCompare x y = -1) ∧
      (seqLt y x → lexCompare x y = 1) := by
  intro x
  induction x with
  | nil =>
    intro y hlen
    cases y with
    | nil =>
      refine ⟨fun _ => rfl, ?_, ?_⟩
      · rintro ⟨i, _, hlt⟩; simp at hlt
      · rintro ⟨i, _, hlt⟩; simp at hlt
    | cons b bs => simp at hlen
  | cons a as ih =>
    intro y hlen
    cases y with
    | nil => simp at hlen
    | cons b bs =>
      have hl : as.length = bs.length := by simpa using hlen
      obtain ⟨ih1, ih2, ih3⟩ := ih bs hl
      refine ⟨fun heq => ?_, fun hlt => ?_, fun hgt => ?_⟩
      · have h0 : a = b := by simpa using heq 0
        subst h0
        simp only [lexCompare, lt_self_iff_false, if_false]
        exact ih1 (fun i => by simpa using heq (i + 1))
      · obtain ⟨i, hi, hlt⟩ := hlt
        cases i with
        | zero =>
          have : a < b := by simpa using hlt
          simp [lexCompare, this]
        | succ i =>
          have h0 : a = b := by simpa using hi 0 (Nat.succ_pos i)
          subst h0
          simp only [lexCompare, lt_self_iff_false, if_false]
          exact ih2 ⟨i, fun j hj => by simpa using hi (j + 1) (by omega), by simpa using hlt⟩
      · obtain ⟨i, hi, hlt⟩ := hgt
        cases i with
        | zero =>
          have h1 : b < a := by simpa using hlt
          have h2 : ¬ a < b := by omega
          simp [lexCompare, h1, h2]
        | succ i =>
          have h0 : b = a := by simpa using hi 0 (Nat.succ_pos i)
          subst h0
          simp only [lexCompare, lt_self_iff_false, if_false]
          exact ih3 ⟨i, fun j hj => by simpa using hi (j + 1) (by omega), by simpa using hlt⟩

theorem call_le_zero_iff (cmp : CompFunc) (a b : List Nat) :
    cmp.call a b a.length b.length ≤ 0 ↔ seqEq a b ∨ seqLt a b := by
  constructor
  · intro hle
    rcases seq_trichotomy a b with h | h | h
    · exact Or.inl h
    · exact Or.inr h
    · have := call_of_seqGt cmp a b h
      omega
  · rintro (h | h)
    · rw [call_of_seqEq cmp a b h]
    · exact Int.le_of_lt (call_of_seqLt cmp a b h)

/-- C25: for unit sequences `s1`, `s2` of lengths `N1`, `N2`, the sign of the
comparator (`_mystrncmp`, and `_myunincmp` alike) is the plain lexicographic
comparison, in unsigned unit order, of `s1` and `s2` both right-padded with
NUL to length `max(N1, N2)`; hence "comparator <= 0" is a total preorder on
elements of arbitrary widths: reflexive, transitive and total. -/
theorem C25_comparator_is_padded_lex_order (cmp : CompFunc) (s1 s2 s3 : List Nat) :
    Int.sign (cmp.call s1 s2 s1.length s2.length) =
      lexCompare (padTo (max s1.length s2.length) s1) (padTo (max s1.length s2.length) s2) ∧
    Int.sign (_mystrncmp s1 s2 s1.length s2.length) =
      lexCompare (padTo (max s1.length s2.length) s1) (padTo (max s1.length s2.length) s2) ∧
    cmp.call s1 s1 s1.length s1.length = 0 ∧
    (cmp.call s1 s2 s1.length s2.length ≤ 0 → cmp.call s2 s3 s2.length s3.length ≤ 0 →
      cmp.call s1 s3 s1.length s3.length ≤ 0) ∧
    (cmp.call s1 s2 s1.length s2.length ≤ 0 ∨ cmp.call s2 s1 s2.length s1.length ≤ 0) := by
  have hsign : ∀ c : CompFunc, Int.sign (c.call s1 s2 s1.length s2.length) =
      lexCompare (padTo (max s1.length s2.length) s1)
        (padTo (max s1.length s2.length) s2) := by
    intro c
    have hlen : (padTo (max s1.length s2.length) s1).length =
        (padTo (max s1.length s2.length) s2).length := by
      rw [padTo_length _ _ (Nat.le_max_left _ _), padTo_length _ _ (Nat.le_max_right _ _)]
    obtain ⟨l1, l2, l3⟩ := lexCompare_spec _ _ hlen
    rcases seq_trichotomy s1 s2 with h | h | h
    · rw [call_of_seqEq c s1 s2 h, l1 (fun i => by rw [padTo_getD, padTo_getD]; exact h i)]
      rfl
    · rw [Int.sign_eq_neg_one_of_neg (call_of_seqLt c s1 s2 h)]
      obtain ⟨i, hi, hlt⟩ := h
      exact (l2 ⟨i, fun j hj => by rw [padTo_getD, padTo_getD]; exact hi j hj,
        by rw [padTo_getD, padTo_getD]; exact hlt⟩).symm
    · rw [Int.sign_eq_one_of_pos (call_of_seqGt c s1 s2 h)]
      obtain ⟨i, hi, hlt⟩ := h
      exact (l3 ⟨i, fun j hj => by rw [padTo_getD, padTo_getD]; exact hi j hj,
        by rw [padTo_getD, padTo_getD]; exact hlt⟩).symm
  refine ⟨hsign cmp, hsign CompFunc.mystrncmp, call_self cmp s1 _, ?_, ?_⟩
  · intro h12 h23
    rw [call_le_zero_iff] at h12 h23 ⊢
    rcases h12 with h12 | h12
    · rcases h23 with h23 | h23
      · exact Or.inl (fun i => (h12 i).trans (h23 i))
      · exact Or.inr (seqLt_of_eq_left s1 s2 s3 h12 h23)
    · rcases h23 with h23 | h23
      · exact Or.inr (seqLt_of_eq_right s1 s2 s3 h12 h23)
      · exact Or.inr (seqLt_trans s1 s2 s3 h12 h23)
  · rcases seq_trichotomy s1 s2 with h | h | h
    · exact Or.inl ((call_le_zero_iff cmp s1 s2).mpr (Or.inl h))
    · exact Or.inl ((call_le_zero_iff cmp s1 s2).mpr (Or.inr h))
    · exact Or.inr ((call_le_zero_iff cmp s2 s1).mpr (Or.inr h))

/-- C25 at concrete elements of three different widths: `"a" <= "ab"` and
`"ab" <= "abc"` give `"a" <= "abc"`. -/
theorem C25_comparator_is_padded_lex_order_witness :
    _mystrncmp [97] [97, 98, 99] 1 3 ≤ 0 :=
  (C25_comparator_is_padded_lex_order CompFunc.mystrncmp [97] [97, 98] [97, 98, 99]).2.2.2.1
    (by decide) (by decide)

/-! ### Row-major layouts and empty shapes -/

theorem one_le_prod (l : List Int) (h : ∀ d ∈ l, 1 ≤ d) : 1 ≤ l.prod := by
  induction l with
  | nil => simp
  | cons a as ih =>
    have ha : 1 ≤ a := h a (List.mem_cons_self a as)
    have hp : 1 ≤ as.prod := ih (fun d hd => h d (List.mem_cons_of_mem a hd))
    rw [List.prod_cons]
    nlinarith

theorem rowMajorStrides_getD (elsize : Int) (dims : List Int) (i : Nat) (hi : i < dims.length) :
    (rowMajorStrides elsize dims).getD i 0 = elsize * (dims.drop (i + 1)).prod := by
  unfold rowMajorStrides
  rw [List.getD_eq_getElem _ _ (by simpa using hi)]
  simp

theorem prod_split (dims : List Int) (i : Nat) (hi : i < dims.length) :
    dims.prod = (dims.take i).prod * (dims.getD i 0 * (dims.drop (i + 1)).prod) := by
  rw [← List.prod_take_mul_prod_drop dims i, List.drop_eq_getElem_cons hi, List.prod_cons,
    List.getD_eq_getElem _ _ hi]

/-- C27: for every `elsize > 0` and every shape `dims` (of any number of
axes, zero included) whose extents are all at least 1, with the row-major
strides `strides[i] = elsize * product(dims[i+1..nd-1])`, `offset = 0` and
`numbytes` either 0 or `elsize * product(dims)`, `PyArray_CheckStrides`
returns TRUE. -/
theorem C27_row_major_accepted (elsize : Int) (dims : List Int) (numbytes : Int)
    (hel : 0 < elsize) (hd : ∀ d ∈ dims, 1 ≤ d)
    (hnb : numbytes = 0 ∨ numbytes = elsize * dims.prod) :
    PyArray_CheckStrides elsize dims.length numbytes 0 dims (rowMajorStrides elsize dims)
      = true := by
  unfold PyArray_CheckStrides PyArray_MultiplyList
  simp only []
  rw [checkStridesLoop_iff]
  intro j _ hj
  have hj2 : j < dims.length := by omega
  have hnum : (if numbytes = 0 then (List.take dims.length dims).prod * elsize else numbytes)
      = dims.prod * elsize := by
    rcases hnb with h | h
    · rw [if_pos h, List.take_length]
    · split
      · rw [List.take_length]
      · rw [h, mul_comm]
  rw [hnum, rowMajorStrides_getD elsize dims j hj2, prod_split dims j hj2]
  have hA : 1 ≤ (dims.take j).prod :=
    one_le_prod _ (fun d hd2 => hd d (List.mem_of_mem_take hd2))
  have hP : 1 ≤ (dims.drop (j + 1)).prod :=
    one_le_prod _ (fun d hd2 => hd d (List.mem_of_mem_drop hd2))
  have hdj : 1 ≤ dims.getD j 0 := by
    rw [List.getD_eq_getElem _ _ hj2]
    exact hd _ (List.getElem_mem _)
  generalize (dims.take j).prod = A at hA ⊢
  generalize (dims.drop (j + 1)).prod = P at hP ⊢
  generalize dims.getD j 0 = d at hdj ⊢
  have h1 : 0 ≤ P * (d - 1) := mul_nonneg (by omega) (by omega)
  have h2 : d * P ≤ A * (d * P) := le_mul_of_one_le_left (by positivity) hA
  constructor
  · have : 0 ≤ elsize * (P * (d - 1)) := mul_nonneg (by omega) h1
    linarith
  · have h3 : P * (d - 1) + 1 ≤ A * (d * P) := by nlinarith
    have h4 : elsize * (P * (d - 1) + 1) ≤ elsize * (A * (d * P)) :=
      mul_le_mul_of_nonneg_left h3 (by omega)
    linarith

/-- C27 at the shape `(2, 3, 4)` of 8-byte elements: the strides are
`(96, 32, 8)`. -/
theorem C27_row_major_accepted_witness :
    rowMajorStrides 8 [2, 3, 4] = [96, 32, 8] ∧
      PyArray_CheckStrides 8 3 0 0 [2, 3, 4] (rowMajorStrides 8 [2, 3, 4]) = true :=
  ⟨by decide, C27_row_major_accepted 8 [2, 3, 4] 0 (by decide) (by decide) (Or.inl rfl)⟩

theorem checkStrides_zero_extent (elsize : Int) (nd : Nat) (offset : Int)
    (dims newstrides : List Int) (i : Nat) (hel : 0 < elsize) (hi : i < nd)
    (hnd : nd ≤ dims.length) (hz : dims.getD i 0 = 0) :
    PyArray_CheckStrides elsize nd 0 offset dims newstrides = false := by
  have hmem : (0 : Int) ∈ dims.take nd := by
    have hil : i < (dims.take nd).length := by
      rw [List.length_take]; omega
    have hget : (dims.take nd)[i] = 0 := by
      rw [List.getElem_take]
      rw [List.getD_eq_getElem _ _ (by omega)] at hz
      exact hz
    rw [← hget]
    exact List.getElem_mem _
  have hprod : (dims.take nd).prod = 0 := List.prod_eq_zero hmem
  rw [Bool.eq_false_iff]
  intro htrue
  unfold PyArray_CheckStrides PyArray_MultiplyList at htrue
  simp only [if_true, hprod, zero_mul] at htrue
  rw [checkStridesLoop_iff] at htrue
  have := htrue 0 (Nat.le_refl 0) (by omega)
  omega

/-- C28 as stated fails on the consequence drawn for `array_new`: with shape
`(0,)`, 8-byte items, no buffer and the explicit strides `(8, 8)`,
`PyArray_CheckStrides` would return FALSE, yet `array_new` never calls it and
fails with the other ValueError, "strides, if given, must be the same length as
shape". -/
theorem C28_counterexample_strides_length :
    PyArray_CheckStrides 8 1 0 0 [0] [8, 8] = false ∧
      array_new plainNewEnv [0] 8 none 0 (some [8, 8]) false
        = Except.error ArrayNewError.stridesLength ∧
      array_new plainNewEnv [0] 8 none 0 (some [8, 8]) false
        ≠ Except.error ArrayNewError.stridesIncompatible := by
  refine ⟨by decide, rfl, ?_⟩
  intro h
  injection h with h
  exact absurd h (by decide)

/-- C28 (amended): for every `elsize > 0`, `nd >= 1`, offset and strides, if
`numbytes` is passed as 0 and some extent `dims[i]` with `i < nd` is 0,
`PyArray_CheckStrides` returns FALSE; consequently `array_new` called with a
data type of item size `elsize`, no buffer, a shape containing a zero extent
and explicit strides of the same length as the shape fails with the "strides
is incompatible" ValueError, whatever the called functions would do. -/
theorem C28_zero_extent_rejected {Obj : Type} (env : ArrayNewEnv Obj) (elsize : Int)
    (nd : Nat) (offset : Int) (dims newstrides : List Int) (i : Nat) (is_f_order : Bool)
    (hel : 0 < elsize) (hi : i < nd) (hnd : nd ≤ dims.length) (hz : dims.getD i 0 = 0) :
    PyArray_CheckStrides elsize nd 0 offset dims newstrides = false ∧
      (nd = dims.length → newstrides.length = dims.length →
        array_new env dims elsize none offset (some newstrides) is_f_order
          = Except.error ArrayNewError.stridesIncompatible) := by
  refine ⟨checkStrides_zero_extent elsize nd offset dims newstrides i hel hi hnd hz, ?_⟩
  intro hnd2 hlen
  subst hnd2
  have hcheck := checkStrides_zero_extent elsize dims.length 0 dims newstrides i hel hi hnd hz
  have hne : elsize ≠ 0 := by omega
  unfold array_new
  rw [if_neg hne]
  have hs : arrayNewStrides dims elsize none offset (some newstrides)
      = some ArrayNewError.stridesIncompatible := by
    unfold arrayNewStrides
    simp only [hlen, ne_eq, not_true_eq_false, if_false, hcheck, Bool.not_false, if_true]
  rw [hs]

/-- C28 (amended) at the shape `(3, 0)` of 8-byte items with the strides
`(8, 8)`. -/
theorem C28_zero_extent_rejected_witness :
    PyArray_CheckStrides 8 2 0 0 [3, 0] [8, 8] = false ∧
      array_new plainNewEnv [3, 0] 8 none 0 (some [8, 8]) false
        = Except.error ArrayNewError.stridesIncompatible :=
  ⟨(C28_zero_extent_rejected plainNewEnv 8 2 0 [3, 0] [8, 8] 1 false (by decide) (by decide)
      (by decide) (by decide)).1,
    (C28_zero_extent_rejected plainNewEnv 8 2 0 [3, 0] [8, 8] 1 false (by decide) (by decide)
      (by decide) (by decide)).2 rfl rfl⟩

/-! ### `PyArray_CopyObject` -/

theorem copyObject_scalar_path {Obj : Type} (env : CopyEnv Obj) (dest : CopyDest)
    (src_object : Obj) (p : ArrayParams Obj)
    (hparams : env.PyArray_GetArrayParamsFromObjectEx (copyObjectSource env dest src_object) dest
      = some p)
    (hsrc : p.src = none) (hndim : p.ndim = 0) (hcna : p.contains_na = false)
    (hna : (env.PyArray_HasNASupport dest &&
      env.NpyNA_FromObject (copyObjectSource env dest src_object)) = false)
    (hscalar : env.PyArray_IsScalar (copyObjectSource env dest src_object) = false)
    (hsize : PyArray_SIZE dest = 1) :
    PyArray_CopyObject env dest src_object =
      copyObjectSetitem env dest (copyObjectSource env dest src_object) := by
  unfold PyArray_CopyObject
  simp only [hparams, hcna, Bool.false_and, hsrc, hndim, if_true]
  unfold copyObjectScalar
  simp only [hscalar, hna, hsize, if_true]
  rfl

/-- C22: in the scalar path of `PyArray_CopyObject` (the source is not an
array, contains no NA and is no NA, is zero-dimensional and not an array
scalar, and `dest` has exactly one element) the value is written by the
`setitem` of the dtype and the result of `setitem` is returned.  When `dest`
has a validity mask and `setitem` writes neither the flags nor the mask: if
`setitem` returns 0, the call returns 0 and the mask is the old one with entry
0 set to 1; if `setitem` fails, its result is returned and the mask is
unchanged.  Without a mask the mask bytes are never written. -/
theorem C22_scalar_setitem_unmasks {Obj : Type} (env : CopyEnv Obj) (dest : CopyDest)
    (src_object : Obj) (p : ArrayParams Obj)
    (hparams : env.PyArray_GetArrayParamsFromObjectEx (copyObjectSource env dest src_object) dest
      = some p)
    (hsrc : p.src = none) (hndim : p.ndim = 0) (hcna : p.contains_na = false)
    (hna : (env.PyArray_HasNASupport dest &&
      env.NpyNA_FromObject (copyObjectSource env dest src_object)) = false)
    (hscalar : env.PyArray_IsScalar (copyObjectSource env dest src_object) = false)
    (hsize : PyArray_SIZE dest = 1)
    (hflags : (env.setitem (copyObjectSource env dest src_object) dest).2.flags = dest.flags)
    (hmask : (env.setitem (copyObjectSource env dest src_object) dest).2.maskna_data
      = dest.maskna_data) :
    (PyArray_CopyObject env dest src_object).ret
        = (env.setitem (copyObjectSource env dest src_object) dest).1 ∧
      (PyArray_CopyObject env dest src_object).dest.data
        = (env.setitem (copyObjectSource env dest src_object) dest).2.data ∧
      (PyArray_HASMASKNA dest = true →
        (env.setitem (copyObjectSource env dest src_object) dest).1 = 0 →
          (PyArray_CopyObject env dest src_object).ret = 0 ∧
          (PyArray_CopyObject env dest src_object).dest.maskna_data
            = dest.maskna_data.set 0 1 ∧
          (0 < dest.maskna_data.length →
            (PyArray_CopyObject env dest src_object).dest.maskna_data.getD 0 0 = 1)) ∧
      ((env.setitem (copyObjectSource env dest src_object) dest).1 ≠ 0 →
        (PyArray_CopyObject env dest src_object).dest.maskna_data = dest.maskna_data) ∧
      (PyArray_HASMASKNA dest = false →
        (PyArray_CopyObject env dest src_object).dest.maskna_data = dest.maskna_data) := by
  rw [copyObject_scalar_path env dest src_object p hparams hsrc hndim hcna hna hscalar hsize]
  have hhas : PyArray_HASMASKNA (env.setitem (copyObjectSource env dest src_object) dest).2
      = PyArray_HASMASKNA dest := by
    unfold PyArray_HASMASKNA
    rw [hflags]
  unfold copyObjectSetitem
  simp only [hhas]
  refine ⟨?_, ?_, ?_, ?_, ?_⟩
  · split <;> rfl
  · split <;> rfl
  · intro hm h0
    rw [if_pos ⟨h0, hm⟩]
    refine ⟨h0, ?_, ?_⟩
    · simp only [hmask]
    · intro hlen
      simp only [hmask]
      rw [List.getD_eq_getElem _ _ (by simpa using hlen)]
      simp
  · intro hne
    rw [if_neg (fun h => hne h.1)]
    exact hmask
  · intro hm
    rw [if_neg (fun h => by rw [hm] at h; exact absurd h.2 (by decide))]
    exact hmask

/-- C22 on a one-element masked array whose element is masked out: storing 7
succeeds and sets the mask entry to 1. -/
theorem C22_scalar_setitem_unmasks_witness :
    PyArray_CopyObject byteEnv ⟨[1], [0], [0], NPY_ARRAY_MASKNA, false, 2⟩ 7
      = ⟨0, ⟨[1], [7], [1], NPY_ARRAY_MASKNA, false, 2⟩⟩ ∧
    (PyArray_CopyObject byteEnv ⟨[1], [0], [0], NPY_ARRAY_MASKNA, false, 2⟩ 7).dest.maskna_data
      = [1] :=
  ⟨by decide,
    ((C22_scalar_setitem_unmasks byteEnv ⟨[1], [0], [0], NPY_ARRAY_MASKNA, false, 2⟩ 7
      ⟨0, [], false, none⟩ rfl rfl rfl rfl (by decide) rfl (by decide) (by decide)
      (by decide)).2.2.1 (by decide) (by decide)).2.1⟩

theorem voidFieldLoop_titles_only {Arr : Type} (env : Collaborators Arr) (self other : Arr)
    (cmp_op : Nat) (op : NumOp) (nd : Nat) :
    ∀ (entries : List (Nat × FieldValue)) (res : Option CmpObj),
      canonicalFields entries = [] →
      voidFieldLoop env self other cmp_op op nd entries res = Except.ok res := by
  intro entries
  induction entries with
  | nil => intro res _; rfl
  | cons kv entries ih =>
    intro res hcan
    obtain ⟨key, value⟩ := kv
    by_cases ht : NPY_TITLE_KEY key value = true
    · have hcan2 : canonicalFields ((key, value) :: entries) = canonicalFields entries := by
        simp [canonicalFields, ht]
      rw [hcan2] at hcan
      rw [voidFieldLoop, if_pos ht]
      exact ih res hcan
    · have hcan2 : canonicalFields ((key, value) :: entries) =
          (key, value) :: canonicalFields entries := by
        simp [canonicalFields, ht]
      rw [hcan2] at hcan
      exact absurd hcan (List.cons_ne_nil _ _)

/-- C23: for `cmp_op` in `{Py_EQ, Py_NE}`, `_void_compare` on an array with
fields whose `fields` dictionary holds no entry that is not a title entry
fails with the error "No fields found." and returns no result, whatever the
operands and the functions it could call are. -/
theorem C23_no_fields_found {Arr : Type} (env : Collaborators Arr) (self other : Arr)
    (cmp_op : Nat) (hop : cmp_op = Py_EQ ∨ cmp_op = Py_NE)
    (hf : env.PyArray_HASFIELDS self = true)
    (hcanon : canonicalFields (env.fields self) = []) :
    _void_compare env self other cmp_op = Except.error PyErr.NoFieldsFound := by
  have hguard : (!(cmp_op == Py_EQ || cmp_op == Py_NE)) = false := by
    rcases hop with h | h <;> simp [h]
  unfold _void_compare
  rw [hguard, hf, voidFieldLoop_titles_only env self other cmp_op (reduceOp cmp_op)
    (result_ndim env self other) (env.fields self) none hcanon]
  rfl

/-- C23 on two record arrays whose dictionary holds a single title entry,
compared with `Py_NE`. -/
theorem C23_no_fields_found_witness :
    _void_compare (boolCollaborators 1 1 [(5, ⟨some 5⟩)] (fun _ _ => Py_True))
        RecOperand.self RecOperand.other Py_NE = Except.error PyErr.NoFieldsFound :=
  C23_no_fields_found (boolCollaborators 1 1 [(5, ⟨some 5⟩)] (fun _ _ => Py_True))
    RecOperand.self RecOperand.other Py_NE (Or.inr rfl) rfl (by decide)

end NumpyCore
